import Mathlib

/-!
IPAM deficit / excess engine of `cce-network-v2/pkg/ipam/net_resource.go`.

A shallow embedding of the per-node IPAM engine (`NetResource`) and proofs of
properties of its arithmetic (`calculateNeededIPs`, `calculateExcessIPs`), of
`determineMaintenanceAction`, of the IP-release handshake (`handleIPRelease`)
and of `maintainIPPool`.

Conventions of the embedding.

* Go `int` values are IP counts and configuration values; they are modelled as
  mathematical integers (`Int`).  `calculateNeededIPs64` and
  `calculateExcessIPs64` are the same functions with 64-bit wrap-around, and
  agree with the integer versions on all inputs of magnitude at most `2 ^ 60`.
* Go maps keyed by IP are association lists; `range` visits the entries in list
  order, and since every statement quantifies over all lists it covers every
  iteration order.  The maps of a `NetResource` are allocated (non-nil).
* `time.Time` instants and `time.Duration` are integers counting nanoseconds.
* Calls on the `ops` interface and on the pod store are oracles; the calls of a
  maintenance pass on `ops` that prepare or perform a change are recorded in a
  trace.  Logging and metrics are not modelled.

The definitions of the other components follow, each with its own
introduction: the ENI reconciler (`Bcesync`), the node capacity (`Limit`), the
rate-limited cloud client (`Cloud`) and the standard adapter (`Vpceni`).  The
theorems come after all definitions, component by component.
-/

namespace Ipam

/-! ## Deficit / excess arithmetic -/

/-- Modelled from the spec: `math.IntMax` (package `pkg/math` is not part of the
sources) is the `max` of the two integers, as in the formulas of section 4.3. -/
def IntMax (a b : Int) : Int := if a > b then a else b

/-- Modelled from the spec: `math.IntMin` (package `pkg/math` is not part of the
sources) is the minimum of the two integers ("clamp the requested count"). -/
def IntMin (a b : Int) : Int := if a < b then a else b

/-- The function `calculateNeededIPs` of `net_resource.go`, lines 305-328. -/
def calculateNeededIPs
    (availableIPs usedIPs preAllocate minAllocate maxAllocate burstableENIIPs : Int) : Int :=
  let neededIPs := preAllocate - (availableIPs - usedIPs)
  let neededIPs :=
    if minAllocate > 0 then IntMax neededIPs (minAllocate - availableIPs) else neededIPs
  let neededIPs :=
    if neededIPs > 0 ∧ burstableENIIPs > 0 then burstableENIIPs else neededIPs
  let neededIPs :=
    if maxAllocate > 0 ∧ availableIPs + neededIPs > maxAllocate then maxAllocate - availableIPs
    else neededIPs
  if neededIPs < 0 then 0 else neededIPs

/-- The function `calculateExcessIPs` of `net_resource.go`, lines 330-359. -/
def calculateExcessIPs
    (availableIPs usedIPs preAllocate minAllocate maxAboveWatermark burstableMehrfachENI : Int) :
    Int :=
  if burstableMehrfachENI > 0 then 0
  else if usedIPs ≤ minAllocate + maxAboveWatermark ∧
      availableIPs ≤ minAllocate + maxAboveWatermark then 0
  else
    let excessIPs := availableIPs - usedIPs - preAllocate - maxAboveWatermark
    if excessIPs < 0 then 0 else excessIPs

/-- The five-step formula for `neededIPs` as written in section 4.3 of the
specification, with `max` read as the mathematical maximum. -/
def neededIPsFormula
    (available used preAllocate minAllocate maxAllocate burstableENIIPs : Int) : Int :=
  let s1 := preAllocate - (available - used)
  let s2 := if minAllocate > 0 then max s1 (minAllocate - available) else s1
  let s3 := if s2 > 0 ∧ burstableENIIPs > 0 then burstableENIIPs else s2
  let s4 := if maxAllocate > 0 ∧ available + s3 > maxAllocate then maxAllocate - available else s3
  max s4 0

/-! ## The arithmetic on 64-bit machine integers -/

/-- Two's-complement wrap-around of a 64-bit Go `int`. -/
def wrap64 (x : Int) : Int := (x + 9223372036854775808) % 18446744073709551616 - 9223372036854775808

/-- The function `calculateNeededIPs` on 64-bit machine integers: every
addition and subtraction wraps around. -/
def calculateNeededIPs64
    (availableIPs usedIPs preAllocate minAllocate maxAllocate burstableENIIPs : Int) : Int :=
  let neededIPs := wrap64 (preAllocate - wrap64 (availableIPs - usedIPs))
  let neededIPs :=
    if minAllocate > 0 then IntMax neededIPs (wrap64 (minAllocate - availableIPs)) else neededIPs
  let neededIPs :=
    if neededIPs > 0 ∧ burstableENIIPs > 0 then burstableENIIPs else neededIPs
  let neededIPs :=
    if maxAllocate > 0 ∧ wrap64 (availableIPs + neededIPs) > maxAllocate then
      wrap64 (maxAllocate - availableIPs)
    else neededIPs
  if neededIPs < 0 then 0 else neededIPs

/-- The function `calculateExcessIPs` on 64-bit machine integers. -/
def calculateExcessIPs64
    (availableIPs usedIPs preAllocate minAllocate maxAboveWatermark burstableMehrfachENI : Int) :
    Int :=
  if burstableMehrfachENI > 0 then 0
  else if usedIPs ≤ wrap64 (minAllocate + maxAboveWatermark) ∧
      availableIPs ≤ wrap64 (minAllocate + maxAboveWatermark) then 0
  else
    let excessIPs :=
      wrap64 (wrap64 (wrap64 (availableIPs - usedIPs) - preAllocate) - maxAboveWatermark)
    if excessIPs < 0 then 0 else excessIPs

/-! ## Data model -/

/-- A `time.Time` instant, in nanoseconds. -/
abbrev Time := Int

/-- The constant `time.Second`, in nanoseconds. -/
def Second : Int := 1000000000

/-- The constant `time.Hour`, in nanoseconds. -/
def Hour : Int := 3600 * Second

/-- The constant `warningInterval` of `net_resource.go`, line 46. -/
def warningInterval : Int := Hour

/-- A Go `error` value; `Option Error` is an `error` that may be `nil`. -/
abbrev Error := String

/-- Handshake state `marked-for-release`, set by the operator (the constants of
package `ipam/option` are taken from the comment of `handleIPRelease`). -/
def IPAMMarkForRelease : String := "marked-for-release"

/-- Handshake state `ready-for-release`, set by the agent. -/
def IPAMReadyForRelease : String := "ready-for-release"

/-- Handshake state `do-not-release`, set by the agent. -/
def IPAMDoNotRelease : String := "do-not-release"

/-- Handshake state `released`, set by the operator. -/
def IPAMReleased : String := "released"

/-- A Go `map[string]V`, as an association list. -/
abbrev GoMap (V : Type) := List (String × V)

/-- The lookup `v, ok := m[k]`. -/
def mapGet {V : Type} (m : GoMap V) (k : String) : Option V := List.lookup k m

/-- The builtin `delete(m, k)`. -/
def mapDelete {V : Type} (m : GoMap V) (k : String) : GoMap V :=
  m.filter (fun e => e.1 != k)

/-- The assignment `m[k] = v`. -/
def mapSet {V : Type} (m : GoMap V) (k : String) (v : V) : GoMap V :=
  if (mapGet m k).isSome then m.map (fun e => if e.1 == k then (k, v) else e)
  else m ++ [(k, v)]

/-- The type `Statistics` of `net_resource.go`, lines 133-152. -/
structure Statistics where
  UsedIPs : Int
  AvailableIPs : Int
  NeededIPs : Int
  ExcessIPs : Int
  RemainingInterfaces : Int
  deriving DecidableEq, Repr

/-- The type `AllocationAction` of `net_resource.go`, lines 554-585 (the
interface revision it carries is not inspected by the engine and is left out). -/
structure AllocationAction where
  InterfaceID : String
  PoolID : String
  AvailableForAllocationIPv4 : Int
  AvailableForAllocationIPv6 : Int
  MaxIPsToAllocate : Int
  AvailableInterfaces : Int
  deriving DecidableEq, Repr

/-- The type `ReleaseAction` of `net_resource.go`, lines 590-604. -/
structure ReleaseAction where
  InterfaceID : String
  PoolID : String
  IPsToRelease : List String
  deriving DecidableEq, Repr

/-- The type `maintenanceAction` of `net_resource.go`, lines 610-613; a `nil`
pointer is `none`. -/
structure maintenanceAction where
  allocation : Option AllocationAction
  release : Option ReleaseAction
  deriving DecidableEq, Repr

/-- The part `Status.IPAM` of the `NetResourceSet` custom resource that the
release handshake reads: the map `ReleaseIPs` written by the agent; and the map
`Used` of the addresses in use, of which `recalculate` only counts the keys. -/
structure IPAMStatus where
  ReleaseIPs : GoMap String
  Used : GoMap String := []
  deriving DecidableEq, Repr

/-- The part `Spec.IPAM` of the `NetResourceSet` custom resource: the
thresholds read by `recalculate`. -/
structure IPAMSpec where
  MinAllocate : Int := 0
  PreAllocate : Int := 0
  MaxAboveWatermark : Int := 0
  MaxAllocate : Int := 0
  deriving DecidableEq, Repr

/-- The part `Spec.ENI` of the `NetResourceSet` custom resource read by
`getBurstableENIs`. -/
structure ENISpecOfNode where
  BurstableMehrfachENI : Int := 0
  deriving DecidableEq, Repr

/-- The field `Spec` of the `NetResourceSet` custom resource. -/
structure NetResourceSetSpec where
  IPAM : IPAMSpec := {}
  ENI : ENISpecOfNode := {}
  deriving DecidableEq, Repr

/-- The field `Status` of the `NetResourceSet` custom resource. -/
structure NetResourceSetStatus where
  IPAM : IPAMStatus
  deriving DecidableEq, Repr

/-- The `NetResourceSet` custom resource (its declaration is not part of the
sources; only the fields the handshake reads are kept). -/
structure NetResourceSet where
  Status : NetResourceSetStatus
  Spec : NetResourceSetSpec := {}
  deriving DecidableEq, Repr

/-- The per-node state `NetResource` of `net_resource.go`, lines 51-130, with
the fields the pool maintenance reads or writes; `releaseExcessIPs` is the
flag `n.manager.releaseExcessIPs`, and a zero `time.Time` (of
`lastMaxAdapterWarning`, `instanceStoppedRunning`, `resyncNeeded`) is `none`.
The pointer `n.resource` is `nil` exactly when `hasResource` is false, and then
the field `resource` is not read.  The map `available` keeps the interface of
each address. -/
structure NetResource where
  name : String
  resource : NetResourceSet
  stats : Statistics
  lastMaxAdapterWarning : Option Time
  ipsMarkedForRelease : GoMap Time
  ipReleaseStatus : GoMap String
  releaseExcessIPs : Bool
  hasResource : Bool := true
  instanceRunning : Bool := true
  instanceStoppedRunning : Option Time := none
  waitingForPoolMaintenance : Bool := false
  resyncNeeded : Option Time := none
  available : GoMap String := []
  deriving DecidableEq, Repr

/-- The methods of the interface `NetResourceOperations` that pool maintenance
calls, as oracles.  `PrepareIPAllocation` follows the implementations of
`node_bcc.go` and `node_ebc.go`, which return a non-nil action whenever the
error is nil. -/
structure NetResourceOperations where
  PrepareIPRelease : Int → Option ReleaseAction
  PrepareIPAllocation : Except Error AllocationAction
  AllocateIPs : AllocationAction → Option Error
  ReleaseIPs : ReleaseAction → Option Error
  CreateInterface : AllocationAction → Int × String × Option Error
  GetMaximumBurstableAllocatableIPv4 : Int
  ResyncInterfacesAndIPs : Except Error (GoMap String) := Except.ok []
  IsPrefixDelegated : Bool := false
  GetUsedIPWithPrefixes : Int := 0
  GetMaximumAllocatableIPv4 : Int := 0

/-- One recorded call on the `ops` interface. -/
inductive OpsCall where
  | PrepareIPRelease (excessIPs : Int)
  | PrepareIPAllocation
  | AllocateIPs (a : AllocationAction)
  | ReleaseIPs (r : ReleaseAction)
  | CreateInterface (a : AllocationAction)
  deriving DecidableEq, Repr

/-- A pod of the pod store, with its `Status.Phase`. -/
structure Pod where
  Phase : String
  deriving DecidableEq, Repr

/-- The constant `v1.PodPending`. -/
def PodPending : String := "Pending"

/-- What one maintenance pass reads from outside the node state: the clock, the
operator option `ExcessIPReleaseDelay` and the pod store.  `releaseTS` is the
reading of `time.Now()` at line 768, `now ip` the reading at line 800 in the
iteration that examines `ip`, `sinceNow` and `warnNow` the readings of lines 528
and 530, `runningNow` the one of line 158 and `resyncNow` the one of line 927.
A `nil` pod store is `none`; otherwise it maps a node name to the
result of the index lookup.  `InstancesAPIIsReady` is the answer of the
manager, `hasRetry` tells whether the trigger `n.retry` is set, `isIPv6 s` tells
whether `net.ParseIP s` is a valid address that is not an IPv4 address, and
`IPAMPreAllocation` is the constant of package `defaults`. -/
structure Env where
  releaseTS : Time
  now : String → Time
  sinceNow : Time
  warnNow : Time
  ExcessIPReleaseDelay : Int
  PodStore : Option (String → Except Error (List Pod))
  InstancesAPIIsReady : Bool := true
  hasRetry : Bool := true
  runningNow : Time := 0
  resyncNow : Time := 0
  isIPv6 : String → Bool := (fun _ => false)
  IPAMPreAllocation : Int := 8

/-- The values `(instanceMutated, err)` returned by a step of pool maintenance,
with the node state it leaves and the calls it made on `ops`, in order. -/
structure PassResult where
  n : NetResource
  calls : List OpsCall
  instanceMutated : Bool
  err : Option Error
  deriving DecidableEq, Repr

/-- What `MaintainIPPool` returns and does: the error, the node state it
leaves, the calls of the pass on `ops`, and whether the triggers `n.retry` and
`n.manager.resyncTrigger` were fired. -/
structure MaintainResult where
  n : NetResource
  calls : List OpsCall
  retryTriggered : Bool
  resyncTriggered : Bool
  err : Option Error
  deriving DecidableEq, Repr

/-- The local variables of `handleIPRelease` together with the node state. -/
structure ReleaseLoopState where
  n : NetResource
  ipsToMark : List String
  ipsToRelease : List String
  deriving DecidableEq, Repr

/-! ## Pool maintenance -/

/-- The function `getPendingPodCount` of `net_resource.go`, lines 287-303. -/
def getPendingPodCount (env : Env) (nodeName : String) : Int × Option Error :=
  match env.PodStore with
  | none => (0, some "pod store uninitialized")
  | some byIndex =>
    match byIndex nodeName with
    | .error e => (0, some ("unable to access pod to node name index: " ++ e))
    | .ok values =>
      (values.foldl (fun pendingPods p => if p.Phase == PodPending then pendingPods + 1
        else pendingPods) 0, none)

/-- The method `determineMaintenanceAction` of `net_resource.go`, lines 615-680:
the node state it leaves, the calls on `ops`, and the returned pair. -/
def determineMaintenanceAction (env : Env) (ops : NetResourceOperations) (n : NetResource) :
    NetResource × List OpsCall × Option maintenanceAction × Option Error :=
  let stats := n.stats
  if n.releaseExcessIPs ∧ stats.ExcessIPs > 0 ∧ ops.GetMaximumBurstableAllocatableIPv4 = 0 then
    (n, [OpsCall.PrepareIPRelease stats.ExcessIPs],
      some { allocation := none, release := ops.PrepareIPRelease stats.ExcessIPs }, none)
  else if stats.NeededIPs = 0 then
    (n, [], none, none)
  else
    match ops.PrepareIPAllocation with
    | .error err => (n, [OpsCall.PrepareIPAllocation], none, some err)
    | .ok allocation =>
      let surgeAllocate :=
        match getPendingPodCount env n.name with
        | (_, some _) => 0
        | (numPendingPods, none) =>
          if numPendingPods > stats.NeededIPs then numPendingPods - stats.NeededIPs else 0
      let allocation := { allocation with MaxIPsToAllocate := stats.NeededIPs + surgeAllocate }
      ({ n with stats := { n.stats with RemainingInterfaces := allocation.AvailableInterfaces } },
        [OpsCall.PrepareIPAllocation],
        some { allocation := some allocation, release := none }, none)

/-- The method `removeStaleReleaseIPs` of `net_resource.go`, lines 685-696. -/
def removeStaleReleaseIPs (n : NetResource) : NetResource :=
  n.ipReleaseStatus.foldl (fun n e =>
    if e.2 != IPAMReleased then n
    else if (mapGet n.resource.Status.IPAM.ReleaseIPs e.1).isNone then
      { n with ipReleaseStatus := mapDelete n.ipReleaseStatus e.1 }
    else n) n

/-- The body of the loop of `abortNoLongerExcessIPs`, lines 706-719, for the
entry `(ip, status)` of `resource.Status.IPAM.ReleaseIPs`; a missing key of
`excessMap` reads as `false`. -/
def abortStep (excessMap : GoMap Bool) (n : NetResource) (e : String × String) : NetResource :=
  if (mapGet excessMap e.1).getD false then n
  else if e.2 == IPAMReleased then n
  else
    match mapGet n.ipReleaseStatus e.1 with
    | some status =>
      if status != IPAMReleased then
        { n with
          ipsMarkedForRelease := mapDelete n.ipsMarkedForRelease e.1
          ipReleaseStatus := mapDelete n.ipReleaseStatus e.1 }
      else n
    | none => n

/-- The method `abortNoLongerExcessIPs` of `net_resource.go`, lines 700-720; a
`nil` map `excessMap` is the empty list. -/
def abortNoLongerExcessIPs (n : NetResource) (excessMap : GoMap Bool) : NetResource :=
  if n.resource.Status.IPAM.ReleaseIPs.length = 0 then n
  else n.resource.Status.IPAM.ReleaseIPs.foldl (abortStep excessMap) n

/-- The method `handleIPReleaseResponse` of `net_resource.go`, lines 723-741:
the node state, the slice `*ipsToRelease` and the returned flag. -/
def handleIPReleaseResponse (n : NetResource) (markedIP : String) (ipsToRelease : List String) :
    NetResource × List String × Bool :=
  match mapGet n.resource.Status.IPAM.ReleaseIPs markedIP with
  | some status =>
    if status == IPAMReadyForRelease then (n, ipsToRelease ++ [markedIP], true)
    else if status == IPAMDoNotRelease then
      ({ n with
          ipsMarkedForRelease := mapDelete n.ipsMarkedForRelease markedIP
          ipReleaseStatus := mapDelete n.ipReleaseStatus markedIP },
        ipsToRelease, true)
    else (n, ipsToRelease, true)
  | none => (n, ipsToRelease, false)

/-- The method `deleteLocalReleaseStatus` of `net_resource.go`, lines 743-747. -/
def deleteLocalReleaseStatus (n : NetResource) (ip : String) : NetResource :=
  { n with ipReleaseStatus := mapDelete n.ipReleaseStatus ip }

/-- Lines 769-775 of `handleIPRelease`: record the timestamp `releaseTS` for the
IPs of this pass that are not tracked yet. -/
def markNewExcessIPs (releaseTS : Time) (n : NetResource) (a : maintenanceAction) :
    NetResource :=
  match a.release with
  | some release =>
    release.IPsToRelease.foldl (fun n ip =>
      if (mapGet n.ipsMarkedForRelease ip).isNone then
        { n with ipsMarkedForRelease := mapSet n.ipsMarkedForRelease ip releaseTS }
      else n) n
  | none => n

/-- Lines 777-780 of `handleIPRelease`: reset of `ipsMarkedForRelease` when the
pass has no IPs to release (the map itself is never `nil`). -/
def resetIfNothingToRelease (n : NetResource) (a : maintenanceAction) : NetResource :=
  match a.release with
  | none => { n with ipsMarkedForRelease := [] }
  | some release =>
    if release.IPsToRelease.length = 0 then { n with ipsMarkedForRelease := [] } else n

/-- The body of the loop of lines 782-809 of `handleIPRelease`, for the entry
`(markedIP, ts)` and the excess list `a.release.IPsToRelease`. -/
def handshakeStep (env : Env) (excess : List String) (st : ReleaseLoopState)
    (e : String × Time) : ReleaseLoopState :=
  let markedIP := e.1
  let ts := e.2
  let stillMarkedForRelease := excess.any (fun ip => markedIP == ip)
  if !stillMarkedForRelease then
    { st with
      n := deleteLocalReleaseStatus
        { st.n with ipsMarkedForRelease := mapDelete st.n.ipsMarkedForRelease markedIP }
        markedIP }
  else if ts + env.ExcessIPReleaseDelay * Second > env.now markedIP then st
  else
    let r := handleIPReleaseResponse st.n markedIP st.ipsToRelease
    if r.2.2 then { st with n := r.1, ipsToRelease := r.2.1 }
    else { n := r.1, ipsToMark := st.ipsToMark ++ [markedIP], ipsToRelease := r.2.1 }

/-- Lines 782-809 of `handleIPRelease`: the loop over `ipsMarkedForRelease`.
Without a release action the map has just been reset, so no iteration runs. -/
def handshakeLoop (env : Env) (n : NetResource) (a : maintenanceAction) : ReleaseLoopState :=
  match a.release with
  | none => { n := n, ipsToMark := [], ipsToRelease := [] }
  | some release =>
    n.ipsMarkedForRelease.foldl (handshakeStep env release.IPsToRelease)
      { n := n, ipsToMark := [], ipsToRelease := [] }

/-- Lines 811-816 of `handleIPRelease`: the status of the IPs in `ipsToMark`
becomes `marked-for-release`. -/
def markForRelease (n : NetResource) (ipsToMark : List String) : NetResource :=
  ipsToMark.foldl (fun n ip =>
    { n with ipReleaseStatus := mapSet n.ipReleaseStatus ip IPAMMarkForRelease }) n

/-- Lines 819-825 of `handleIPRelease`: the map `excessMap`. -/
def excessMapOf (a : maintenanceAction) : GoMap Bool :=
  match a.release with
  | some release =>
    if release.IPsToRelease.length > 0 then
      release.IPsToRelease.foldl (fun m ip => mapSet m ip true) []
    else []
  | none => []

/-- Lines 762-826 of `handleIPRelease`: everything up to and including the call
of `abortNoLongerExcessIPs`, that is the state in which the real release is
decided. -/
def handleIPReleasePrepare (env : Env) (n : NetResource) (a : maintenanceAction) :
    ReleaseLoopState :=
  let n := markNewExcessIPs env.releaseTS n a
  let n := resetIfNothingToRelease n a
  let st := handshakeLoop env n a
  let n := markForRelease st.n st.ipsToMark
  let n := abortNoLongerExcessIPs n (excessMapOf a)
  { st with n := n }

/-- Lines 844-851 of `handleIPRelease`: bookkeeping after a successful release. -/
def recordReleased (n : NetResource) (ipsToRelease : List String) : NetResource :=
  ipsToRelease.foldl (fun n ip =>
    { n with
      ipsMarkedForRelease := mapDelete n.ipsMarkedForRelease ip
      ipReleaseStatus := mapSet n.ipReleaseStatus ip IPAMReleased }) n

/-- The method `handleIPRelease` of `net_resource.go`, lines 762-861.  The
branch with IPs to release but no release action cannot be reached: without a
release action the loop collects nothing. -/
def handleIPRelease (env : Env) (ops : NetResourceOperations) (n : NetResource)
    (a : maintenanceAction) : PassResult :=
  let st := handleIPReleasePrepare env n a
  if st.ipsToRelease.length > 0 then
    match a.release with
    | some release =>
      let release := { release with IPsToRelease := st.ipsToRelease }
      match ops.ReleaseIPs release with
      | none =>
        { n := recordReleased st.n st.ipsToRelease, calls := [OpsCall.ReleaseIPs release],
          instanceMutated := true, err := none }
      | some err =>
        { n := st.n, calls := [OpsCall.ReleaseIPs release], instanceMutated := false,
          err := some err }
    | none => { n := st.n, calls := [], instanceMutated := false, err := none }
  else { n := st.n, calls := [], instanceMutated := false, err := none }

/-- The method `createInterface` of `net_resource.go`, lines 522-548. -/
def createInterface (env : Env) (ops : NetResourceOperations) (n : NetResource)
    (a : AllocationAction) : PassResult :=
  if a.AvailableInterfaces = 0 then
    let n :=
      match n.lastMaxAdapterWarning with
      | some last =>
        if env.sinceNow - last > warningInterval then
          { n with lastMaxAdapterWarning := some env.warnNow }
        else n
      | none => n
    { n := n, calls := [], instanceMutated := false, err := none }
  else
    match ops.CreateInterface a with
    | (_, _, some err) =>
      { n := n, calls := [OpsCall.CreateInterface a], instanceMutated := false, err := some err }
    | (_, _, none) =>
      { n := n, calls := [OpsCall.CreateInterface a], instanceMutated := true, err := none }

/-- The method `handleIPAllocation` of `net_resource.go`, lines 865-896. -/
def handleIPAllocation (env : Env) (ops : NetResourceOperations) (n : NetResource)
    (a : maintenanceAction) : PassResult :=
  match a.allocation with
  | none => { n := n, calls := [], instanceMutated := false, err := none }
  | some allocation =>
    if allocation.AvailableForAllocationIPv4 > 0 ∨ allocation.AvailableForAllocationIPv6 > 0 then
      let maxIPNum := allocation.MaxIPsToAllocate
      let allocation :=
        { allocation with
          AvailableForAllocationIPv4 := IntMin allocation.AvailableForAllocationIPv4 maxIPNum
          AvailableForAllocationIPv6 := IntMin allocation.AvailableForAllocationIPv6 maxIPNum }
      match ops.AllocateIPs allocation with
      | none =>
        { n := n, calls := [OpsCall.AllocateIPs allocation], instanceMutated := true,
          err := none }
      | some _ =>
        let r := createInterface env ops n allocation
        { r with calls := OpsCall.AllocateIPs allocation :: r.calls }
    else createInterface env ops n allocation

/-- The method `maintainIPPool` of `net_resource.go`, lines 901-923. -/
def maintainIPPool (env : Env) (ops : NetResourceOperations) (n : NetResource) : PassResult :=
  let n := if n.releaseExcessIPs then removeStaleReleaseIPs n else n
  match determineMaintenanceAction env ops n with
  | (n, calls, _, some err) =>
    { n := abortNoLongerExcessIPs n [], calls := calls, instanceMutated := false,
      err := some err }
  | (n, calls, none, none) =>
    { n := abortNoLongerExcessIPs n [], calls := calls, instanceMutated := false, err := none }
  | (n, calls, some a, none) =>
    let r := handleIPRelease env ops n a
    if r.instanceMutated ∨ r.err ≠ none then { r with calls := calls ++ r.calls }
    else
      let r2 := handleIPAllocation env ops r.n a
      { r2 with calls := calls ++ r.calls ++ r2.calls }

/-! ## The entry point `MaintainIPPool` and the recalculation -/

/-- The constant `time.Minute`, in nanoseconds. -/
def Minute : Int := 60 * Second

/-- The method `IsRunning` of `net_resource.go`, lines 155-159; the zero time
plus one minute is before every reading of the clock. -/
def IsRunning (env : Env) (n : NetResource) : Bool :=
  n.instanceRunning &&
    (match n.instanceStoppedRunning with
     | none => true
     | some stopped => decide (stopped + Minute < env.runningNow))

/-- The method `getPreAllocate` of `net_resource.go`, lines 233-238. -/
def getPreAllocate (env : Env) (n : NetResource) : Int :=
  if n.resource.Spec.IPAM.PreAllocate ≠ 0 then n.resource.Spec.IPAM.PreAllocate
  else env.IPAMPreAllocation

/-- The method `getMinAllocate` of `net_resource.go`, lines 243-245. -/
def getMinAllocate (n : NetResource) : Int := n.resource.Spec.IPAM.MinAllocate

/-- The method `getMaxAboveWatermark` of `net_resource.go`, lines 226-228. -/
def getMaxAboveWatermark (n : NetResource) : Int := n.resource.Spec.IPAM.MaxAboveWatermark

/-- The method `getMaxAllocate` of `net_resource.go`, lines 252-263. -/
def getMaxAllocate (ops : NetResourceOperations) (n : NetResource) : Int :=
  let instanceMax := ops.GetMaximumAllocatableIPv4
  if n.resource.Spec.IPAM.MaxAllocate > 0 then
    if n.resource.Spec.IPAM.MaxAllocate > instanceMax then instanceMax
    else n.resource.Spec.IPAM.MaxAllocate
  else instanceMax

/-- The method `getMaxIPBurstableIPCount` of `net_resource.go`, lines 265-267. -/
def getMaxIPBurstableIPCount (ops : NetResourceOperations) : Int :=
  ops.GetMaximumBurstableAllocatableIPv4

/-- The method `requirePoolMaintenance` of `net_resource.go`, lines 361-365. -/
def requirePoolMaintenance (n : NetResource) : NetResource :=
  { n with waitingForPoolMaintenance := true }

/-- The method `poolMaintenanceComplete` of `net_resource.go`, lines 367-371. -/
def poolMaintenanceComplete (n : NetResource) : NetResource :=
  { n with waitingForPoolMaintenance := false }

/-- The method `resourceAttached` of `net_resource.go`, lines 413-418. -/
def resourceAttached (n : NetResource) : Bool := n.hasResource

/-- The count of the keys of an allocation map that `recalculate` takes for
IPv4 addresses (lines 442-447 and 457-462): those for which `net.ParseIP` fails
or gives an IPv4 address. -/
def countIPv4 (env : Env) (m : GoMap String) : Int :=
  m.foldl (fun count e => if !env.isIPv6 e.1 then count + 1 else count) 0

/-- The method `recalculate` of `net_resource.go`, lines 420-477. -/
def recalculate (env : Env) (ops : NetResourceOperations) (n : NetResource) : NetResource :=
  if !resourceAttached n then n
  else
    match ops.ResyncInterfacesAndIPs with
    | .error _ => { n with stats := { n.stats with NeededIPs := 0, ExcessIPs := 0 } }
    | .ok a =>
      let usedIPs := countIPv4 env n.resource.Status.IPAM.Used
      let usedIPForExcessCalc := if ops.IsPrefixDelegated then ops.GetUsedIPWithPrefixes else usedIPs
      let availableIPs := countIPv4 env a
      { n with
        available := a
        stats :=
          { n.stats with
            UsedIPs := usedIPs
            AvailableIPs := availableIPs
            NeededIPs := calculateNeededIPs availableIPs usedIPs (getPreAllocate env n)
              (getMinAllocate n) (getMaxAllocate ops n) (getMaxIPBurstableIPCount ops)
            ExcessIPs := calculateExcessIPs availableIPs usedIPForExcessCalc
              (getPreAllocate env n) (getMinAllocate n) (getMaxAboveWatermark n)
              (getMaxIPBurstableIPCount ops) } }

/-- The method `allocationNeeded` of `net_resource.go`, lines 480-485. -/
def allocationNeeded (n : NetResource) : Bool :=
  !n.waitingForPoolMaintenance && n.resyncNeeded.isNone && decide (n.stats.NeededIPs > 0)

/-- The method `releaseNeeded` of `net_resource.go`, lines 488-497. -/
def releaseNeeded (n : NetResource) : Bool :=
  let needed := n.releaseExcessIPs && !n.waitingForPoolMaintenance && n.resyncNeeded.isNone &&
    decide (n.stats.ExcessIPs > 0)
  if n.hasResource then
    let releaseInProgress := decide (n.resource.Status.IPAM.ReleaseIPs.length > 0)
    needed || releaseInProgress
  else needed

/-- The method `requireResync` of `net_resource.go`, lines 925-929. -/
def requireResync (env : Env) (n : NetResource) : NetResource :=
  { n with resyncNeeded := some env.resyncNow }

/-- The method `MaintainIPPool` of `net_resource.go`, lines 942-975; the
deferred `poolMaintenanceComplete` runs on every return. -/
def MaintainIPPool (env : Env) (ops : NetResourceOperations) (n : NetResource) :
    MaintainResult :=
  let n := requirePoolMaintenance n
  if !env.InstancesAPIIsReady then
    { n := poolMaintenanceComplete n, calls := [], retryTriggered := env.hasRetry,
      resyncTriggered := false,
      err := some ("instances API is unstable. Blocking mutating operations. " ++
        "See logs for details") }
  else if !IsRunning env n then
    { n := poolMaintenanceComplete n, calls := [], retryTriggered := false,
      resyncTriggered := false, err := none }
  else
    let r := maintainIPPool env ops n
    let n := if r.err = none then requireResync env r.n else r.n
    let n := recalculate env ops n
    { n := poolMaintenanceComplete n, calls := r.calls, retryTriggered := false,
      resyncTriggered := r.instanceMutated || r.err.isSome, err := r.err }

/-! ## Concrete scenarios -/

/-- A clock and configuration with a zero release delay and an empty pod store. -/
def exampleEnv : Env :=
  { releaseTS := 100, now := (fun _ => 100), sinceNow := 100, warnNow := 100,
    ExcessIPReleaseDelay := 0, PodStore := some (fun _ => Except.ok []) }

/-- An adapter that proposes three IPs of one interface for release and whose
cloud calls succeed. -/
def exampleOps : NetResourceOperations :=
  { PrepareIPRelease := (fun _ =>
      some { InterfaceID := "eni-1", PoolID := "sbn-1",
             IPsToRelease := ["10.0.0.1", "10.0.0.2", "10.0.0.3"] }),
    PrepareIPAllocation := Except.ok
      { InterfaceID := "eni-1", PoolID := "sbn-1", AvailableForAllocationIPv4 := 3,
        AvailableForAllocationIPv6 := 0, MaxIPsToAllocate := 0, AvailableInterfaces := 1 },
    AllocateIPs := (fun _ => none),
    ReleaseIPs := (fun _ => none),
    CreateInterface := (fun _ => (0, "", none)),
    GetMaximumBurstableAllocatableIPv4 := 0 }

/-- The adapter `exampleOps` with a failing `ReleaseIPs`. -/
def failingReleaseOps : NetResourceOperations :=
  { exampleOps with ReleaseIPs := (fun _ => some "release failed") }

/-- The adapter `exampleOps` with a failing `PrepareIPAllocation`. -/
def failingPrepareOps : NetResourceOperations :=
  { exampleOps with PrepareIPAllocation := Except.error "failed to refresh ebc info" }

/-- The release action that `exampleOps` prepares, as a maintenance action. -/
def releaseOnlyAction : maintenanceAction :=
  { allocation := none,
    release := some { InterfaceID := "eni-1", PoolID := "sbn-1",
                      IPsToRelease := ["10.0.0.1", "10.0.0.2", "10.0.0.3"] } }

/-- An allocation-only maintenance action. -/
def allocationOnlyAction : maintenanceAction :=
  { allocation := some
      { InterfaceID := "eni-1", PoolID := "sbn-1", AvailableForAllocationIPv4 := 3,
        AvailableForAllocationIPv6 := 0, MaxIPsToAllocate := 2, AvailableInterfaces := 1 },
    release := none }

/-- A node with 10 available and 2 used addresses and 6 excess ones, in the
middle of a handshake: the agent has answered for two tracked IPs, and a third
tracked IP is no longer proposed for release. -/
def excessNode : NetResource :=
  { name := "node-1",
    resource := { Status := { IPAM := { ReleaseIPs :=
      [("10.0.0.1", IPAMReadyForRelease), ("10.0.0.2", IPAMDoNotRelease)] } } },
    stats := { UsedIPs := 2, AvailableIPs := 10, NeededIPs := 0, ExcessIPs := 6,
               RemainingInterfaces := 0 },
    lastMaxAdapterWarning := none,
    ipsMarkedForRelease := [("10.0.0.1", 0), ("10.0.0.2", 0), ("10.0.0.9", 0)],
    ipReleaseStatus := [("10.0.0.1", IPAMMarkForRelease), ("10.0.0.2", IPAMMarkForRelease),
                        ("10.0.0.9", IPAMMarkForRelease)],
    releaseExcessIPs := true }

/-- A node with 5 available and 5 used addresses that needs 2 more, and which
still tracks an IP of an earlier pass whose status the agent has not seen. -/
def deficitNode : NetResource :=
  { name := "node-1",
    resource := { Status := { IPAM := { ReleaseIPs := [] } } },
    stats := { UsedIPs := 5, AvailableIPs := 5, NeededIPs := 2, ExcessIPs := 0,
               RemainingInterfaces := 0 },
    lastMaxAdapterWarning := none,
    ipsMarkedForRelease := [("10.0.0.9", 0)],
    ipReleaseStatus := [("10.0.0.9", IPAMMarkForRelease)],
    releaseExcessIPs := true }

/-- A node with neither deficit nor excess that still tracks an IP since time
0, an IP whose cool-down had not elapsed when it stopped being excess. -/
def settledNode : NetResource :=
  { name := "node-1",
    resource := { Status := { IPAM := { ReleaseIPs := [] } } },
    stats := { UsedIPs := 5, AvailableIPs := 7, NeededIPs := 0, ExcessIPs := 0,
               RemainingInterfaces := 0 },
    lastMaxAdapterWarning := none,
    ipsMarkedForRelease := [("10.0.0.9", 0)],
    ipReleaseStatus := [],
    releaseExcessIPs := true }

/-- A pass at 100 seconds with a release delay of 300 seconds. -/
def delayedEnv : Env :=
  { releaseTS := 100 * Second, now := (fun _ => 100 * Second), sinceNow := 100 * Second,
    warnNow := 100 * Second, ExcessIPReleaseDelay := 300,
    PodStore := some (fun _ => Except.ok []) }

/-- A later pass: the clock reads 400 seconds and the release delay is 300
seconds. -/
def laterEnv : Env :=
  { releaseTS := 400 * Second, now := (fun _ => 400 * Second), sinceNow := 400 * Second,
    warnNow := 400 * Second, ExcessIPReleaseDelay := 300,
    PodStore := some (fun _ => Except.ok []) }

/-- A release action of a later pass that proposes an IP tracked since an
earlier pass together with a fresh one. -/
def laterReleaseAction : maintenanceAction :=
  { allocation := none,
    release := some { InterfaceID := "eni-1", PoolID := "sbn-1",
                      IPsToRelease := ["10.0.0.9", "10.0.0.7"] } }

/-- The node `excessNode` while a maintenance pass is in flight. -/
def waitingNode : NetResource :=
  { excessNode with waitingForPoolMaintenance := true }

/-- An allocation action when the instance has no interface left. -/
def exhaustedAction : AllocationAction :=
  { InterfaceID := "", PoolID := "", AvailableForAllocationIPv4 := 0,
    AvailableForAllocationIPv6 := 0, MaxIPsToAllocate := 2, AvailableInterfaces := 0 }

/-- The node `deficitNode` after a warning was recorded at time 0. -/
def warnedNode : NetResource :=
  { deficitNode with lastMaxAdapterWarning := some 0 }

/-- A pass two hours after time 0. -/
def twoHoursEnv : Env :=
  { releaseTS := 7200 * Second, now := (fun _ => 7200 * Second), sinceNow := 7200 * Second,
    warnNow := 7200 * Second, ExcessIPReleaseDelay := 300,
    PodStore := some (fun _ => Except.ok []), runningNow := 7200 * Second,
    resyncNow := 7200 * Second }

end Ipam

/-!
ENI reconciler of `cce-network-v2/pkg/bce/bcesync/eni.go`.

The custom resource `ccev2.ENI`, the cloud view `eni.Eni` and the state machine
`eniStateMachine` with the handlers of `eniSyncher`.  The cloud client, the
remote syncer, the updater and the listers are oracles of an `EniWorld`; every
call that reaches them, and every recorded event, is put in a trace.  The
classification of errors (`cloud.IsErrorReasonNoSuchObject`, `kerrors.IsConflict`
and the like) is an oracle too.
-/

namespace Bcesync

open Ipam

/-! ## Constants -/

/-- The constant `ENIReadyTimeToAttach` of `eni.go`, line 32. -/
def ENIReadyTimeToAttach : Int := 1 * Second

/-- The constant `ENIMaxCreateDuration` of `eni.go`, line 33. -/
def ENIMaxCreateDuration : Int := 5 * Minute

/-- The constant `FinalizerENI` of `eni.go`, line 35. -/
def FinalizerENI : String := "eni-syncer"

/-- Modelled from the spec: the VPC status `available` of package `ccev2`, which
is not part of the sources. -/
def VPCENIStatusAvailable : String := "available"

/-- Modelled from the spec: the VPC status `attaching` of package `ccev2`. -/
def VPCENIStatusAttaching : String := "attaching"

/-- Modelled from the spec: the VPC status `in-use` of package `ccev2`. -/
def VPCENIStatusInuse : String := "in-use"

/-- Modelled from the spec: the VPC status `detaching` of package `ccev2`. -/
def VPCENIStatusDetaching : String := "detaching"

/-- Modelled from the spec: the VPC status `deleted` of package `ccev2`. -/
def VPCENIStatusDeleted : String := "deleted"

/-- Modelled from the spec: the interface type HPC-RDMA of package `ccev2`. -/
def ENIForHPC : String := "hpc"

/-- Modelled from the spec: the interface type ERI of package `ccev2`. -/
def ENIForERI : String := "eri"

/-- Modelled from the spec: the interface type BBC of package `ccev2`. -/
def ENIForBBC : String := "bbc"

/-- Modelled from the spec: the text of `ccev2.SchemeGroupVersion.String()`, the
group and version of the import path `apis/cce.baidubce.com/v2`. -/
def SchemeGroupVersion : String := "cce.baidubce.com/v2"

/-- Modelled from the spec: the kind `ccev2.NRSKindDefinition` of the per-node
custom resource. -/
def NRSKindDefinition : String := "NetResourceSet"

/-- Modelled from the spec: the annotation key `k8s.AnnotationENIIPv6PrimaryIP`
(package `k8s` is not part of the sources; any fixed key). -/
def AnnotationENIIPv6PrimaryIP : String := "cce.baidubce.com/ipv6-primary-ip"

/-! ## Data model -/

/-- An owner reference of the object metadata. -/
structure OwnerReference where
  APIVersion : String
  Kind : String
  Name : String
  UID : String
  deriving DecidableEq, Repr

/-- The type `models.PrivateIP`, with the fields set by `ToModelPrivateIP`. -/
structure PrivateIP where
  PublicIPAddress : String
  PrivateIPAddress : String
  Primary : Bool
  SubnetID : String
  deriving DecidableEq, Repr

/-- The type `enisdk.PrivateIp` of the cloud SDK. -/
structure SdkPrivateIp where
  PublicIpAddress : String
  PrivateIpAddress : String
  Primary : Bool
  deriving DecidableEq, Repr

/-- The cloud view `eni.Eni` of an interface, with the fields read by the state
machine. -/
structure VpcEni where
  EniId : String
  Name : String
  MacAddress : String
  InstanceId : String
  SecurityGroupIds : List String
  EnterpriseSecurityGroupIds : List String
  Description : String
  VpcId : String
  ZoneName : String
  SubnetId : String
  PrivateIpSet : List SdkPrivateIp
  Ipv6PrivateIpSet : List SdkPrivateIp
  Status : String
  deriving DecidableEq, Repr

/-- The field `Spec.ENI` of the custom resource (type `models.ENI`). -/
structure ENIModel where
  ID : String
  Name : String
  MacAddress : String
  InstanceID : String
  SecurityGroupIds : List String
  EnterpriseSecurityGroupIds : List String
  Description : String
  VpcID : String
  ZoneName : String
  SubnetID : String
  PrivateIPSet : List PrivateIP
  IPV6PrivateIPSet : List PrivateIP
  deriving DecidableEq, Repr

/-- The field `Spec` of the custom resource `ccev2.ENI`; `ENIType` is its field
`Type`. -/
structure ENISpec where
  NodeName : String
  ENIType : String
  ENI : ENIModel
  deriving DecidableEq, Repr

/-- The field `Status` of the custom resource `ccev2.ENI`. -/
structure ENIStatus where
  VPCStatus : String
  CCEStatus : String
  deriving DecidableEq, Repr

/-- The custom resource `ccev2.ENI`; a `nil` deletion timestamp or annotation
map is `none`. -/
structure ENI where
  Name : String
  CreationTimestamp : Time
  DeletionTimestamp : Option Time
  Finalizers : List String
  OwnerReferences : List OwnerReference
  Annotations : Option (GoMap String)
  Spec : ENISpec
  Status : ENIStatus
  deriving DecidableEq, Repr

/-- What `mangeFinalizer` reads of the owning `NetResourceSet`. -/
structure NodeObject where
  UID : String
  DeletionTimestamp : Option Time
  deriving DecidableEq, Repr

/-- An `error` value inside the reconciler: an error returned as it is by a
client (`api`), an error built by `fmt.Errorf` from a text (`wrapped`), or a
`*cm.DelayEvent` made by `cm.NewDelayEvent`. -/
inductive SyncError where
  | api (e : Error)
  | wrapped (msg : String)
  | delay (key : String) (duration : Int) (reason : String)
  deriving DecidableEq, Repr

/-- One call that leaves the reconciler, or one recorded event. -/
inductive EniCall where
  | statENI (eniID : String)
  | AttachENI (instanceID eniID : String)
  | DeleteENI (eniID : String)
  | updaterUpdate (obj : ENI)
  | updaterUpdateStatus (obj : ENI)
  | updaterDelete (name : String)
  | listerGet (name : String)
  | Event (reason : String)
  deriving DecidableEq, Repr

/-- The collaborators of the reconciler, as oracles: the remote syncer
(`statENI`, `useENIMachine`), the cloud client (`AttachENI` with the instance
and the interface, `DeleteENI`), the updater (`Update`, `UpdateStatus`, `Delete`
and its lister), the API client used to re-fetch (`clientGet`), the lister of
`NetResourceSet` objects (`nodeGet`), the clock, the helper `SearchSubnetID` and
the predicates on errors of packages `cloud` and `kerrors`. -/
structure EniWorld where
  statENI : String → Except Error VpcEni
  useENIMachine : Bool
  AttachENI : String → String → Option Error
  DeleteENI : String → Option Error
  updaterUpdate : ENI → Except Error ENI
  updaterUpdateStatus : ENI → Except Error ENI
  updaterDelete : String → Option Error
  listerGet : String → Option ENI × Option Error
  clientGet : String → Except Error ENI
  nodeGet : String → Option NodeObject × Option Error
  now : Time
  SearchSubnetID : String → String → String → String
  IsErrorReasonNoSuchObject : Error → Bool
  IsErrorENINotFound : Error → Bool
  IsConflict : Error → Bool
  IsResourceExpired : Error → Bool
  IsNotFound : Error → Bool

/-- The state of an `eniStateMachine` after `start`: `resource` is
`esm.resource`, `obj` is the object of the caller, which `esm.resource` points
to until `start` replaces the pointer by the answer of the updater. -/
structure MachineResult where
  obj : ENI
  resource : ENI
  isSync : Bool
  calls : List EniCall
  err : Option SyncError
  deriving DecidableEq, Repr

/-- The error returned by `handleENIUpdate` and the calls it made. -/
structure HandleResult where
  calls : List EniCall
  err : Option SyncError
  deriving DecidableEq, Repr

/-- One step of `eniSyncher.Update`: the re-fetch before attempt `retry`, or the
attempt itself with what `handleENIUpdate` returned. -/
inductive UpdateEvent where
  | refetch (retry : Nat) (name : String)
  | attempt (retry : Nat) (resource : ENI) (r : HandleResult)
  deriving DecidableEq, Repr

/-- The error returned by `eniSyncher.Update` and its steps, in order. -/
structure UpdateResult where
  events : List UpdateEvent
  err : Option SyncError
  deriving DecidableEq, Repr

/-! ## The handlers of `eniSyncher` and the state machine -/

/-- The predicate `kerrors.IsConflict` on an error of the reconciler: only an
error that comes from a client can be a conflict. -/
def isConflict (w : EniWorld) : Option SyncError → Bool
  | some (SyncError.api e) => w.IsConflict e
  | _ => false

/-- The predicate `kerrors.IsResourceExpired` on an error of the reconciler. -/
def isResourceExpired (w : EniWorld) : Option SyncError → Bool
  | some (SyncError.api e) => w.IsResourceExpired e
  | _ => false

/-- Modelled from the spec: the method `ENIStatus.AppendVPCStatus` of package
`ccev2`, which is not part of the sources, records the observed cloud status as
the local VPC status. -/
def AppendVPCStatus (s : ENIStatus) (vpcStatus : String) : ENIStatus :=
  { s with VPCStatus := vpcStatus }

/-- The function `ToModelPrivateIP` of `eni.go`, lines 566-578. -/
def ToModelPrivateIP (w : EniWorld) (ipset : List SdkPrivateIp) (vpcID subnetID : String) :
    List PrivateIP :=
  ipset.map (fun pip =>
    { PublicIPAddress := pip.PublicIpAddress, PrivateIPAddress := pip.PrivateIpAddress,
      Primary := pip.Primary,
      SubnetID := w.SearchSubnetID vpcID subnetID pip.PrivateIpAddress })

/-- The loop of `ElectENIIPv6PrimaryIP`, lines 548-557: the address set after
the loop and the flag `havePromaryIPv6`. -/
def electLoop (old : String) : List PrivateIP → List PrivateIP × Bool
  | [] => ([], false)
  | ip :: rest =>
    if ip.PrivateIPAddress == old then ({ ip with Primary := true } :: rest, false)
    else if ip.Primary then (ip :: rest, true)
    else ((ip :: (electLoop old rest).1), (electLoop old rest).2)

/-- The function `ElectENIIPv6PrimaryIP` of `eni.go`, lines 541-563. -/
def ElectENIIPv6PrimaryIP (newObj : ENI) : ENI :=
  if newObj.Spec.ENI.IPV6PrivateIPSet.length > 0 then
    let annotations := newObj.Annotations.getD []
    let old := (mapGet annotations AnnotationENIIPv6PrimaryIP).getD ""
    let r := electLoop old newObj.Spec.ENI.IPV6PrivateIPSet
    if !r.2 then
      match r.1 with
      | first :: rest =>
        { newObj with
          Annotations := some (mapSet annotations AnnotationENIIPv6PrimaryIP first.PrivateIPAddress)
          Spec := { newObj.Spec with ENI := { newObj.Spec.ENI with
                      IPV6PrivateIPSet := { first with Primary := true } :: rest } } }
      | [] => { newObj with Annotations := some annotations }
    else
      { newObj with
        Annotations := some annotations
        Spec := { newObj.Spec with ENI := { newObj.Spec.ENI with IPV6PrivateIPSet := r.1 } } }
  else newObj

/-- The function `updateENISpecFromVPCENI` of `eni.go`, lines 454-468. -/
def updateENISpecFromVPCENI (w : EniWorld) (resource : ENI) (vpceni : VpcEni) : ENI :=
  ElectENIIPv6PrimaryIP
    { resource with
      Spec := { resource.Spec with
        ENI :=
          { ID := vpceni.EniId, Name := vpceni.Name, MacAddress := vpceni.MacAddress,
            InstanceID := vpceni.InstanceId, SecurityGroupIds := vpceni.SecurityGroupIds,
            EnterpriseSecurityGroupIds := vpceni.EnterpriseSecurityGroupIds,
            Description := vpceni.Description, VpcID := vpceni.VpcId,
            ZoneName := vpceni.ZoneName, SubnetID := vpceni.SubnetId,
            PrivateIPSet := ToModelPrivateIP w vpceni.PrivateIpSet vpceni.VpcId vpceni.SubnetId,
            IPV6PrivateIPSet :=
              ToModelPrivateIP w vpceni.Ipv6PrivateIpSet vpceni.VpcId vpceni.SubnetId } } }

/-- The removal of the finalizer at the label `removeFinalizer` of
`mangeFinalizer`, lines 313-326. -/
def removeFinalizer (newObj : ENI) : ENI × Bool :=
  let finalizers := newObj.Finalizers.filter (fun f => f != FinalizerENI)
  if finalizers.length = 0 then ({ newObj with Finalizers := [] }, true)
  else ({ newObj with Finalizers := finalizers }, false)

/-- Lines 287-290 of `mangeFinalizer`: an object that is not being deleted and
has no finalizer gets the finalizer of the syncer. -/
def addFinalizer (newObj : ENI) : ENI :=
  if newObj.DeletionTimestamp.isNone ∧ newObj.Finalizers.length = 0 then
    { newObj with Finalizers := newObj.Finalizers ++ [FinalizerENI] }
  else newObj

/-- Lines 293-311 of `mangeFinalizer`: for an object that is being deleted and
has finalizers, the four tests that lead to the label `removeFinalizer`. -/
def guardFinalizer (w : EniWorld) (newObj : ENI) : ENI × Bool :=
  if newObj.DeletionTimestamp.isSome ∧ newObj.Finalizers.length ≠ 0 then
    let node := (w.nodeGet newObj.Spec.NodeName).1
    let err := (w.nodeGet newObj.Spec.NodeName).2
    if (match err with | some e => w.IsNotFound e | none => false) then removeFinalizer newObj
    else if (match node with | some nd => nd.DeletionTimestamp.isSome | none => false) then
      removeFinalizer newObj
    else if (match node, newObj.OwnerReferences with
        | some nd, owner :: _ => nd.UID != owner.UID
        | _, _ => false) then
      removeFinalizer newObj
    else if newObj.Status.VPCStatus != VPCENIStatusDeleted ∧
        newObj.Status.VPCStatus != VPCENIStatusInuse then
      removeFinalizer newObj
    else (newObj, false)
  else (newObj, false)

/-- The method `mangeFinalizer` of `eni.go`, lines 285-327: the object after the
call and the returned flag. -/
def mangeFinalizer (w : EniWorld) (newObj : ENI) : ENI × Bool :=
  guardFinalizer w (addFinalizer newObj)

/-- Lines 512-520 of `deleteENI`: after the cloud delete went through, record
the event and delete the custom resource. -/
def deleteResource (w : EniWorld) (resource : ENI) : List EniCall × Option SyncError :=
  ([EniCall.DeleteENI resource.Spec.ENI.ID, EniCall.Event "DeleteENISuccess",
      EniCall.updaterDelete resource.Name],
    match w.updaterDelete resource.Name with
    | some e =>
      some (SyncError.wrapped ("failed to delete eni(" ++ resource.Name ++
        ") crd resource: " ++ e))
    | none => none)

/-- The method `deleteENI` of `eni.go`, lines 506-521: its calls and its error. -/
def deleteENI (w : EniWorld) (resource : ENI) : List EniCall × Option SyncError :=
  match w.DeleteENI resource.Spec.ENI.ID with
  | some err =>
    if !w.IsErrorReasonNoSuchObject err && !w.IsErrorENINotFound err then
      ([EniCall.DeleteENI resource.Spec.ENI.ID, EniCall.Event "DeleteENIFailed"],
        some (SyncError.wrapped ("failed to delete eni(" ++ resource.Spec.ENI.ID ++ "): " ++
          err)))
    else deleteResource w resource
  | none => deleteResource w resource

/-- The test `CreationTimestamp.Add(ENIMaxCreateDuration).Before(time.Now())`
of lines 479 and 531. -/
def expired (w : EniWorld) (resource : ENI) : Bool :=
  decide (resource.CreationTimestamp + ENIMaxCreateDuration < w.now)

/-- The method `attachENI` of `eni.go`, lines 472-503. -/
def attachENI (w : EniWorld) (resource : ENI) (vpceni : VpcEni) :
    List EniCall × Option SyncError :=
  if vpceni.Status != VPCENIStatusAvailable then ([], none)
  else if expired w resource then deleteENI w resource
  else
    match w.AttachENI resource.Spec.ENI.InstanceID resource.Spec.ENI.ID with
    | some e =>
      ([EniCall.AttachENI resource.Spec.ENI.InstanceID resource.Spec.ENI.ID,
          EniCall.Event "AttachENIFailed"] ++ (deleteENI w resource).1,
        some (SyncError.wrapped ("failed to attach eni(" ++ resource.Spec.ENI.ID ++
          ") to instance(" ++ resource.Spec.ENI.InstanceID ++ "): " ++ e ++
          ", will delete eni crd")))
    | none => ([EniCall.AttachENI resource.Spec.ENI.InstanceID resource.Spec.ENI.ID], none)

/-- The method `attachingENI` of `eni.go`, lines 525-536. -/
def attachingENI (w : EniWorld) (resource : ENI) (vpceni : VpcEni) :
    List EniCall × Option SyncError :=
  if vpceni.Status != VPCENIStatusAttaching then ([], none)
  else if expired w resource then
    (EniCall.Event "AttachingENIError" :: (deleteENI w resource).1, (deleteENI w resource).2)
  else ([], none)

/-- The test of lines 378-387 of `start`: some owner reference has the group
version of CCE and the kind of the per-node resource. -/
def managedByMe (resource : ENI) : Bool :=
  resource.OwnerReferences.any
    (fun o => o.APIVersion == SchemeGroupVersion && o.Kind == NRSKindDefinition)

/-- The `switch` of lines 425-433 of `start`. -/
def transition (w : EniWorld) (resource : ENI) (vpceni : VpcEni) :
    List EniCall × Option SyncError :=
  if resource.Status.VPCStatus == VPCENIStatusAvailable then attachENI w resource vpceni
  else if resource.Status.VPCStatus == VPCENIStatusAttaching then attachingENI w resource vpceni
  else ([], none)

/-- The method `eniStateMachine.start` of `eni.go`, lines 365-452, for a machine
whose `resource` is the object of the caller and whose `isSync` is false. -/
def start (w : EniWorld) (resource : ENI) : MachineResult :=
  let idle : MachineResult :=
    { obj := resource, resource := resource, isSync := false, calls := [], err := none }
  if resource.Spec.ENIType == ENIForHPC || resource.Spec.ENIType == ENIForERI then idle
  else if resource.Status.VPCStatus == VPCENIStatusInuse then idle
  else if resource.Status.VPCStatus != VPCENIStatusDeleted then
    if !managedByMe resource then { idle with isSync := true }
    else
      match w.statENI resource.Name with
      | .error e =>
        if w.IsErrorReasonNoSuchObject e then
          { idle with
            calls := EniCall.statENI resource.Name :: (deleteENI w resource).1
            err := (deleteENI w resource).2 }
        else
          { idle with
            calls := [EniCall.statENI resource.Name]
            err := some (SyncError.wrapped ("eni state machine failed to refresh eni(" ++
              resource.Name ++ ") status: " ++ e)) }
      | .ok vpceni =>
        if vpceni.Status == VPCENIStatusInuse then
          let updated := updateENISpecFromVPCENI w resource vpceni
          match w.updaterUpdate updated with
          | .error updateError =>
            { obj := updated, resource := updated, isSync := false,
              calls := [EniCall.statENI resource.Name, EniCall.updaterUpdate updated],
              err := some (SyncError.api updateError) }
          | .ok stored =>
            let withStatus := { stored with Status := AppendVPCStatus stored.Status vpceni.Status }
            match w.updaterUpdateStatus withStatus with
            | .error e =>
              { obj := updated, resource := withStatus, isSync := false,
                calls := [EniCall.statENI resource.Name, EniCall.updaterUpdate updated,
                  EniCall.updaterUpdateStatus withStatus],
                err := some (SyncError.api e) }
            | .ok final =>
              { obj := updated, resource := final, isSync := true,
                calls := [EniCall.statENI resource.Name, EniCall.updaterUpdate updated,
                  EniCall.updaterUpdateStatus withStatus],
                err := none }
        else
          let t := transition w resource vpceni
          if t.2.isSome then
            { idle with calls := EniCall.statENI resource.Name :: t.1, err := t.2 }
          else if resource.Status.VPCStatus != vpceni.Status then
            let changed := { resource with Status := AppendVPCStatus resource.Status vpceni.Status }
            { obj := changed, resource := changed, isSync := false,
              calls := EniCall.statENI resource.Name :: t.1, err := none }
          else
            { idle with
              calls := EniCall.statENI resource.Name :: t.1
              err := some (SyncError.delay resource.Name ENIReadyTimeToAttach
                ("eni " ++ resource.Spec.ENI.ID ++ " status is not final: " ++
                  resource.Status.VPCStatus)) }
  else idle

/-- The part of `handleENIUpdate` from the label `UpdateStatus` on, lines
252-278, entered with the object `newObj`, the pointer `eniStatus`, the flag
`isNeedSkipUpdate` and the calls made so far.  The short declaration
`obj, err := es.updater.Lister().Get(...)` of line 256 assigns the variable `err`
of line 201, declared in the same block, so that the final `return err` returns
the error of the lookup, which is `nil` there. -/
def updateStatus (w : EniWorld) (resource newObj : ENI) (eniStatus : Option ENIStatus)
    (isNeedSkipUpdate : Bool) (calls : List EniCall) : HandleResult :=
  if isNeedSkipUpdate then { calls := calls, err := none }
  else
    match w.listerGet newObj.Name with
    | (_, some err) =>
      { calls := calls ++ [EniCall.listerGet newObj.Name], err := some (SyncError.api err) }
    | (none, none) => { calls := calls ++ [EniCall.listerGet newObj.Name], err := none }
    | (some obj, none) =>
      match eniStatus with
      | some status =>
        if status ≠ resource.Status then
          let objEniToUpdateStatus := { obj with Status := status }
          match w.updaterUpdateStatus objEniToUpdateStatus with
          | .error updateStatusError =>
            { calls := calls ++ [EniCall.listerGet newObj.Name,
                EniCall.updaterUpdateStatus objEniToUpdateStatus],
              err := some (SyncError.api updateStatusError) }
          | .ok _ =>
            { calls := calls ++ [EniCall.listerGet newObj.Name,
                EniCall.updaterUpdateStatus objEniToUpdateStatus],
              err := none }
        else { calls := calls ++ [EniCall.listerGet newObj.Name], err := none }
      | none => { calls := calls ++ [EniCall.listerGet newObj.Name], err := none }

/-- The method `handleENIUpdate` of `eni.go`, lines 198-279.  The two JSON texts
of line 262 differ exactly when the two statuses differ. -/
def handleENIUpdate (w : EniWorld) (resource : ENI) : HandleResult :=
  if resource.Status.VPCStatus == VPCENIStatusDeleted then { calls := [], err := none }
  else
    let newObj := (mangeFinalizer w resource).1
    if (mangeFinalizer w resource).2 then
      match w.updaterUpdate newObj with
      | .error err => { calls := [EniCall.updaterUpdate newObj], err := some (SyncError.api err) }
      | .ok _ => { calls := [EniCall.updaterUpdate newObj], err := none }
    else if w.useENIMachine then
      let machine := start w newObj
      match machine.err with
      | some (SyncError.delay _ _ _) =>
        updateStatus w resource machine.obj (some machine.obj.Status) machine.isSync machine.calls
      | some err => { calls := machine.calls, err := some err }
      | none =>
        updateStatus w resource machine.obj (some machine.obj.Status) machine.isSync machine.calls
    else updateStatus w resource newObj none false []

/-- The loop of `eniSyncher.Update`, lines 177-193, from the iteration `retry`
with `remaining` iterations left; `w retry` is the world met by attempt `retry`. -/
def updateLoop (w : Nat → EniWorld) : Nat → Nat → ENI → List UpdateEvent → UpdateResult
  | 0, _, _, events => { events := events, err := none }
  | remaining + 1, retry, resource, events =>
    let fetched : Except Error ENI :=
      if retry > 0 then (w retry).clientGet resource.Name else Except.ok resource
    let events := if retry > 0 then events ++ [UpdateEvent.refetch retry resource.Name] else events
    match fetched with
    | .error err => { events := events, err := some (SyncError.api err) }
    | .ok resource =>
      let r := handleENIUpdate (w retry) resource
      let events := events ++ [UpdateEvent.attempt retry resource r]
      if isConflict (w retry) r.err || isResourceExpired (w retry) r.err then
        updateLoop w remaining (retry + 1) resource events
      else { events := events, err := r.err }

/-- The method `eniSyncher.Update` of `eni.go`, lines 164-196. -/
def Update (w : Nat → EniWorld) (resource : ENI) : UpdateResult :=
  updateLoop w 3 0 resource []

/-! ## Predicates used in the statements -/

/-- The cloud call `DeleteENI` of `deleteENI` succeeded, or failed with a
no-such-object or an ENI-not-found error. -/
def cloudDeleteTolerated (w : EniWorld) (resource : ENI) : Bool :=
  match w.DeleteENI resource.Spec.ENI.ID with
  | none => true
  | some err => w.IsErrorReasonNoSuchObject err || w.IsErrorENINotFound err

/-- The step of `Update` is an attempt, a call of `handleENIUpdate`. -/
def isAttempt : UpdateEvent → Bool
  | UpdateEvent.attempt _ _ _ => true
  | UpdateEvent.refetch _ _ => false

/-- The attempt ended in a conflict or a resource-expired error, the two
errors after which `Update` tries again. -/
def retryable (w : EniWorld) (r : HandleResult) : Bool :=
  isConflict w r.err || isResourceExpired w r.err

/-! ## Concrete scenarios -/

/-- An interface that the cloud reports as `available`. -/
def availableVpcEni : VpcEni :=
  { EniId := "eni-1", Name := "eni-1", MacAddress := "fa:16:3e:00:00:01", InstanceId := "i-1",
    SecurityGroupIds := [], EnterpriseSecurityGroupIds := [], Description := "",
    VpcId := "vpc-1", ZoneName := "zoneA", SubnetId := "sbn-1", PrivateIpSet := [],
    Ipv6PrivateIpSet := [], Status := "available" }

/-- A custom resource created at time 0, owned by the `NetResourceSet` of its
node, with recorded VPC status `available`. -/
def managedENI : ENI :=
  { Name := "eni-1", CreationTimestamp := 0, DeletionTimestamp := none,
    Finalizers := ["eni-syncer"],
    OwnerReferences := [{ APIVersion := "cce.baidubce.com/v2", Kind := "NetResourceSet",
                          Name := "node-1", UID := "uid-1" }],
    Annotations := none,
    Spec := { NodeName := "node-1", ENIType := "bcc",
              ENI := { ID := "eni-1", Name := "eni-1", MacAddress := "", InstanceID := "i-1",
                       SecurityGroupIds := [], EnterpriseSecurityGroupIds := [],
                       Description := "", VpcID := "vpc-1", ZoneName := "zoneA",
                       SubnetID := "sbn-1", PrivateIPSet := [], IPV6PrivateIPSet := [] } },
    Status := { VPCStatus := "available", CCEStatus := "" } }

/-- The resource `managedENI` without owner reference. -/
def unmanagedENI : ENI := { managedENI with OwnerReferences := [] }

/-- The resource `managedENI` with a deletion timestamp. -/
def deletingENI : ENI := { managedENI with DeletionTimestamp := some 1 }

/-- The resource `managedENI` in use and with a deletion timestamp. -/
def deletingInuseENI : ENI :=
  { managedENI with
    DeletionTimestamp := some 1
    Status := { VPCStatus := "in-use", CCEStatus := "" } }

/-- The resource `managedENI` without finalizer. -/
def freshENI : ENI := { managedENI with Finalizers := [] }

/-- A world one minute after time 0 in which every call succeeds and the cloud
reports the interface as `available`. -/
def exampleWorld : EniWorld :=
  { statENI := (fun _ => Except.ok availableVpcEni),
    useENIMachine := true,
    AttachENI := (fun _ _ => none),
    DeleteENI := (fun _ => none),
    updaterUpdate := (fun obj => Except.ok obj),
    updaterUpdateStatus := (fun obj => Except.ok obj),
    updaterDelete := (fun _ => none),
    listerGet := (fun _ => (some managedENI, none)),
    clientGet := (fun _ => Except.ok managedENI),
    nodeGet := (fun _ => (some { UID := "uid-1", DeletionTimestamp := none }, none)),
    now := 60 * Second,
    SearchSubnetID := (fun _ subnetID _ => subnetID),
    IsErrorReasonNoSuchObject := (fun e => e == "NoSuchObject"),
    IsErrorENINotFound := (fun e => e == "EniNotFoundException"),
    IsConflict := (fun e => e == "Conflict"),
    IsResourceExpired := (fun e => e == "Expired"),
    IsNotFound := (fun e => e == "NotFound") }

/-- The world `exampleWorld` ten minutes after time 0. -/
def lateWorld : EniWorld := { exampleWorld with now := 600 * Second }

/-- The world `exampleWorld` with a failing `AttachENI` and a failing cloud
delete. -/
def failingAttachWorld : EniWorld :=
  { exampleWorld with
    AttachENI := (fun _ _ => some "instance is busy")
    DeleteENI := (fun _ => some "internal error") }

/-- A world in which the owning node is gone and every write of the updater
ends in a conflict. -/
def conflictWorld : EniWorld :=
  { exampleWorld with
    nodeGet := (fun _ => (none, some "NotFound"))
    updaterUpdate := (fun _ => Except.error "Conflict")
    clientGet := (fun _ => Except.ok deletingENI) }

/-- The number of addresses of the set that are marked primary. -/
def countPrimary (ipset : List PrivateIP) : Nat :=
  (ipset.filter (fun ip => ip.Primary)).length

/-- The resource `managedENI` with two IPv6 addresses, none of them marked
primary by the cloud, whose annotation names the second address as the primary
one elected earlier. -/
def staleAnnotationENI : ENI :=
  { managedENI with
    Annotations := some [(AnnotationENIIPv6PrimaryIP, "fd00::2")]
    Spec := { managedENI.Spec with ENI := { managedENI.Spec.ENI with
      IPV6PrivateIPSet :=
        [{ PublicIPAddress := "", PrivateIPAddress := "fd00::1", Primary := false,
           SubnetID := "sbn-1" },
         { PublicIPAddress := "", PrivateIPAddress := "fd00::2", Primary := false,
           SubnetID := "sbn-1" }] } } }

end Bcesync

/-!
Node capacity of `cce-network-v2/pkg/bce/limit/ip_resource_manager.go`.

The capacity published for a node is computed from the CPU count and the memory
of the instance and from the overrides of the operator configuration
(`operatorOption.Config`), which is a parameter here.
-/

namespace Limit

open Ipam

/-- The type `NodeCapacity` of `ip_resource_manager.go`, lines 38-48. -/
structure NodeCapacity where
  MaxENINum : Int
  MaxIPPerENI : Int
  CustomerENIResource : Int
  CustomerIPResource : Int
  deriving DecidableEq, Repr

/-- The type `NodeRdmaCapacity` of `ip_resource_manager.go`, lines 91-98. -/
structure NodeRdmaCapacity where
  MaxRdmaIPPerRdmaInt : Int
  CustomerRdmaIPResource : Int
  deriving DecidableEq, Repr

/-- The fields of `operatorOption.Config` read by the capacity computation. -/
structure OperatorConfig where
  BCECustomerMaxENI : Int
  BCECustomerMaxIP : Int
  BCECustomerMaxRdmaIP : Int
  deriving DecidableEq, Repr

/-- The function `GetMaxIPPerENI` of `ip_resource_manager.go`, lines 488-504;
the `switch` takes the first case that holds. -/
def GetMaxIPPerENI (memoryCapacityInGB : Int) : Int :=
  if memoryCapacityInGB > 0 ∧ memoryCapacityInGB < 2 then 2
  else if memoryCapacityInGB ≥ 2 ∧ memoryCapacityInGB ≤ 8 then 8
  else if memoryCapacityInGB > 8 ∧ memoryCapacityInGB ≤ 32 then 16
  else if memoryCapacityInGB > 32 ∧ memoryCapacityInGB ≤ 64 then 30
  else if memoryCapacityInGB > 64 then 40
  else 0

/-- The function `GetMaxENIPerNode` of `ip_resource_manager.go`, lines 507-518. -/
def GetMaxENIPerNode (CPUCount : Int) : Int :=
  if CPUCount > 0 ∧ CPUCount < 8 then CPUCount
  else if CPUCount ≥ 8 then 8
  else 0

/-- The fields of `bccIPResourceManager` read by `CalaculateCapacity`. -/
structure bccIPResourceManager where
  cpuCount : Int
  memoryCapacityInGB : Int
  deriving DecidableEq, Repr

/-- The method `bccIPResourceManager.CalaculateCapacity` of
`ip_resource_manager.go`, lines 194-214. -/
def bccIPResourceManager.CalaculateCapacity (config : OperatorConfig)
    (manager : bccIPResourceManager) : NodeCapacity :=
  let maxENINum := GetMaxENIPerNode manager.cpuCount
  let maxIPPerENI := GetMaxIPPerENI manager.memoryCapacityInGB
  let maxENINum := if config.BCECustomerMaxENI ≠ 0 then config.BCECustomerMaxENI else maxENINum
  let maxIPPerENI := if config.BCECustomerMaxIP ≠ 0 then config.BCECustomerMaxIP else maxIPPerENI
  { MaxENINum := maxENINum,
    MaxIPPerENI := maxIPPerENI,
    CustomerENIResource := maxENINum,
    CustomerIPResource := (maxIPPerENI - 1) * maxENINum }

/-- The method `bccIPResourceManager.CalaculateCapacity` on 64-bit machine
integers: the subtraction and the product wrap around. -/
def bccIPResourceManager.CalaculateCapacity64 (config : OperatorConfig)
    (manager : bccIPResourceManager) : NodeCapacity :=
  let maxENINum := GetMaxENIPerNode manager.cpuCount
  let maxIPPerENI := GetMaxIPPerENI manager.memoryCapacityInGB
  let maxENINum := if config.BCECustomerMaxENI ≠ 0 then config.BCECustomerMaxENI else maxENINum
  let maxIPPerENI := if config.BCECustomerMaxIP ≠ 0 then config.BCECustomerMaxIP else maxIPPerENI
  { MaxENINum := maxENINum,
    MaxIPPerENI := maxIPPerENI,
    CustomerENIResource := maxENINum,
    CustomerIPResource := wrap64 (wrap64 (maxIPPerENI - 1) * maxENINum) }

/-- The fields of `rdmaIPResourceManager` read by `CalaculateCapacity`. -/
structure rdmaIPResourceManager where
  vifFeatures : String
  cpuCount : Int
  memoryCapacityInGB : Int
  deriving DecidableEq, Repr

/-- The method `rdmaIPResourceManager.CalaculateCapacity` of
`ip_resource_manager.go`, lines 270-299. -/
def rdmaIPResourceManager.CalaculateCapacity (config : OperatorConfig)
    (manager : rdmaIPResourceManager) : NodeRdmaCapacity :=
  if manager.vifFeatures = Bcesync.ENIForHPC then
    let maxRdmaIPPerRdmaInt := 13
    let maxRdmaIPPerRdmaInt :=
      if config.BCECustomerMaxRdmaIP ≠ 0 then config.BCECustomerMaxRdmaIP else maxRdmaIPPerRdmaInt
    { MaxRdmaIPPerRdmaInt := maxRdmaIPPerRdmaInt,
      CustomerRdmaIPResource := maxRdmaIPPerRdmaInt }
  else
    let maxIPPerENI := GetMaxIPPerENI manager.memoryCapacityInGB
    let maxIPPerENI := if config.BCECustomerMaxIP ≠ 0 then config.BCECustomerMaxIP else maxIPPerENI
    { MaxRdmaIPPerRdmaInt := maxIPPerENI,
      CustomerRdmaIPResource := maxIPPerENI - 1 }

/-- The per-node ENI limit as the specification words it: the CPU count below 8
CPUs, 8 from 8 CPUs on, 0 without CPU. -/
def maxENIPerNodeSpec (cpuCount : Int) : Int :=
  if cpuCount ≤ 0 then 0 else if cpuCount < 8 then cpuCount else 8

/-- The per-ENI address limit as the specification words it, by memory range:
0 without memory, 2 below 2 GB, 8 up to 8 GB, 16 up to 32 GB, 30 up to 64 GB and
40 above. -/
def maxIPPerENISpec (memoryGB : Int) : Int :=
  if memoryGB ≤ 0 then 0
  else if memoryGB < 2 then 2
  else if memoryGB ≤ 8 then 8
  else if memoryGB ≤ 32 then 16
  else if memoryGB ≤ 64 then 30
  else 40

/-- An operator configuration without overrides. -/
def noOverride : OperatorConfig :=
  { BCECustomerMaxENI := 0, BCECustomerMaxIP := 0, BCECustomerMaxRdmaIP := 0 }

/-- An instance with 4 CPUs whose memory is reported as 0 GB. -/
def noMemoryManager : bccIPResourceManager := { cpuCount := 4, memoryCapacityInGB := 0 }

/-- An RDMA manager of a non-HPC interface type whose memory is reported as
0 GB. -/
def noMemoryRdmaManager : rdmaIPResourceManager :=
  { vifFeatures := "eri", cpuCount := 4, memoryCapacityInGB := 0 }

/-- An instance reported without CPU and without memory. -/
def emptyManager : bccIPResourceManager := { cpuCount := 0, memoryCapacityInGB := 0 }

/-- An RDMA manager of the HPC interface type whose memory is reported as
0 GB. -/
def hpcRdmaManager : rdmaIPResourceManager :=
  { vifFeatures := "hpc", cpuCount := 4, memoryCapacityInGB := 0 }

end Limit

/-!
Rate-limited cloud client of `cce-network-v2/pkg/bce/api/cloud/flow_control.go`.

`flowControlClient` forwards every method of the cloud `Interface` to an
underlying client.  The underlying client and the limiter (`limiter.Wait`) are
oracles; the calls on the limiter, on the handle it returns and on the
underlying client are put in a trace, in the order in which they happen (the
deferred function of a wrapper runs after its `return` statement was
evaluated).  The arguments of a forwarded call are passed on unchanged and are
part of the oracle.
-/

namespace Cloud

open Ipam

/-! ## Operation names -/

/-- The constant `DescribeVPC` of `flow_control.go`, line 35. -/
def DescribeVPC : String := "GET/bcecloud/apis/v1/vpc"

/-- The constant `AddPrivateIP` of `flow_control.go`, line 36. -/
def AddPrivateIP : String := "bcecloud/apis/v1/AddPrivateIP"

/-- The constant `DeletePrivateIP` of `flow_control.go`, line 37. -/
def DeletePrivateIP : String := "bcecloud/apis/v1/DeletePrivateIP"

/-- The constant `BindENIPublicIP` of `flow_control.go`, line 38. -/
def BindENIPublicIP : String := "bcecloud/apis/v1/BindENIPulblicIP"

/-- The constant `UnBindENIPublicIP` of `flow_control.go`, line 39. -/
def UnBindENIPublicIP : String := "bcecloud/apis/v1/UnbindENIPulblicIP"

/-- The constant `DirectEIP` of `flow_control.go`, line 40. -/
def DirectEIP : String := "bcecloud/apis/v1/DirectEIP"

/-- The constant `UnDirectEIP` of `flow_control.go`, line 41. -/
def UnDirectEIP : String := "bcecloud/apis/v1/UnDirectEIP"

/-- The constant `ListEIPs` of `flow_control.go`, line 42. -/
def ListEIPs : String := "bcecloud/apis/v1/ListEIPs"

/-- The constant `BatchAddPrivateIpCrossSubnet` of `flow_control.go`, line 43. -/
def BatchAddPrivateIpCrossSubnet : String := "bcecloud/apis/v1/BatchAddPrivateIpCrossSubnet"

/-- The constant `BatchAddPrivateIP` of `flow_control.go`, line 44. -/
def BatchAddPrivateIP : String := "bcecloud/apis/v1/BatchAddPrivateIP"

/-- The constant `BatchDeletePrivateIP` of `flow_control.go`, line 45. -/
def BatchDeletePrivateIP : String := "bcecloud/apis/v1/BatchDeletePrivateIP"

/-- The constant `CreateENI` of `flow_control.go`, line 47. -/
def CreateENI : String := "bcecloud/apis/v1/CreateENI"

/-- The constant `DeleteENI` of `flow_control.go`, line 48. -/
def DeleteENI : String := "bcecloud/apis/v1/DeleteENI"

/-- The constant `AttachENI` of `flow_control.go`, line 49. -/
def AttachENI : String := "bcecloud/apis/v1/AttachENI"

/-- The constant `DetachENI` of `flow_control.go`, line 50. -/
def DetachENI : String := "bcecloud/apis/v1/DetachENI"

/-- The constant `StatENI` of `flow_control.go`, line 51. -/
def StatENI : String := "bcecloud/apis/v1/StatENI"

/-- The constant `ListENIs` of `flow_control.go`, line 52. -/
def ListENIs : String := "bcecloud/apis/v1/ListENIs"

/-- The constant `ListERIs` of `flow_control.go`, line 53. -/
def ListERIs : String := "bcecloud/apis/v1/ListERIs"

/-- The constant `ListRouteTable` of `flow_control.go`, line 55. -/
def ListRouteTable : String := "bcecloud/apis/v1/ListRouteTable"

/-- The constant `CreateRouteRule` of `flow_control.go`, line 56. -/
def CreateRouteRule : String := "bcecloud/apis/v1/CreateRouteRule"

/-- The constant `DeleteRouteRule` of `flow_control.go`, line 57. -/
def DeleteRouteRule : String := "bcecloud/apis/v1/DeleteRouteRule"

/-- The constant `DescribeSubnet` of `flow_control.go`, line 59. -/
def DescribeSubnet : String := "bcecloud/apis/v1/DescribeSubnet"

/-- The constant `ListSubnets` of `flow_control.go`, line 60. -/
def ListSubnets : String := "bcecloud/apis/v1/ListSubnets"

/-- The constant `ListSecurityGroup` of `flow_control.go`, line 62. -/
def ListSecurityGroup : String := "bcecloud/apis/v1/ListSecurityGroup"

/-- The constant `VPCListAcl` of `flow_control.go`, line 63. -/
def VPCListAcl : String := "bcecloud/apis/v1/ListAcl"

/-- The constant `BCCListEnterpriseSG` of `flow_control.go`, line 64. -/
def BCCListEnterpriseSG : String := "/bcc/enterprise/security"

/-- The constant `GetBCCInstanceDetail` of `flow_control.go`, line 66. -/
def GetBCCInstanceDetail : String := "bcecloud/apis/v1/GetBCCInstanceDetail"

/-- The constant `GetBBCInstanceDetail` of `flow_control.go`, line 67. -/
def GetBBCInstanceDetail : String := "bcecloud/apis/v1/GetBBCInstanceDetail"

/-- The constant `GetBBCInstanceENI` of `flow_control.go`, line 68. -/
def GetBBCInstanceENI : String := "bcecloud/apis/v1/GetBBCInstanceENI"

/-- The constant `BBCBatchAddIP` of `flow_control.go`, line 70. -/
def BBCBatchAddIP : String := "bcecloud/apis/v1/BBCBatchAddIP"

/-- The constant `BBCBatchDelIP` of `flow_control.go`, line 71. -/
def BBCBatchDelIP : String := "bcecloud/apis/v1/BBCBatchDelIP"

/-- The constant `BBCBatchAddIPCrossSubnet` of `flow_control.go`, line 72. -/
def BBCBatchAddIPCrossSubnet : String := "bcecloud/apis/v1/BBCBatchAddIPCrossSubnet"

/-- The constant `GetHPCEniID` of `flow_control.go`, line 74. -/
def GetHPCEniID : String := "bcecloud/apis/v1/GetHPCEniID"

/-- The constant `BatchDeleteHpcEniPrivateIP` of `flow_control.go`, line 75. -/
def BatchDeleteHpcEniPrivateIP : String := "bcecloud/apis/v1/BatchDeleteHpcEniPrivateIP"

/-- The constant `BatchAddHpcEniPrivateIP` of `flow_control.go`, line 76. -/
def BatchAddHpcEniPrivateIP : String := "bcecloud/apis/v1/BatchAddHpcEniPrivateIP"

/-- The constant `BCCListENIs` of `flow_control.go`, line 79. -/
def BCCListENIs : String := "bcecloud/bcc/apis/v2/eni/\x7binstanceID\x7d"

/-- The constant `BCCBatchAddIP` of `flow_control.go`, line 80. -/
def BCCBatchAddIP : String := "bcecloud/bcc/apis/v2/instance/batchAddIp"

/-- The constant `BCCBatchDelIP` of `flow_control.go`, line 81. -/
def BCCBatchDelIP : String := "bcecloud/bcc/apis/v2/instance/batchDelIp"

/-! ## The client -/

/-- The methods of the cloud `Interface` that `flowControlClient` implements. -/
inductive Method where
  | DescribeVPC
  | ListEsg
  | ListAclEntrys
  | BCCBatchAddIP
  | BCCBatchDelIP
  | ListBCCInstanceEni
  | AddPrivateIP
  | AttachENI
  | BBCBatchAddIP
  | BBCBatchAddIPCrossSubnet
  | BBCBatchDelIP
  | BatchAddHpcEniPrivateIP
  | BatchAddPrivateIP
  | BatchAddPrivateIpCrossSubnet
  | BatchDeleteHpcEniPrivateIP
  | BatchDeletePrivateIP
  | CreateENI
  | CreateRouteRule
  | DeleteENI
  | DeletePrivateIP
  | BindENIPublicIP
  | UnBindENIPublicIP
  | DirectEIP
  | UnDirectEIP
  | ListEIPs
  | DeleteRouteRule
  | DescribeSubnet
  | DetachENI
  | GetBBCInstanceDetail
  | GetBBCInstanceENI
  | GetBCCInstanceDetail
  | GetHPCEniID
  | ListENIs
  | ListERIs
  | ListRouteTable
  | ListSecurityGroup
  | ListSubnets
  | StatENI
  | GetENIQuota
  | HPASWrapper
  deriving DecidableEq, Repr

/-- The value that a method returns next to its error: nothing (`unit`, for the
methods that return only an error), a `nil` pointer or slice, a string, or some
other value of the cloud SDK. -/
inductive Ret where
  | unit
  | nil
  | text (s : String)
  | object (id : Nat)
  deriving DecidableEq, Repr

/-- One call made by a wrapper method: `limiter.Wait` with an operation name,
the forwarded call on the underlying client, `Done()` or `Error(err)` on the
handle returned by `Wait`. -/
inductive Event where
  | Wait (name : String)
  | Call (m : Method)
  | Done
  | Error (err : Error)
  deriving DecidableEq, Repr

/-- The type `flowControlClient` of `flow_control.go`, lines 258-261, with the
flag `option.Config.EnableAPIRateLimit`: `client` is what the underlying client
returns for a method, `Wait` is the error of `limiter.Wait` for an operation
name (`none` when a handle is returned). -/
structure flowControlClient where
  EnableAPIRateLimit : Bool
  client : Method → Ret × Option Error
  Wait : String → Option Error

/-- What a wrapper method returns and the calls it made, in order. -/
structure Outcome where
  ret : Ret
  err : Option Error
  events : List Event
  deriving DecidableEq, Repr

/-- The body shared by the wrapper methods (for `DescribeVPC`, lines 265-283):
`name` is the operation name given to `limiter.Wait`, `zero` the value returned
next to the error of `Wait`, `m` the method of the underlying client that is
called. -/
def limited (fc : flowControlClient) (name : String) (zero : Ret) (m : Method) : Outcome :=
  if fc.EnableAPIRateLimit then
    match fc.Wait name with
    | some err => { ret := zero, err := some err, events := [Event.Wait name] }
    | none =>
      match fc.client m with
      | (ret, some err) =>
        { ret := ret, err := some err,
          events := [Event.Wait name, Event.Call m, Event.Error err] }
      | (ret, none) =>
        { ret := ret, err := none, events := [Event.Wait name, Event.Call m, Event.Done] }
  else
    { ret := (fc.client m).1, err := (fc.client m).2, events := [Event.Call m] }

/-- The method `flowControlClient.DescribeVPC` of `flow_control.go`, lines 264-284. -/
def flowControlClient.DescribeVPC (fc : flowControlClient) : Outcome :=
  limited fc Cloud.DescribeVPC Ret.nil Method.DescribeVPC

/-- The method `flowControlClient.ListEsg` of `flow_control.go`, lines 287-307. -/
def flowControlClient.ListEsg (fc : flowControlClient) : Outcome :=
  limited fc Cloud.BCCListEnterpriseSG Ret.nil Method.ListEsg

/-- The method `flowControlClient.ListAclEntrys` of `flow_control.go`, lines 310-330. -/
def flowControlClient.ListAclEntrys (fc : flowControlClient) : Outcome :=
  limited fc Cloud.VPCListAcl Ret.nil Method.ListAclEntrys

/-- The method `flowControlClient.BCCBatchAddIP` of `flow_control.go`, lines 333-353. -/
def flowControlClient.BCCBatchAddIP (fc : flowControlClient) : Outcome :=
  limited fc Cloud.BCCBatchAddIP Ret.nil Method.BCCBatchAddIP

/-- The method `flowControlClient.BCCBatchDelIP` of `flow_control.go`, lines 356-376. -/
def flowControlClient.BCCBatchDelIP (fc : flowControlClient) : Outcome :=
  limited fc Cloud.BCCBatchDelIP Ret.unit Method.BCCBatchDelIP

/-- The method `flowControlClient.ListBCCInstanceEni` of `flow_control.go`, lines 379-399. -/
def flowControlClient.ListBCCInstanceEni (fc : flowControlClient) : Outcome :=
  limited fc Cloud.BCCListENIs Ret.nil Method.ListBCCInstanceEni

/-- The method `flowControlClient.AddPrivateIP` of `flow_control.go`, lines 419-439. -/
def flowControlClient.AddPrivateIP (fc : flowControlClient) : Outcome :=
  limited fc Cloud.AddPrivateIP (Ret.text "") Method.AddPrivateIP

/-- The method `flowControlClient.AttachENI` of `flow_control.go`, lines 442-462. -/
def flowControlClient.AttachENI (fc : flowControlClient) : Outcome :=
  limited fc Cloud.AttachENI Ret.unit Method.AttachENI

/-- The method `flowControlClient.BBCBatchAddIP` of `flow_control.go`, lines 465-485. -/
def flowControlClient.BBCBatchAddIP (fc : flowControlClient) : Outcome :=
  limited fc Cloud.BBCBatchAddIP Ret.nil Method.BBCBatchAddIP

/-- The method `flowControlClient.BBCBatchAddIPCrossSubnet` of `flow_control.go`, lines 488-508. -/
def flowControlClient.BBCBatchAddIPCrossSubnet (fc : flowControlClient) : Outcome :=
  limited fc Cloud.BBCBatchAddIPCrossSubnet Ret.nil Method.BBCBatchAddIPCrossSubnet

/-- The method `flowControlClient.BBCBatchDelIP` of `flow_control.go`, lines 511-531. -/
def flowControlClient.BBCBatchDelIP (fc : flowControlClient) : Outcome :=
  limited fc Cloud.BBCBatchDelIP Ret.unit Method.BBCBatchDelIP

/-- The method `flowControlClient.BatchAddHpcEniPrivateIP` of `flow_control.go`, lines 534-554. -/
def flowControlClient.BatchAddHpcEniPrivateIP (fc : flowControlClient) : Outcome :=
  limited fc Cloud.BatchAddHpcEniPrivateIP Ret.nil Method.BatchAddHpcEniPrivateIP

/-- The method `flowControlClient.BatchAddPrivateIP` of `flow_control.go`, lines 557-577. -/
def flowControlClient.BatchAddPrivateIP (fc : flowControlClient) : Outcome :=
  limited fc Cloud.BatchAddPrivateIP Ret.nil Method.BatchAddPrivateIP

/-- The method `flowControlClient.BatchAddPrivateIpCrossSubnet` of `flow_control.go`, lines 580-600. -/
def flowControlClient.BatchAddPrivateIpCrossSubnet (fc : flowControlClient) : Outcome :=
  limited fc Cloud.BatchAddPrivateIpCrossSubnet Ret.nil Method.BatchAddPrivateIpCrossSubnet

/-- The method `flowControlClient.BatchDeleteHpcEniPrivateIP` of `flow_control.go`, lines 603-623. -/
def flowControlClient.BatchDeleteHpcEniPrivateIP (fc : flowControlClient) : Outcome :=
  limited fc Cloud.BatchDeleteHpcEniPrivateIP Ret.unit Method.BatchDeleteHpcEniPrivateIP

/-- The method `flowControlClient.BatchDeletePrivateIP` of `flow_control.go`, lines 626-646. -/
def flowControlClient.BatchDeletePrivateIP (fc : flowControlClient) : Outcome :=
  limited fc Cloud.BatchDeletePrivateIP Ret.unit Method.BatchDeletePrivateIP

/-- The method `flowControlClient.CreateENI` of `flow_control.go`, lines 649-669. -/
def flowControlClient.CreateENI (fc : flowControlClient) : Outcome :=
  limited fc Cloud.CreateENI (Ret.text "") Method.CreateENI

/-- The method `flowControlClient.CreateRouteRule` of `flow_control.go`, lines 672-692. -/
def flowControlClient.CreateRouteRule (fc : flowControlClient) : Outcome :=
  limited fc Cloud.CreateRouteRule (Ret.text "") Method.CreateRouteRule

/-- The method `flowControlClient.DeleteENI` of `flow_control.go`, lines 695-715. -/
def flowControlClient.DeleteENI (fc : flowControlClient) : Outcome :=
  limited fc Cloud.DeleteENI Ret.unit Method.DeleteENI

/-- The method `flowControlClient.DeletePrivateIP` of `flow_control.go`, lines 718-738. -/
def flowControlClient.DeletePrivateIP (fc : flowControlClient) : Outcome :=
  limited fc Cloud.DeletePrivateIP Ret.unit Method.DeletePrivateIP

/-- The method `flowControlClient.BindENIPublicIP` of `flow_control.go`, lines 741-761. -/
def flowControlClient.BindENIPublicIP (fc : flowControlClient) : Outcome :=
  limited fc Cloud.UnBindENIPublicIP Ret.unit Method.BindENIPublicIP

/-- The method `flowControlClient.UnBindENIPublicIP` of `flow_control.go`, lines 764-784. -/
def flowControlClient.UnBindENIPublicIP (fc : flowControlClient) : Outcome :=
  limited fc Cloud.UnBindENIPublicIP Ret.unit Method.UnBindENIPublicIP

/-- The method `flowControlClient.DirectEIP` of `flow_control.go`, lines 787-807. -/
def flowControlClient.DirectEIP (fc : flowControlClient) : Outcome :=
  limited fc Cloud.DirectEIP Ret.unit Method.DirectEIP

/-- The method `flowControlClient.UnDirectEIP` of `flow_control.go`, lines 810-830. -/
def flowControlClient.UnDirectEIP (fc : flowControlClient) : Outcome :=
  limited fc Cloud.UnDirectEIP Ret.unit Method.UnDirectEIP

/-- The method `flowControlClient.ListEIPs` of `flow_control.go`, lines 833-853. -/
def flowControlClient.ListEIPs (fc : flowControlClient) : Outcome :=
  limited fc Cloud.ListEIPs Ret.nil Method.ListEIPs

/-- The method `flowControlClient.DeleteRouteRule` of `flow_control.go`, lines 856-876. -/
def flowControlClient.DeleteRouteRule (fc : flowControlClient) : Outcome :=
  limited fc Cloud.DeleteRouteRule Ret.unit Method.DeleteRouteRule

/-- The method `flowControlClient.DescribeSubnet` of `flow_control.go`, lines 879-899. -/
def flowControlClient.DescribeSubnet (fc : flowControlClient) : Outcome :=
  limited fc Cloud.DescribeSubnet Ret.nil Method.DescribeSubnet

/-- The method `flowControlClient.DetachENI` of `flow_control.go`, lines 902-922. -/
def flowControlClient.DetachENI (fc : flowControlClient) : Outcome :=
  limited fc Cloud.DetachENI Ret.unit Method.DetachENI

/-- The method `flowControlClient.GetBBCInstanceDetail` of `flow_control.go`, lines 925-945. -/
def flowControlClient.GetBBCInstanceDetail (fc : flowControlClient) : Outcome :=
  limited fc Cloud.GetBBCInstanceDetail Ret.nil Method.GetBBCInstanceDetail

/-- The method `flowControlClient.GetBBCInstanceENI` of `flow_control.go`, lines 948-968. -/
def flowControlClient.GetBBCInstanceENI (fc : flowControlClient) : Outcome :=
  limited fc Cloud.GetBBCInstanceENI Ret.nil Method.GetBBCInstanceENI

/-- The method `flowControlClient.GetBCCInstanceDetail` of `flow_control.go`, lines 971-991. -/
def flowControlClient.GetBCCInstanceDetail (fc : flowControlClient) : Outcome :=
  limited fc Cloud.GetBCCInstanceDetail Ret.nil Method.GetBCCInstanceDetail

/-- The method `flowControlClient.GetHPCEniID` of `flow_control.go`, lines 994-1014. -/
def flowControlClient.GetHPCEniID (fc : flowControlClient) : Outcome :=
  limited fc Cloud.GetHPCEniID Ret.nil Method.GetHPCEniID

/-- The method `flowControlClient.ListENIs` of `flow_control.go`, lines 1017-1037. -/
def flowControlClient.ListENIs (fc : flowControlClient) : Outcome :=
  limited fc Cloud.ListENIs Ret.nil Method.ListENIs

/-- The method `flowControlClient.ListERIs` of `flow_control.go`, lines 1040-1060. -/
def flowControlClient.ListERIs (fc : flowControlClient) : Outcome :=
  limited fc Cloud.ListERIs Ret.nil Method.ListERIs

/-- The method `flowControlClient.ListRouteTable` of `flow_control.go`, lines 1063-1083. -/
def flowControlClient.ListRouteTable (fc : flowControlClient) : Outcome :=
  limited fc Cloud.ListRouteTable Ret.nil Method.ListRouteTable

/-- The method `flowControlClient.ListSecurityGroup` of `flow_control.go`, lines 1086-1106. -/
def flowControlClient.ListSecurityGroup (fc : flowControlClient) : Outcome :=
  limited fc Cloud.ListSecurityGroup Ret.nil Method.ListSecurityGroup

/-- The method `flowControlClient.ListSubnets` of `flow_control.go`, lines 1109-1129. -/
def flowControlClient.ListSubnets (fc : flowControlClient) : Outcome :=
  limited fc Cloud.ListSubnets Ret.nil Method.ListSubnets

/-- The method `flowControlClient.StatENI` of `flow_control.go`, lines 1132-1152. -/
def flowControlClient.StatENI (fc : flowControlClient) : Outcome :=
  limited fc Cloud.StatENI Ret.nil Method.StatENI

/-- The method `flowControlClient.GetENIQuota` of `flow_control.go`, lines 1155-1175. -/
def flowControlClient.GetENIQuota (fc : flowControlClient) : Outcome :=
  limited fc Cloud.StatENI Ret.nil Method.GetENIQuota

/-- The method `flowControlClient.HPASWrapper` of `flow_control.go`, lines 1177-1179. -/
def flowControlClient.HPASWrapper (fc : flowControlClient) : Outcome :=
  { ret := (fc.client Method.HPASWrapper).1, err := (fc.client Method.HPASWrapper).2,
    events := [Event.Call Method.HPASWrapper] }

/-- The wrapper method of `flowControlClient` for a method of `Interface`. -/
def flowControlClient.invoke (fc : flowControlClient) : Method → Outcome
  | Method.DescribeVPC => fc.DescribeVPC
  | Method.ListEsg => fc.ListEsg
  | Method.ListAclEntrys => fc.ListAclEntrys
  | Method.BCCBatchAddIP => fc.BCCBatchAddIP
  | Method.BCCBatchDelIP => fc.BCCBatchDelIP
  | Method.ListBCCInstanceEni => fc.ListBCCInstanceEni
  | Method.AddPrivateIP => fc.AddPrivateIP
  | Method.AttachENI => fc.AttachENI
  | Method.BBCBatchAddIP => fc.BBCBatchAddIP
  | Method.BBCBatchAddIPCrossSubnet => fc.BBCBatchAddIPCrossSubnet
  | Method.BBCBatchDelIP => fc.BBCBatchDelIP
  | Method.BatchAddHpcEniPrivateIP => fc.BatchAddHpcEniPrivateIP
  | Method.BatchAddPrivateIP => fc.BatchAddPrivateIP
  | Method.BatchAddPrivateIpCrossSubnet => fc.BatchAddPrivateIpCrossSubnet
  | Method.BatchDeleteHpcEniPrivateIP => fc.BatchDeleteHpcEniPrivateIP
  | Method.BatchDeletePrivateIP => fc.BatchDeletePrivateIP
  | Method.CreateENI => fc.CreateENI
  | Method.CreateRouteRule => fc.CreateRouteRule
  | Method.DeleteENI => fc.DeleteENI
  | Method.DeletePrivateIP => fc.DeletePrivateIP
  | Method.BindENIPublicIP => fc.BindENIPublicIP
  | Method.UnBindENIPublicIP => fc.UnBindENIPublicIP
  | Method.DirectEIP => fc.DirectEIP
  | Method.UnDirectEIP => fc.UnDirectEIP
  | Method.ListEIPs => fc.ListEIPs
  | Method.DeleteRouteRule => fc.DeleteRouteRule
  | Method.DescribeSubnet => fc.DescribeSubnet
  | Method.DetachENI => fc.DetachENI
  | Method.GetBBCInstanceDetail => fc.GetBBCInstanceDetail
  | Method.GetBBCInstanceENI => fc.GetBBCInstanceENI
  | Method.GetBCCInstanceDetail => fc.GetBCCInstanceDetail
  | Method.GetHPCEniID => fc.GetHPCEniID
  | Method.ListENIs => fc.ListENIs
  | Method.ListERIs => fc.ListERIs
  | Method.ListRouteTable => fc.ListRouteTable
  | Method.ListSecurityGroup => fc.ListSecurityGroup
  | Method.ListSubnets => fc.ListSubnets
  | Method.StatENI => fc.StatENI
  | Method.GetENIQuota => fc.GetENIQuota
  | Method.HPASWrapper => fc.HPASWrapper

/-! ## Predicates used in the statements -/

/-- The operation-name constant that denotes the operation of a method: the
constant of the same name, `BCCListEnterpriseSG` for `ListEsg`, `VPCListAcl` for
`ListAclEntrys` and `BCCListENIs` for `ListBCCInstanceEni`; `GetENIQuota` and
`HPASWrapper` have no constant. -/
def ownName : Method → Option String
  | Method.DescribeVPC => some Cloud.DescribeVPC
  | Method.ListEsg => some Cloud.BCCListEnterpriseSG
  | Method.ListAclEntrys => some Cloud.VPCListAcl
  | Method.BCCBatchAddIP => some Cloud.BCCBatchAddIP
  | Method.BCCBatchDelIP => some Cloud.BCCBatchDelIP
  | Method.ListBCCInstanceEni => some Cloud.BCCListENIs
  | Method.AddPrivateIP => some Cloud.AddPrivateIP
  | Method.AttachENI => some Cloud.AttachENI
  | Method.BBCBatchAddIP => some Cloud.BBCBatchAddIP
  | Method.BBCBatchAddIPCrossSubnet => some Cloud.BBCBatchAddIPCrossSubnet
  | Method.BBCBatchDelIP => some Cloud.BBCBatchDelIP
  | Method.BatchAddHpcEniPrivateIP => some Cloud.BatchAddHpcEniPrivateIP
  | Method.BatchAddPrivateIP => some Cloud.BatchAddPrivateIP
  | Method.BatchAddPrivateIpCrossSubnet => some Cloud.BatchAddPrivateIpCrossSubnet
  | Method.BatchDeleteHpcEniPrivateIP => some Cloud.BatchDeleteHpcEniPrivateIP
  | Method.BatchDeletePrivateIP => some Cloud.BatchDeletePrivateIP
  | Method.CreateENI => some Cloud.CreateENI
  | Method.CreateRouteRule => some Cloud.CreateRouteRule
  | Method.DeleteENI => some Cloud.DeleteENI
  | Method.DeletePrivateIP => some Cloud.DeletePrivateIP
  | Method.BindENIPublicIP => some Cloud.BindENIPublicIP
  | Method.UnBindENIPublicIP => some Cloud.UnBindENIPublicIP
  | Method.DirectEIP => some Cloud.DirectEIP
  | Method.UnDirectEIP => some Cloud.UnDirectEIP
  | Method.ListEIPs => some Cloud.ListEIPs
  | Method.DeleteRouteRule => some Cloud.DeleteRouteRule
  | Method.DescribeSubnet => some Cloud.DescribeSubnet
  | Method.DetachENI => some Cloud.DetachENI
  | Method.GetBBCInstanceDetail => some Cloud.GetBBCInstanceDetail
  | Method.GetBBCInstanceENI => some Cloud.GetBBCInstanceENI
  | Method.GetBCCInstanceDetail => some Cloud.GetBCCInstanceDetail
  | Method.GetHPCEniID => some Cloud.GetHPCEniID
  | Method.ListENIs => some Cloud.ListENIs
  | Method.ListERIs => some Cloud.ListERIs
  | Method.ListRouteTable => some Cloud.ListRouteTable
  | Method.ListSecurityGroup => some Cloud.ListSecurityGroup
  | Method.ListSubnets => some Cloud.ListSubnets
  | Method.StatENI => some Cloud.StatENI
  | Method.GetENIQuota => none
  | Method.HPASWrapper => none

/-- The event is a call of `limiter.Wait`. -/
def isWait : Event → Bool
  | Event.Wait _ => true
  | _ => false

/-- The operation names given to `limiter.Wait` in a trace, in order. -/
def waitNames : List Event → List String
  | [] => []
  | Event.Wait name :: rest => name :: waitNames rest
  | _ :: rest => waitNames rest

/-- The event is the forwarded call on the underlying client. -/
def isCall : Event → Bool
  | Event.Call _ => true
  | _ => false

/-- The event is `Done()` or `Error(err)` on the handle. -/
def isClose : Event → Bool
  | Event.Done => true
  | Event.Error _ => true
  | _ => false

/-! ## Concrete scenarios -/

/-- A client with rate limiting enabled in which `Wait` and every cloud call
succeed. -/
def limitedClient : flowControlClient :=
  { EnableAPIRateLimit := true,
    client := (fun _ => (Ret.object 1, none)),
    Wait := (fun _ => none) }

/-- The client `limitedClient` over a cloud whose calls all fail. -/
def failingCloudClient : flowControlClient :=
  { limitedClient with client := (fun _ => (Ret.nil, some "InternalError")) }

end Cloud

/-!
Standard (multi-ENI) adapter of `cce-network-v2/pkg/bce/vpceni/node_bcc.go`.

`__prepareIPAllocation` and `reuseIPs` of `bccNetworkResourceSet`.  The node
reads the operator configuration, its ENI quota, the interfaces attached to the
instance and the borrowed-subnet manager; these are fields of `Node`.  The
cloud client and the helpers of the instance manager that are not part of the
sources are oracles of a `ReuseWorld`, and the calls of `reuseIPs` on the cloud
client are put in a trace.  Lengths of address sets and quotas are mathematical
integers.
-/

namespace Vpceni

open Ipam

/-! ## Data model -/

/-- Modelled from the spec: the use mode `primary-ip` of package `ccev2`, which
is not part of the sources (any fixed value). -/
def ENIUseModePrimaryIP : String := "primary-ip"

/-- The fields of an `eniResource` (a `ccev2.ENI`) read by the adapter:
`Spec.UseMode`, `Status.VPCStatus` and `Spec.ENI`. -/
structure eniResource where
  UseMode : String
  VPCStatus : String
  ENI : Bcesync.ENIModel
  deriving DecidableEq, Repr

/-- What the adapter reads of a subnet of the borrowed-subnet manager
(`bcesync.GlobalBSM().GetSubnet`). -/
structure Subnet where
  Name : String
  BorrowedAvailableIPsCount : Int
  GetBorrowedIPNum : String → Int

/-- The two limits of an `ENIQuotaManager`: `GetMaxENI()` and `GetMaxIP()`. -/
structure ENIQuota where
  MaxENI : Int
  MaxIP : Int
  deriving DecidableEq, Repr

/-- What `bccNetworkResourceSet` reads: the flags `EnableIPv4` and `EnableIPv6`
of `operatorOption.Config`, the quota returned by `getENIQuota()` (`none` for
`nil`), the interfaces that `ForeachInstance` visits, each with its identifier
and its resource if that is an `*eniResource`, the subnet lookup, and the use
mode and the name of the node object. -/
structure Node where
  EnableIPv4 : Bool
  EnableIPv6 : Bool
  eniQuota : Option ENIQuota
  interfaces : List (String × Option eniResource)
  GetSubnet : String → Except Error Subnet
  UseMode : String
  Name : String

/-- The value `&ipam.AllocationAction{}`. -/
def emptyAction : AllocationAction :=
  { InterfaceID := "", PoolID := "", AvailableForAllocationIPv4 := 0,
    AvailableForAllocationIPv6 := 0, MaxIPsToAllocate := 0, AvailableInterfaces := 0 }

/-! ## `__prepareIPAllocation` -/

/-- Lines 222-241 of `node_bcc.go`: the pair `availableIPv4OnENI`,
`availableIPv6OnENI` computed for the interface `e` under the limit
`effectiveLimits`. -/
def availableOnENI (enableIPv4 enableIPv6 : Bool) (effectiveLimits : Int) (e : eniResource) :
    Int × Int :=
  if enableIPv4 && enableIPv6 then
    let ipv6Diff : Int := (e.ENI.IPV6PrivateIPSet.length : Int) - (e.ENI.PrivateIPSet.length : Int)
    if ipv6Diff > 0 then
      (IntMin (effectiveLimits - (e.ENI.PrivateIPSet.length : Int)) ipv6Diff, 0)
    else if ipv6Diff < 0 then
      (0, IntMin (effectiveLimits - (e.ENI.IPV6PrivateIPSet.length : Int)) (-ipv6Diff))
    else
      (IntMax (effectiveLimits - (e.ENI.PrivateIPSet.length : Int)) 0,
       IntMax (effectiveLimits - (e.ENI.IPV6PrivateIPSet.length : Int)) 0)
  else if enableIPv4 then
    (IntMax (effectiveLimits - (e.ENI.PrivateIPSet.length : Int)) 0, 0)
  else if enableIPv6 then
    (0, IntMax (effectiveLimits - (e.ENI.IPV6PrivateIPSet.length : Int)) 0)
  else (0, 0)

/-- The function given to `ForeachInstance` in `__prepareIPAllocation`, lines
175-275, after its `eniCount++`: the action `a` after the visit of one
interface and the error returned.  The map `amap` of lines 211-220 is never
read and is left out. -/
def visitInterface (n : Node) (eniQuota : ENIQuota) (checkSubnet : Bool) (a : AllocationAction)
    (interfaceID : String) (iface : Option eniResource) : AllocationAction × Option Error :=
  if (a.AvailableForAllocationIPv4 > 0 ∨ a.AvailableForAllocationIPv6 > 0) ∧
      a.PoolID ≠ "" ∧ a.InterfaceID ≠ "" then (a, none)
  else
    match iface with
    | none => (a, none)
    | some e =>
      if e.UseMode = ENIUseModePrimaryIP then (a, none)
      else if e.VPCStatus ≠ Bcesync.VPCENIStatusInuse then
        (a, some ("can not prepare ip allocation. eni " ++ interfaceID ++
          " is not inuse on vpc, please try again later"))
      else
        let effectiveLimits := eniQuota.MaxIP
        let availableIPv4OnENI := (availableOnENI n.EnableIPv4 n.EnableIPv6 effectiveLimits e).1
        let availableIPv6OnENI := (availableOnENI n.EnableIPv4 n.EnableIPv6 effectiveLimits e).2
        if availableIPv4OnENI = 0 ∧ availableIPv6OnENI = 0 then (a, none)
        else if !checkSubnet then
          ({ a with InterfaceID := interfaceID, PoolID := e.ENI.SubnetID,
                    AvailableForAllocationIPv4 := availableIPv4OnENI,
                    AvailableForAllocationIPv6 := availableIPv6OnENI }, none)
        else
          match n.GetSubnet e.ENI.SubnetID with
          | Except.ok subnet =>
            ({ a with
               AvailableForAllocationIPv4 :=
                 if subnet.GetBorrowedIPNum interfaceID > 0 then
                   IntMin (subnet.GetBorrowedIPNum interfaceID) availableIPv4OnENI
                 else IntMin subnet.BorrowedAvailableIPsCount availableIPv4OnENI,
               InterfaceID := interfaceID, PoolID := subnet.Name,
               AvailableForAllocationIPv6 := availableIPv6OnENI }, none)
          | Except.error err =>
            (a, some ("get subnet by id " ++ e.ENI.SubnetID ++ " failed: " ++ err))

/-- Modelled from the spec: `ForeachInstance` of the instance manager, which is
not part of the sources, "iterates all interfaces currently attached to the
instance": it calls the function on each of them in order and returns the first
error.  The result is the action, the counter `eniCount` and the error. -/
def foreachInterface (n : Node) (eniQuota : ENIQuota) (checkSubnet : Bool) :
    List (String × Option eniResource) → AllocationAction → Int →
      AllocationAction × Int × Option Error
  | [], a, eniCount => (a, eniCount, none)
  | (interfaceID, iface) :: rest, a, eniCount =>
    match visitInterface n eniQuota checkSubnet a interfaceID iface with
    | (a1, some err) => (a1, eniCount + 1, some err)
    | (a1, none) => foreachInterface n eniQuota checkSubnet rest a1 (eniCount + 1)

/-- The method `bccNetworkResourceSet.__prepareIPAllocation` of `node_bcc.go`,
lines 166-278: the action returned (`none` for `nil`) and the error. -/
def __prepareIPAllocation (n : Node) (checkSubnet : Bool) :
    Option AllocationAction × Option Error :=
  match n.eniQuota with
  | none => (none, some "eniQuota is nil, please retry later")
  | some eniQuota =>
    match foreachInterface n eniQuota checkSubnet n.interfaces emptyAction 0 with
    | (a, eniCount, err) =>
      (some { a with AvailableInterfaces := IntMax (eniQuota.MaxENI - eniCount) 0 }, err)

/-! ## `reuseIPs` -/

/-- Modelled from the spec: the address family returned by `ccev2.IPFamilyByIP`
(package `ccev2` is not part of the sources): IPv4, IPv6, or neither. -/
inductive IPFamily where
  | IPv4Family
  | IPv6Family
  | other
  deriving DecidableEq, Repr

/-- One call of `reuseIPs` that changes something in the cloud. -/
inductive CloudCall where
  | CreateInterface (action : AllocationAction)
  | BatchDeletePrivateIP (privateIPs : List String) (eniID : String) (isIpv6 : Bool)
  | BatchAddPrivateIpCrossSubnet (eniID subnetID : String) (privateIPs : List String)
      (count : Int) (isIpv6 : Bool)
  deriving DecidableEq, Repr

/-- The node and the collaborators of `reuseIPs`, as oracles:
`cache.SplitMetaNamespaceKey`, `ccev2.IPFamilyByIP`, `n.CreateInterface` (the
identifier of the new interface and the error), `n.rleaseOldIP` (the calls it
makes of the function it is given, each with the old interface and the
addresses to release, then whether the address is local, and its error), the
cloud call `BatchAddPrivateIpCrossSubnet`, `n.manager.HandlerVPCError` and
`watchers.ENIClient.GetByIP` (the names of the interfaces found). -/
structure ReuseWorld where
  node : Node
  SplitMetaNamespaceKey : String → Except Error (String × String)
  IPFamilyByIP : String → IPFamily
  CreateInterface : AllocationAction → String × Option Error
  rleaseOldIP : List Bcesync.PrivateIP → String → String →
    List (String × List String) × Bool × Option Error
  BatchAddPrivateIpCrossSubnet : String → String → List String → Int → Bool →
    List String × Option Error
  HandlerVPCError : Option Error → String → Option Error
  GetByIP : String → List String

/-- What `reuseIPs` returns, its calls on the cloud in order, and whether it
ended in a run-time panic (a `nil` dereference or an index out of range). -/
structure ReuseResult where
  eniID : String
  err : Option Error
  calls : List CloudCall
  panicked : Bool
  deriving DecidableEq, Repr

/-- The loop of lines 458-473: `ipv4Result` and `ipv6Result` after the
addresses were split by family (`none` for `nil`). -/
def splitByFamily (w : ReuseWorld) :
    List Bcesync.PrivateIP → Option Bcesync.PrivateIP × Option Bcesync.PrivateIP →
      Option Bcesync.PrivateIP × Option Bcesync.PrivateIP
  | [], results => results
  | privateIP :: rest, (ipv4Result, ipv6Result) =>
    match w.IPFamilyByIP privateIP.PrivateIPAddress with
    | IPFamily.IPv4Family =>
      splitByFamily w rest
        (some { PublicIPAddress := "", PrivateIPAddress := privateIP.PrivateIPAddress,
                Primary := privateIP.Primary, SubnetID := privateIP.SubnetID }, ipv6Result)
    | IPFamily.IPv6Family =>
      splitByFamily w rest
        (ipv4Result,
         some { PublicIPAddress := "", PrivateIPAddress := privateIP.PrivateIPAddress,
                Primary := privateIP.Primary, SubnetID := privateIP.SubnetID })
    | IPFamily.other => splitByFamily w rest (ipv4Result, ipv6Result)

/-- The deferred function of lines 515-532, run when `reuseIPs` returns: the
calls it makes for the values that `err`, `ipv4Result`, `ipv6Result` and `eniID`
have at that moment. -/
def rollback (err : Option Error) (ipv4Result ipv6Result : Option Bcesync.PrivateIP)
    (eniID : String) : List CloudCall :=
  match err with
  | none => []
  | some _ =>
    let ipsToRelease :=
      (match ipv4Result with
        | some ip => [ip.PrivateIPAddress]
        | none => []) ++
      (match ipv6Result with
        | some ip => [ip.PrivateIPAddress]
        | none => [])
    if ipsToRelease.length > 0 then [CloudCall.BatchDeletePrivateIP ipsToRelease eniID true]
    else []

/-- The part of `reuseIPs` after the deferred function is set, lines 534-563:
the two allocations on the interface `eniID`, with the calls `before` made so
far. -/
def reuseAllocate (w : ReuseWorld) (eniID : String) (before : List CloudCall)
    (ipv4Result ipv6Result : Option Bcesync.PrivateIP) : ReuseResult :=
  match ipv4Result with
  | none => { eniID := eniID, err := none, calls := before, panicked := true }
  | some v4 =>
    let call4 := CloudCall.BatchAddPrivateIpCrossSubnet eniID v4.SubnetID
      [v4.PrivateIPAddress] 1 false
    match w.BatchAddPrivateIpCrossSubnet eniID v4.SubnetID [v4.PrivateIPAddress] 1 false with
    | (_, some err) =>
      { eniID := eniID, err := some err,
        calls := before ++ [call4] ++ rollback (some err) none ipv6Result eniID,
        panicked := false }
    | (ipstr, none) =>
      if ipstr.length ≠ 1 then
        { eniID := eniID,
          err := some ("allocate ip cross subnet failed, ipstr len " ++ toString ipstr.length),
          calls := before ++ [call4] ++
            rollback (some ("allocate ip cross subnet failed, ipstr len " ++
              toString ipstr.length)) none ipv6Result eniID,
          panicked := false }
      else
        match ipv6Result with
        | none => { eniID := eniID, err := none, calls := before ++ [call4], panicked := false }
        | some v6 =>
          if w.node.EnableIPv6 then
            let call6 := CloudCall.BatchAddPrivateIpCrossSubnet eniID v6.SubnetID
              [v6.PrivateIPAddress] 1 true
            match w.BatchAddPrivateIpCrossSubnet eniID v6.SubnetID [v6.PrivateIPAddress] 1 true with
            | (ipstr6, err6) =>
              if (w.HandlerVPCError err6 v6.SubnetID).isSome then
                { eniID := eniID, err := err6,
                  calls := before ++ [call4, call6] ++ rollback err6 (some v4) (some v6) eniID,
                  panicked := false }
              else if ipstr6.length ≠ 1 then
                { eniID := eniID,
                  err := some ("allocate ipv6 cross subnet failed, ipstr len " ++
                    toString ipstr6.length),
                  calls := before ++ [call4, call6] ++
                    rollback (some ("allocate ipv6 cross subnet failed, ipstr len " ++
                      toString ipstr6.length)) (some v4) (some v6) eniID,
                  panicked := false }
              else
                { eniID := eniID, err := err6,
                  calls := before ++ [call4, call6] ++ rollback err6 (some v4) (some v6) eniID,
                  panicked := false }
          else { eniID := eniID, err := none, calls := before ++ [call4], panicked := false }

/-- The method `bccNetworkResourceSet.reuseIPs` of `node_bcc.go`, lines
438-565. -/
def reuseIPs (w : ReuseWorld) (ips : List Bcesync.PrivateIP) (owner : String) : ReuseResult :=
  if w.node.UseMode = ENIUseModePrimaryIP then
    { eniID := "", err := some "allocate ip cross subnet not support primary ip mode",
      calls := [], panicked := false }
  else if ips.length = 0 then
    { eniID := "", err := some "no ip to reuse", calls := [], panicked := false }
  else
    match w.SplitMetaNamespaceKey owner with
    | Except.error err =>
      { eniID := "", err := some ("invalid owner " ++ owner ++ ": " ++ err), calls := [],
        panicked := false }
    | Except.ok (podNamespace, name) =>
      let ipv4Result := (splitByFamily w ips (none, none)).1
      let ipv6Result := (splitByFamily w ips (none, none)).2
      match __prepareIPAllocation w.node false with
      | (_, some err) => { eniID := "", err := some err, calls := [], panicked := false }
      | (none, none) => { eniID := "", err := none, calls := [], panicked := true }
      | (some action, none) =>
        if action.AvailableForAllocationIPv4 = 0 ∧ action.AvailableForAllocationIPv6 = 0 then
          if action.AvailableInterfaces = 0 then
            { eniID := "",
              err := some ("no available ip for allocation on node " ++ w.node.Name),
              calls := [], panicked := false }
          else
            match w.CreateInterface action with
            | (_, some err) =>
              { eniID := "", err := some ("create interface failed: " ++ err),
                calls := [CloudCall.CreateInterface action], panicked := false }
            | (eniID, none) =>
              { eniID := "",
                err := some ("no available eni for allocation on node " ++ w.node.Name ++
                  ", try to create new eni " ++ eniID),
                calls := [CloudCall.CreateInterface action], panicked := false }
        else
          let eniID := action.InterfaceID
          let released := w.rleaseOldIP ips podNamespace name
          let releaseCalls :=
            released.1.map (fun c => CloudCall.BatchDeletePrivateIP c.2 c.1 false)
          match released.2.2 with
          | some err => { eniID := eniID, err := some err, calls := releaseCalls,
                          panicked := false }
          | none =>
            if released.2.1 then
              match ipv4Result with
              | none => { eniID := eniID, err := none, calls := releaseCalls, panicked := true }
              | some v4 =>
                match w.GetByIP v4.PrivateIPAddress with
                | [] => { eniID := eniID, err := none, calls := releaseCalls, panicked := true }
                | first :: _ =>
                  { eniID := first, err := none, calls := releaseCalls, panicked := false }
            else reuseAllocate w eniID releaseCalls ipv4Result ipv6Result

/-! ## Concrete scenarios -/

/-- An address of the subnet `sbn-1`. -/
def someIP (address : String) : Bcesync.PrivateIP :=
  { PublicIPAddress := "", PrivateIPAddress := address, Primary := false, SubnetID := "sbn-1" }

/-- An interface in use, in secondary-IP mode, with `v4` IPv4 addresses and
`v6` IPv6 addresses. -/
def inuseENI (v4 v6 : Nat) : eniResource :=
  { UseMode := "secondary-ip", VPCStatus := "in-use",
    ENI := { ID := "eni-1", Name := "eni-1", MacAddress := "", InstanceID := "i-1",
             SecurityGroupIds := [], EnterpriseSecurityGroupIds := [], Description := "",
             VpcID := "vpc-1", ZoneName := "zoneA", SubnetID := "sbn-1",
             PrivateIPSet := List.replicate v4 (someIP "10.0.0.1"),
             IPV6PrivateIPSet := List.replicate v6 (someIP "fd00::1") } }

/-- A dual-stack node with a quota of 8 interfaces and `maxIP` addresses per
interface, whose only interface is `inuseENI v4 v6`; the subnet `sbn-1` has 100
addresses to lend and has lent none to an interface. -/
def dualStackNode (maxIP : Int) (v4 v6 : Nat) : Node :=
  { EnableIPv4 := true, EnableIPv6 := true,
    eniQuota := some { MaxENI := 8, MaxIP := maxIP },
    interfaces := [("eni-1", some (inuseENI v4 v6))],
    GetSubnet := (fun _ =>
      Except.ok { Name := "sbn-1", BorrowedAvailableIPsCount := 100,
                  GetBorrowedIPNum := (fun _ => 0) }),
    UseMode := "secondary-ip", Name := "node-1" }

/-- The request to move the IPv4 address `10.0.0.5` and the IPv6 address
`fd00::5` of the subnet `sbn-2` to this node. -/
def migratedIPs : List Bcesync.PrivateIP :=
  [{ PublicIPAddress := "", PrivateIPAddress := "10.0.0.5", Primary := false,
     SubnetID := "sbn-2" },
   { PublicIPAddress := "", PrivateIPAddress := "fd00::5", Primary := false,
     SubnetID := "sbn-2" }]

/-- A world over a dual-stack node whose interface `eni-1` has room, in which
the old owner `eni-old` releases the IPv4 address and then every
`BatchAddPrivateIpCrossSubnet` fails. -/
def failingAddWorld : ReuseWorld :=
  { node := dualStackNode 8 3 3,
    SplitMetaNamespaceKey := (fun _ => Except.ok ("default", "pod-1")),
    IPFamilyByIP := (fun ip => if ip = "fd00::5" then IPFamily.IPv6Family
                               else IPFamily.IPv4Family),
    CreateInterface := (fun _ => ("", some "not called")),
    rleaseOldIP := (fun _ _ _ => ([("eni-old", ["10.0.0.5"])], false, none)),
    BatchAddPrivateIpCrossSubnet := (fun _ _ _ _ _ => ([], some "SubnetHasNoMoreIpException")),
    HandlerVPCError := (fun err _ => err),
    GetByIP := (fun _ => ["eni-1"]) }

/-- The world `failingAddWorld` in which the IPv4 address is added and only the
IPv6 call fails. -/
def failingIPv6AddWorld : ReuseWorld :=
  { failingAddWorld with
    BatchAddPrivateIpCrossSubnet := (fun _ _ privateIPs _ isIpv6 =>
      if isIpv6 then ([], some "SubnetHasNoMoreIpException") else (privateIPs, none)) }

/-- The world `failingAddWorld` in which both addresses are added. -/
def reuseWorld : ReuseWorld :=
  { failingAddWorld with
    BatchAddPrivateIpCrossSubnet := (fun _ _ privateIPs _ _ => (privateIPs, none)) }

end Vpceni

namespace Ipam

/-! ## Theorems: arithmetic -/

theorem IntMax_eq_max (a b : Int) : IntMax a b = max a b := by
  unfold IntMax
  split <;> omega

theorem IntMin_eq_min (a b : Int) : IntMin a b = min a b := by
  unfold IntMin
  split <;> omega

/-- C1: for all integer inputs `calculateNeededIPs` returns exactly the value of
the five-step formula of section 4.3 (start from `preAllocate - (available - used)`,
raise to `minAllocate - available` when `minAllocate > 0`, replace a positive
value by `burstableENIIPs` when that is positive, cap at `maxAllocate - available`
when `maxAllocate > 0`, clamp to at least 0). -/
theorem calculateNeededIPs_eq_formula
    (availableIPs usedIPs preAllocate minAllocate maxAllocate burstableENIIPs : Int) :
    calculateNeededIPs availableIPs usedIPs preAllocate minAllocate maxAllocate burstableENIIPs
      = neededIPsFormula availableIPs usedIPs preAllocate minAllocate maxAllocate
          burstableENIIPs := by
  simp only [calculateNeededIPs, neededIPsFormula, IntMax_eq_max]
  split <;> omega

/-- C2: `calculateExcessIPs` returns 0 when `burstableMehrfachENI > 0`, returns 0
when both `used` and `available` are at most `minAllocate + maxAboveWatermark`,
and otherwise returns `max (available - used - preAllocate - maxAboveWatermark) 0`. -/
theorem calculateExcessIPs_cases
    (availableIPs usedIPs preAllocate minAllocate maxAboveWatermark burstableMehrfachENI : Int) :
    (burstableMehrfachENI > 0 →
      calculateExcessIPs availableIPs usedIPs preAllocate minAllocate maxAboveWatermark
        burstableMehrfachENI = 0) ∧
    (usedIPs ≤ minAllocate + maxAboveWatermark ∧
        availableIPs ≤ minAllocate + maxAboveWatermark →
      calculateExcessIPs availableIPs usedIPs preAllocate minAllocate maxAboveWatermark
        burstableMehrfachENI = 0) ∧
    (¬ burstableMehrfachENI > 0 →
      ¬ (usedIPs ≤ minAllocate + maxAboveWatermark ∧
          availableIPs ≤ minAllocate + maxAboveWatermark) →
      calculateExcessIPs availableIPs usedIPs preAllocate minAllocate maxAboveWatermark
        burstableMehrfachENI
        = max (availableIPs - usedIPs - preAllocate - maxAboveWatermark) 0) := by
  refine ⟨?_, ?_, ?_⟩
  · intro h
    simp [calculateExcessIPs, h]
  · intro h
    unfold calculateExcessIPs
    split
    · rfl
    · simp [h]
  · intro h1 h2
    unfold calculateExcessIPs
    rw [if_neg h1, if_neg h2]
    simp only
    split <;> omega

/-- Witness for C2 at `available = 10, used = 2, preAllocate = 2`, all else 0. -/
theorem calculateExcessIPs_cases_witness :
    calculateExcessIPs 10 2 2 0 0 0 = max ((10 : Int) - 2 - 2 - 0) 0 :=
  (calculateExcessIPs_cases 10 2 2 0 0 0).2.2 (by decide) (by decide)


theorem calculateNeededIPs_no_burst (a u p mn mx : Int) :
    calculateNeededIPs a u p mn mx 0
      = max (if mx > 0 ∧ a + (if mn > 0 then max (p - (a - u)) (mn - a) else p - (a - u)) > mx
          then mx - a else (if mn > 0 then max (p - (a - u)) (mn - a) else p - (a - u))) 0 := by
  simp only [calculateNeededIPs, IntMax_eq_max]
  have h0 : ¬ ((0 : Int) > 0) := by decide
  simp only [h0, and_false, if_false]
  split <;> omega

/-- C7: in non-burstable mode the deficit engine reaches a fixpoint after one
allocation: with `n` the needed count, recomputing at `available + n` gives a
needed count of 0, and when `n > 0` the excess count at `available + n` is 0
(given `preAllocate ≥ 0` and `maxAboveWatermark ≥ 0`). -/
theorem deficit_fixpoint_after_allocation
    (available used preAllocate minAllocate maxAllocate maxAboveWatermark : Int)
    (hpre : 0 ≤ preAllocate) (hmaw : 0 ≤ maxAboveWatermark) :
    calculateNeededIPs
        (available + calculateNeededIPs available used preAllocate minAllocate maxAllocate 0)
        used preAllocate minAllocate maxAllocate 0 = 0 ∧
    (calculateNeededIPs available used preAllocate minAllocate maxAllocate 0 > 0 →
      calculateExcessIPs
        (available + calculateNeededIPs available used preAllocate minAllocate maxAllocate 0)
        used preAllocate minAllocate maxAboveWatermark 0 = 0) := by
  rw [calculateNeededIPs_no_burst available, calculateNeededIPs_no_burst]
  generalize hn : max (if maxAllocate > 0 ∧ available + (if minAllocate > 0 then
      max (preAllocate - (available - used)) (minAllocate - available)
      else preAllocate - (available - used)) > maxAllocate
    then maxAllocate - available else (if minAllocate > 0 then
      max (preAllocate - (available - used)) (minAllocate - available)
      else preAllocate - (available - used))) 0 = n
  have hn' := hn.symm
  clear hn
  by_cases hmn : minAllocate > 0 <;> by_cases hmx : maxAllocate > 0 <;>
    simp only [hmn, hmx, if_true, if_false, true_and, false_and] at hn' ⊢
  all_goals constructor
  all_goals (try intro hpos)
  all_goals (try simp only [calculateExcessIPs])
  all_goals omega

/-- Witness for C7 at `available = 5, used = 5, preAllocate = 2`: the needed
count is 2 and the recomputation at 7 addresses needs and releases nothing. -/
theorem deficit_fixpoint_after_allocation_witness :
    (0 : Int) ≤ 2 ∧ (0 : Int) ≤ 0 ∧
    calculateNeededIPs (5 + calculateNeededIPs 5 5 2 0 0 0) 5 2 0 0 0 = 0 ∧
    (calculateNeededIPs 5 5 2 0 0 0 > 0 →
      calculateExcessIPs (5 + calculateNeededIPs 5 5 2 0 0 0) 5 2 0 0 0 = 0) :=
  ⟨by decide, by decide, deficit_fixpoint_after_allocation 5 5 2 0 0 0 (by decide) (by decide)⟩

/-! ## Lemmas: agreement with 64-bit machine arithmetic -/

theorem wrap64_eq (x : Int) (h1 : -9223372036854775808 ≤ x) (h2 : x < 9223372036854775808) :
    wrap64 x = x := by
  unfold wrap64
  omega

theorem calculateNeededIPs64_eq
    (a u p mn mx b : Int)
    (ha : -1152921504606846976 ≤ a ∧ a ≤ 1152921504606846976)
    (hu : -1152921504606846976 ≤ u ∧ u ≤ 1152921504606846976)
    (hp : -1152921504606846976 ≤ p ∧ p ≤ 1152921504606846976)
    (hmn : -1152921504606846976 ≤ mn ∧ mn ≤ 1152921504606846976)
    (hmx : -1152921504606846976 ≤ mx ∧ mx ≤ 1152921504606846976)
    (hb : -1152921504606846976 ≤ b ∧ b ≤ 1152921504606846976) :
    calculateNeededIPs64 a u p mn mx b = calculateNeededIPs a u p mn mx b := by
  unfold calculateNeededIPs64 calculateNeededIPs
  have e1 : wrap64 (a - u) = a - u := wrap64_eq _ (by omega) (by omega)
  have e2 : wrap64 (p - (a - u)) = p - (a - u) := wrap64_eq _ (by omega) (by omega)
  have e3 : wrap64 (mn - a) = mn - a := wrap64_eq _ (by omega) (by omega)
  have e4 : wrap64 (mx - a) = mx - a := wrap64_eq _ (by omega) (by omega)
  simp only [e1, e2, e3, e4, IntMax_eq_max]
  have e5 : ∀ x, -4611686018427387904 ≤ x → x ≤ 4611686018427387904 → wrap64 (a + x) = a + x := by
    intro x h1 h2
    exact wrap64_eq _ (by omega) (by omega)
  have hs2 : -4611686018427387904 ≤ (if mn > 0 then max (p - (a - u)) (mn - a) else p - (a - u)) ∧
      (if mn > 0 then max (p - (a - u)) (mn - a) else p - (a - u)) ≤ 4611686018427387904 := by
    split <;> omega
  generalize (if mn > 0 then max (p - (a - u)) (mn - a) else p - (a - u)) = s2 at hs2 ⊢
  have hs3 : -4611686018427387904 ≤ (if s2 > 0 ∧ b > 0 then b else s2) ∧
      (if s2 > 0 ∧ b > 0 then b else s2) ≤ 4611686018427387904 := by
    split <;> omega
  generalize (if s2 > 0 ∧ b > 0 then b else s2) = s3 at hs3 ⊢
  rw [e5 s3 hs3.1 hs3.2]

theorem calculateExcessIPs64_eq
    (a u p mn w b : Int)
    (ha : -1152921504606846976 ≤ a ∧ a ≤ 1152921504606846976)
    (hu : -1152921504606846976 ≤ u ∧ u ≤ 1152921504606846976)
    (hp : -1152921504606846976 ≤ p ∧ p ≤ 1152921504606846976)
    (hmn : -1152921504606846976 ≤ mn ∧ mn ≤ 1152921504606846976)
    (hw : -1152921504606846976 ≤ w ∧ w ≤ 1152921504606846976) :
    calculateExcessIPs64 a u p mn w b = calculateExcessIPs a u p mn w b := by
  unfold calculateExcessIPs64 calculateExcessIPs
  have e1 : wrap64 (mn + w) = mn + w := wrap64_eq _ (by omega) (by omega)
  have e2 : wrap64 (a - u) = a - u := wrap64_eq _ (by omega) (by omega)
  have e3 : wrap64 (a - u - p) = a - u - p := wrap64_eq _ (by omega) (by omega)
  have e4 : wrap64 (a - u - p - w) = a - u - p - w := wrap64_eq _ (by omega) (by omega)
  simp only [e1, e2, e3, e4]

/-! ## Lemmas: maps and folds -/

theorem foldl_preserves {α β : Type} (P : β → Prop) (f : β → α → β) (l : List α) (b : β)
    (hb : P b) (hstep : ∀ b a, a ∈ l → P b → P (f b a)) : P (l.foldl f b) := by
  induction l generalizing b with
  | nil => exact hb
  | cons x xs ih =>
    simp only [List.foldl_cons]
    apply ih
    · exact hstep b x (List.mem_cons_self x xs) hb
    · intro b' a ha hP
      exact hstep b' a (List.mem_cons_of_mem x ha) hP

theorem mapGet_nil {V : Type} (k : String) : mapGet ([] : GoMap V) k = none := rfl

theorem mapGet_cons {V : Type} (m : GoMap V) (k k' : String) (v : V) :
    mapGet ((k', v) :: m) k = if k = k' then some v else mapGet m k := by
  unfold mapGet
  by_cases h : k = k'
  · subst h
    simp [List.lookup]
  · have hb : (k == k') = false := by simpa using h
    simp [List.lookup, hb, h]

theorem mapDelete_cons {V : Type} (m : GoMap V) (k k0 : String) (v : V) :
    mapDelete ((k0, v) :: m) k = if k0 = k then mapDelete m k else (k0, v) :: mapDelete m k := by
  unfold mapDelete
  by_cases h : k0 = k <;> simp [List.filter_cons, h]

theorem mapGet_mapDelete_self {V : Type} (m : GoMap V) (k : String) :
    mapGet (mapDelete m k) k = none := by
  induction m with
  | nil => rfl
  | cons e m ih =>
    obtain ⟨k0, v⟩ := e
    rw [mapDelete_cons]
    by_cases h : k0 = k
    · rw [if_pos h]
      exact ih
    · rw [if_neg h, mapGet_cons, if_neg (fun hk => h hk.symm)]
      exact ih

theorem mapGet_mapDelete_ne {V : Type} (m : GoMap V) (k k' : String) (h : k' ≠ k) :
    mapGet (mapDelete m k) k' = mapGet m k' := by
  induction m with
  | nil => rfl
  | cons e m ih =>
    obtain ⟨k0, v⟩ := e
    rw [mapDelete_cons]
    by_cases h0 : k0 = k
    · rw [if_pos h0, mapGet_cons, ih]
      subst h0
      rw [if_neg h]
    · rw [if_neg h0, mapGet_cons, mapGet_cons, ih]

theorem mapGet_map_set {V : Type} (m : GoMap V) (k k' : String) (v : V) :
    mapGet (m.map (fun e => if e.1 == k then (k, v) else e)) k'
      = if k' = k then (mapGet m k).map (fun _ => v) else mapGet m k' := by
  induction m with
  | nil => simp [mapGet_nil]
  | cons e m ih =>
    obtain ⟨k0, v0⟩ := e
    rw [List.map_cons, mapGet_cons m k k0 v0, mapGet_cons m k' k0 v0]
    by_cases h0 : k0 = k
    · have hb : ((k0, v0).1 == k) = true := by simpa using h0
      rw [if_pos hb, mapGet_cons, ih]
      subst h0
      by_cases hk : k' = k0
      · simp [hk]
      · simp [hk]
    · have hb : ¬ (((k0, v0).1 == k) = true) := by simpa using h0
      rw [if_neg hb, mapGet_cons, ih]
      by_cases hk : k' = k
      · subst hk
        have h1 : ¬ k' = k0 := fun h => h0 h.symm
        simp [h1]
      · simp [hk]

theorem mapGet_append_single {V : Type} (m : GoMap V) (k k' : String) (v : V) :
    mapGet (m ++ [(k, v)]) k'
      = match mapGet m k' with
        | some w => some w
        | none => if k' = k then some v else none := by
  induction m with
  | nil => simp [mapGet_cons, mapGet_nil]
  | cons e m ih =>
    obtain ⟨k0, v0⟩ := e
    simp only [List.cons_append, mapGet_cons]
    by_cases hk : k' = k0
    · simp [hk]
    · simp only [hk, if_false]
      exact ih

theorem mapGet_mapSet_self {V : Type} (m : GoMap V) (k : String) (v : V) :
    mapGet (mapSet m k v) k = some v := by
  unfold mapSet
  split
  · rename_i h
    rw [mapGet_map_set]
    simp only [if_true]
    cases hm : mapGet m k with
    | none => simp [hm] at h
    | some w => rfl
  · rename_i h
    rw [mapGet_append_single]
    cases hm : mapGet m k with
    | none => simp
    | some w => simp [hm] at h

theorem mapGet_mapSet_ne {V : Type} (m : GoMap V) (k k' : String) (v : V) (h : k' ≠ k) :
    mapGet (mapSet m k v) k' = mapGet m k' := by
  unfold mapSet
  split
  · rw [mapGet_map_set, if_neg h]
  · rw [mapGet_append_single]
    cases hm : mapGet m k' with
    | none => simp [h]
    | some w => rfl

theorem mapGet_of_mem {V : Type} (m : GoMap V) (k : String) (v : V) (h : (k, v) ∈ m) :
    mapGet m k ≠ none := by
  induction m with
  | nil => simp at h
  | cons e m ih =>
    obtain ⟨k0, v0⟩ := e
    rw [mapGet_cons]
    by_cases hk : k = k0
    · simp [hk]
    · simp only [hk, if_false]
      apply ih
      rcases List.mem_cons.mp h with h1 | h1
      · exact absurd (congrArg Prod.fst h1) hk
      · exact h1

theorem mem_of_mapGet {V : Type} (m : GoMap V) (k : String) (v : V) (h : mapGet m k = some v) :
    (k, v) ∈ m := by
  induction m with
  | nil => simp [mapGet_nil] at h
  | cons e m ih =>
    obtain ⟨k0, v0⟩ := e
    rw [mapGet_cons] at h
    by_cases hk : k = k0
    · simp only [hk, if_true, Option.some.injEq] at h
      subst hk
      subst h
      exact List.mem_cons_self _ _
    · simp only [hk, if_false] at h
      exact List.mem_cons_of_mem _ (ih h)

/-! ## Theorems: `determineMaintenanceAction` -/

/-- C5: release has priority over allocation.  When excess-IP release is
enabled, `stats.ExcessIPs > 0` and the burstable IP count is 0, the action
returned by `determineMaintenanceAction` carries the release prepared by
`ops.PrepareIPRelease` and a nil allocation, and `PrepareIPRelease` is the only
call on `ops`, whatever `stats.NeededIPs` is; when the burstable count is
positive no release is prepared or returned.  At `available = 10, used = 2,
preAllocate = 2` (all else 0) the excess count is 6, which selects the release
path. -/
theorem determineMaintenanceAction_release_priority
    (env : Env) (ops : NetResourceOperations) (n : NetResource) :
    (n.releaseExcessIPs = true → n.stats.ExcessIPs > 0 →
      ops.GetMaximumBurstableAllocatableIPv4 = 0 →
      determineMaintenanceAction env ops n =
        (n, [OpsCall.PrepareIPRelease n.stats.ExcessIPs],
          some { allocation := none, release := ops.PrepareIPRelease n.stats.ExcessIPs },
          none)) ∧
    (ops.GetMaximumBurstableAllocatableIPv4 > 0 →
      (∀ k, OpsCall.PrepareIPRelease k ∉ (determineMaintenanceAction env ops n).2.1) ∧
      ∀ a, (determineMaintenanceAction env ops n).2.2.1 = some a → a.release = none) ∧
    calculateExcessIPs 10 2 2 0 0 0 = 6 ∧
    (n.releaseExcessIPs = true → n.stats.ExcessIPs = calculateExcessIPs 10 2 2 0 0 0 →
      ops.GetMaximumBurstableAllocatableIPv4 = 0 →
      (determineMaintenanceAction env ops n).2.2.1 =
        some { allocation := none, release := ops.PrepareIPRelease 6 }) := by
  have h6 : calculateExcessIPs 10 2 2 0 0 0 = 6 := by decide
  refine ⟨?_, ?_, h6, ?_⟩
  · intro h1 h2 h3
    simp [determineMaintenanceAction, h1, h2, h3]
  · intro hb
    have hne : ¬ ops.GetMaximumBurstableAllocatableIPv4 = 0 := by omega
    constructor
    · intro k
      simp only [determineMaintenanceAction, hne, and_false, if_false]
      split
      · simp
      · split <;> simp
    · intro a
      simp only [determineMaintenanceAction, hne, and_false, if_false]
      split
      · simp
      · split
        · simp
        · intro h
          simp only [Option.some.injEq] at h
          rw [← h]
  · intro h1 h2 h3
    rw [h6] at h2
    have hpos : n.stats.ExcessIPs > 0 := by omega
    simp [determineMaintenanceAction, h1, hpos, h3, h2]

/-- Witness for C5: the node with 6 excess IPs gets the release action of the
adapter and no allocation. -/
theorem determineMaintenanceAction_release_priority_witness :
    determineMaintenanceAction exampleEnv exampleOps excessNode =
      (excessNode, [OpsCall.PrepareIPRelease excessNode.stats.ExcessIPs],
        some { allocation := none,
               release := exampleOps.PrepareIPRelease excessNode.stats.ExcessIPs },
        none) :=
  (determineMaintenanceAction_release_priority exampleEnv exampleOps excessNode).1
    rfl (by decide) rfl

/-- C6: on the allocation path of `determineMaintenanceAction` (no release
action, `stats.NeededIPs > 0`, `PrepareIPAllocation` returned the action `al`)
the returned action is `al` with `MaxIPsToAllocate = NeededIPs +
max (pendingPods - NeededIPs) 0 = max NeededIPs pendingPods` when the pending
pod count is available, and with `MaxIPsToAllocate = NeededIPs` when it cannot
be computed; with `NeededIPs = 0` no action is returned and `ops` is not called.
At `available = 5, used = 5, preAllocate = 2` the needed count is 2. -/
theorem determineMaintenanceAction_allocation_budget
    (env : Env) (ops : NetResourceOperations) (n : NetResource) (al : AllocationAction)
    (hrel : ¬ (n.releaseExcessIPs = true ∧ n.stats.ExcessIPs > 0 ∧
      ops.GetMaximumBurstableAllocatableIPv4 = 0))
    (hprep : ops.PrepareIPAllocation = Except.ok al) :
    (n.stats.NeededIPs > 0 →
      (∀ pendingPods, getPendingPodCount env n.name = (pendingPods, none) →
        (determineMaintenanceAction env ops n).2.2 =
          (some { allocation := some { al with
                    MaxIPsToAllocate := n.stats.NeededIPs + max (pendingPods - n.stats.NeededIPs) 0 },
                  release := none }, none) ∧
        n.stats.NeededIPs + max (pendingPods - n.stats.NeededIPs) 0
          = max n.stats.NeededIPs pendingPods) ∧
      (∀ k e, getPendingPodCount env n.name = (k, some e) →
        (determineMaintenanceAction env ops n).2.2 =
          (some { allocation := some { al with MaxIPsToAllocate := n.stats.NeededIPs },
                  release := none }, none))) ∧
    (n.stats.NeededIPs = 0 → determineMaintenanceAction env ops n = (n, [], none, none)) ∧
    calculateNeededIPs 5 5 2 0 0 0 = 2 := by
  refine ⟨?_, ?_, by decide⟩
  · intro hpos
    have hne : ¬ n.stats.NeededIPs = 0 := by omega
    constructor
    · intro pendingPods hp
      constructor
      · simp only [determineMaintenanceAction, hrel, if_false, hne, hprep, hp]
        by_cases hgt : pendingPods > n.stats.NeededIPs
        · have hmax : max (pendingPods - n.stats.NeededIPs) 0 = pendingPods - n.stats.NeededIPs := by
            omega
          simp [hgt, hmax]
        · have hmax : max (pendingPods - n.stats.NeededIPs) 0 = 0 := by omega
          simp [hgt, hmax]
      · omega
    · intro k e hp
      simp [determineMaintenanceAction, hrel, hne, hprep, hp]
  · intro h0
    simp [determineMaintenanceAction, hrel, h0]

/-- Witness for C6: the node that needs 2 IPs, with no pending pod, gets an
allocation budget of exactly 2. -/
theorem determineMaintenanceAction_allocation_budget_witness :
    (determineMaintenanceAction exampleEnv exampleOps deficitNode).2.2 =
      (some { allocation := some
                { InterfaceID := "eni-1", PoolID := "sbn-1", AvailableForAllocationIPv4 := 3,
                  AvailableForAllocationIPv6 := 0, MaxIPsToAllocate := 2,
                  AvailableInterfaces := 1 },
              release := none }, none) :=
  ((determineMaintenanceAction_allocation_budget exampleEnv exampleOps deficitNode
      { InterfaceID := "eni-1", PoolID := "sbn-1", AvailableForAllocationIPv4 := 3,
        AvailableForAllocationIPv6 := 0, MaxIPsToAllocate := 0, AvailableInterfaces := 1 }
      (by decide) rfl).1 (by decide)).1 0 rfl |>.1

/-! ## Lemmas: the release handshake -/

theorem mapGet_mapDelete_none {V : Type} (m : GoMap V) (k k' : String)
    (h : mapGet m k' = none) : mapGet (mapDelete m k) k' = none := by
  by_cases hk : k' = k
  · subst hk
    exact mapGet_mapDelete_self m k'
  · rw [mapGet_mapDelete_ne m k k' hk]
    exact h

theorem ready_ne_doNotRelease : IPAMReadyForRelease ≠ IPAMDoNotRelease := by decide

theorem handleIPReleaseResponse_resource (n : NetResource) (markedIP : String)
    (l : List String) : (handleIPReleaseResponse n markedIP l).1.resource = n.resource := by
  unfold handleIPReleaseResponse
  split
  · split
    · rfl
    · split <;> rfl
  · rfl

theorem handleIPReleaseResponse_mem (n : NetResource) (markedIP : String) (l : List String)
    (ip : String) (h : ip ∈ (handleIPReleaseResponse n markedIP l).2.1) :
    ip ∈ l ∨ (ip = markedIP ∧
      mapGet n.resource.Status.IPAM.ReleaseIPs markedIP = some IPAMReadyForRelease) := by
  unfold handleIPReleaseResponse at h
  split at h
  · rename_i status hs
    split at h
    · rename_i hready
      have hst : status = IPAMReadyForRelease := by simpa using hready
      simp only [List.mem_append, List.mem_singleton] at h
      rcases h with h | h
      · exact Or.inl h
      · exact Or.inr ⟨h, by rw [hs, hst]⟩
    · split at h <;> exact Or.inl h
  · exact Or.inl h

theorem handleIPReleaseResponse_unhandled (n : NetResource) (markedIP : String)
    (l : List String) (h : (handleIPReleaseResponse n markedIP l).2.2 = false) :
    handleIPReleaseResponse n markedIP l = (n, l, false) ∧
    mapGet n.resource.Status.IPAM.ReleaseIPs markedIP = none := by
  unfold handleIPReleaseResponse at h ⊢
  split at h
  · split at h
    · simp at h
    · split at h <;> simp at h
  · rename_i hnone
    simp [hnone]

/-- What `handleIPReleaseResponse` leaves untouched: the entries of an IP whose
peer status is `ready-for-release`. -/
theorem handleIPReleaseResponse_frame (n : NetResource) (markedIP : String) (l : List String)
    (ip : String)
    (hready : mapGet n.resource.Status.IPAM.ReleaseIPs ip = some IPAMReadyForRelease) :
    mapGet (handleIPReleaseResponse n markedIP l).1.ipsMarkedForRelease ip
      = mapGet n.ipsMarkedForRelease ip ∧
    mapGet (handleIPReleaseResponse n markedIP l).1.ipReleaseStatus ip
      = mapGet n.ipReleaseStatus ip := by
  unfold handleIPReleaseResponse
  split
  · rename_i status hs
    split
    · exact ⟨rfl, rfl⟩
    · rename_i hnr
      split
      · have hne : ip ≠ markedIP := by
          intro heq
          subst heq
          rw [hready] at hs
          simp only [Option.some.injEq] at hs
          subst hs
          simp at hnr
        exact ⟨mapGet_mapDelete_ne _ _ _ hne, mapGet_mapDelete_ne _ _ _ hne⟩
      · exact ⟨rfl, rfl⟩
  · exact ⟨rfl, rfl⟩

/-- The maps only lose entries in `handleIPReleaseResponse`. -/
theorem handleIPReleaseResponse_none (n : NetResource) (markedIP : String) (l : List String)
    (ip : String) :
    (mapGet n.ipsMarkedForRelease ip = none →
      mapGet (handleIPReleaseResponse n markedIP l).1.ipsMarkedForRelease ip = none) ∧
    (mapGet n.ipReleaseStatus ip = none →
      mapGet (handleIPReleaseResponse n markedIP l).1.ipReleaseStatus ip = none) := by
  unfold handleIPReleaseResponse
  split
  · split
    · exact ⟨id, id⟩
    · split
      · exact ⟨mapGet_mapDelete_none _ _ _, mapGet_mapDelete_none _ _ _⟩
      · exact ⟨id, id⟩
  · exact ⟨id, id⟩

theorem any_eq_iff_mem (excess : List String) (markedIP : String) :
    excess.any (fun ip => markedIP == ip) = true ↔ markedIP ∈ excess := by
  simp [List.any_eq_true]

theorem handshakeStep_resource (env : Env) (excess : List String) (st : ReleaseLoopState)
    (e : String × Time) : (handshakeStep env excess st e).n.resource = st.n.resource := by
  unfold handshakeStep
  simp only
  split
  · rfl
  · split
    · rfl
    · split
      · exact handleIPReleaseResponse_resource _ _ _
      · exact handleIPReleaseResponse_resource _ _ _

/-- One iteration of the handshake loop adds to `ipsToRelease` only the visited
IP, and only when it is in the excess list, its cool-down has elapsed and its
peer status is `ready-for-release`. -/
theorem handshakeStep_release_mem (env : Env) (excess : List String) (st : ReleaseLoopState)
    (e : String × Time) (ip : String)
    (h : ip ∈ (handshakeStep env excess st e).ipsToRelease) :
    ip ∈ st.ipsToRelease ∨
      (ip = e.1 ∧ ip ∈ excess ∧
        ¬ (e.2 + env.ExcessIPReleaseDelay * Second > env.now ip) ∧
        mapGet st.n.resource.Status.IPAM.ReleaseIPs ip = some IPAMReadyForRelease) := by
  unfold handshakeStep at h
  simp only at h
  split at h
  · exact Or.inl h
  · rename_i hstill
    have hmem : e.1 ∈ excess := by
      rw [← any_eq_iff_mem]
      simpa using hstill
    split at h
    · exact Or.inl h
    · rename_i hcool
      have hcases : ip ∈ (handleIPReleaseResponse st.n e.1 st.ipsToRelease).2.1 := by
        split at h <;> exact h
      rcases handleIPReleaseResponse_mem _ _ _ _ hcases with h1 | ⟨h1, h2⟩
      · exact Or.inl h1
      · subst h1
        exact Or.inr ⟨rfl, hmem, hcool, h2⟩

theorem handshakeStep_mark_mem (env : Env) (excess : List String) (st : ReleaseLoopState)
    (e : String × Time) (ip : String)
    (h : ip ∈ (handshakeStep env excess st e).ipsToMark) :
    ip ∈ st.ipsToMark ∨
      (ip = e.1 ∧ ip ∈ excess ∧ mapGet st.n.resource.Status.IPAM.ReleaseIPs ip = none) := by
  unfold handshakeStep at h
  simp only at h
  split at h
  · exact Or.inl h
  · rename_i hstill
    have hmem : e.1 ∈ excess := by
      rw [← any_eq_iff_mem]
      simpa using hstill
    split at h
    · exact Or.inl h
    · split at h
      · exact Or.inl h
      · rename_i hun
        have hun' : (handleIPReleaseResponse st.n e.1 st.ipsToRelease).2.2 = false := by
          simpa using hun
        simp only [List.mem_append, List.mem_singleton] at h
        rcases h with h | h
        · exact Or.inl h
        · subst h
          exact Or.inr ⟨rfl, hmem, (handleIPReleaseResponse_unhandled _ _ _ hun').2⟩

/-- One iteration of the handshake loop leaves the entries of an IP alone when
that IP is in the excess list and its peer status is `ready-for-release`. -/
theorem handshakeStep_frame (env : Env) (excess : List String) (st : ReleaseLoopState)
    (e : String × Time) (ip : String) (hex : ip ∈ excess)
    (hready : mapGet st.n.resource.Status.IPAM.ReleaseIPs ip = some IPAMReadyForRelease) :
    mapGet (handshakeStep env excess st e).n.ipsMarkedForRelease ip
      = mapGet st.n.ipsMarkedForRelease ip ∧
    mapGet (handshakeStep env excess st e).n.ipReleaseStatus ip
      = mapGet st.n.ipReleaseStatus ip := by
  unfold handshakeStep
  simp only
  split
  · rename_i hnot
    have hne : ip ≠ e.1 := by
      intro heq
      have : e.1 ∈ excess := heq ▸ hex
      rw [← any_eq_iff_mem] at this
      simp [this] at hnot
    exact ⟨mapGet_mapDelete_ne _ _ _ hne, mapGet_mapDelete_ne _ _ _ hne⟩
  · split
    · exact ⟨rfl, rfl⟩
    · split
      · exact handleIPReleaseResponse_frame _ _ _ _ hready
      · exact handleIPReleaseResponse_frame _ _ _ _ hready

/-- One iteration of the handshake loop never adds an entry to the two maps. -/
theorem handshakeStep_none (env : Env) (excess : List String) (st : ReleaseLoopState)
    (e : String × Time) (ip : String) :
    (mapGet st.n.ipsMarkedForRelease ip = none →
      mapGet (handshakeStep env excess st e).n.ipsMarkedForRelease ip = none) ∧
    (mapGet st.n.ipReleaseStatus ip = none →
      mapGet (handshakeStep env excess st e).n.ipReleaseStatus ip = none) := by
  unfold handshakeStep
  simp only
  split
  · exact ⟨mapGet_mapDelete_none _ _ _, mapGet_mapDelete_none _ _ _⟩
  · split
    · exact ⟨id, id⟩
    · split
      · exact handleIPReleaseResponse_none _ _ _ _
      · exact handleIPReleaseResponse_none _ _ _ _

/-- An IP that is not in the excess list loses both entries when it is visited. -/
theorem handshakeStep_abandon (env : Env) (excess : List String) (st : ReleaseLoopState)
    (e : String × Time) (hex : e.1 ∉ excess) :
    mapGet (handshakeStep env excess st e).n.ipsMarkedForRelease e.1 = none ∧
    mapGet (handshakeStep env excess st e).n.ipReleaseStatus e.1 = none := by
  have hany : excess.any (fun ip => e.1 == ip) = false := by
    cases h : excess.any (fun ip => e.1 == ip) with
    | false => rfl
    | true => exact absurd ((any_eq_iff_mem excess e.1).mp h) hex
  unfold handshakeStep
  simp only [hany]
  exact ⟨mapGet_mapDelete_self _ _, mapGet_mapDelete_self _ _⟩

/-! ## Lemmas: the phases of `handleIPRelease` -/

theorem mapSet_of_none {V : Type} (m : GoMap V) (k : String) (v : V)
    (h : mapGet m k = none) : mapSet m k v = m ++ [(k, v)] := by
  unfold mapSet
  simp [h]

theorem markNewExcessIPs_resource (ts : Time) (n : NetResource) (a : maintenanceAction) :
    (markNewExcessIPs ts n a).resource = n.resource ∧
    (markNewExcessIPs ts n a).ipReleaseStatus = n.ipReleaseStatus := by
  unfold markNewExcessIPs
  split
  · apply foldl_preserves (fun (m : NetResource) => m.resource = n.resource ∧
      m.ipReleaseStatus = n.ipReleaseStatus)
    · exact ⟨rfl, rfl⟩
    · intro b x _ hb
      split
      · exact hb
      · exact hb
  · exact ⟨rfl, rfl⟩

/-- Recording timestamps never changes the entry of an IP that is already
tracked, nor the entry of an IP outside the excess list. -/
theorem markNewExcessIPs_get (ts : Time) (n : NetResource) (a : maintenanceAction)
    (ip : String)
    (h : mapGet n.ipsMarkedForRelease ip ≠ none ∨
      ∀ release, a.release = some release → ip ∉ release.IPsToRelease) :
    mapGet (markNewExcessIPs ts n a).ipsMarkedForRelease ip
      = mapGet n.ipsMarkedForRelease ip := by
  unfold markNewExcessIPs
  split
  · rename_i release hrel
    apply foldl_preserves (fun (m : NetResource) => mapGet m.ipsMarkedForRelease ip
      = mapGet n.ipsMarkedForRelease ip)
    · rfl
    · intro b x hx hb
      split
      · rename_i hnone
        by_cases hk : ip = x
        · subst hk
          rcases h with h | h
          · rw [hb] at hnone
            cases hm : mapGet n.ipsMarkedForRelease ip with
            | none => exact absurd hm h
            | some w => simp [hm] at hnone
          · exact absurd hx (h release hrel)
        · rw [mapGet_mapSet_ne _ _ _ _ hk]
          exact hb
      · exact hb
  · rfl

/-- Every entry of the tracking map after the timestamps are recorded is an old
entry or carries the timestamp of this pass. -/
theorem markNewExcessIPs_entries (ts : Time) (n : NetResource) (a : maintenanceAction)
    (ip : String) (t : Time) (h : (ip, t) ∈ (markNewExcessIPs ts n a).ipsMarkedForRelease) :
    (ip, t) ∈ n.ipsMarkedForRelease ∨ t = ts := by
  revert h
  unfold markNewExcessIPs
  split
  · apply foldl_preserves (fun (m : NetResource) => (ip, t) ∈ m.ipsMarkedForRelease →
      (ip, t) ∈ n.ipsMarkedForRelease ∨ t = ts)
    · exact Or.inl
    · intro b x _ hb
      split
      · rename_i hnone
        have hn : mapGet b.ipsMarkedForRelease x = none := by
          cases hm : mapGet b.ipsMarkedForRelease x with
          | none => rfl
          | some w => simp [hm] at hnone
        simp only [mapSet_of_none _ _ _ hn, List.mem_append, List.mem_singleton, Prod.mk.injEq]
        rintro (h | ⟨_, h⟩)
        · exact hb h
        · exact Or.inr h
      · exact hb
  · exact Or.inl

theorem handshakeFold_resource (env : Env) (excess : List String) (l : List (String × Time))
    (st : ReleaseLoopState) :
    (l.foldl (handshakeStep env excess) st).n.resource = st.n.resource := by
  apply foldl_preserves (fun (s : ReleaseLoopState) => s.n.resource = st.n.resource)
  · rfl
  · intro b e _ hb
    rw [handshakeStep_resource]
    exact hb

/-- Every IP collected for release by the loop is in the excess list, was
visited with a timestamp whose cool-down has elapsed, and has peer status
`ready-for-release`. -/
theorem handshakeFold_release_mem (env : Env) (excess : List String)
    (l : List (String × Time)) (st : ReleaseLoopState) (ip : String)
    (h : ip ∈ (l.foldl (handshakeStep env excess) st).ipsToRelease) :
    ip ∈ st.ipsToRelease ∨
      (ip ∈ excess ∧
        (∃ t, (ip, t) ∈ l ∧ ¬ (t + env.ExcessIPReleaseDelay * Second > env.now ip)) ∧
        mapGet st.n.resource.Status.IPAM.ReleaseIPs ip = some IPAMReadyForRelease) := by
  have key := foldl_preserves (fun (s : ReleaseLoopState) => s.n.resource = st.n.resource ∧
      (ip ∈ s.ipsToRelease → ip ∈ st.ipsToRelease ∨
      (ip ∈ excess ∧
        (∃ t, (ip, t) ∈ l ∧ ¬ (t + env.ExcessIPReleaseDelay * Second > env.now ip)) ∧
        mapGet st.n.resource.Status.IPAM.ReleaseIPs ip = some IPAMReadyForRelease)))
    (handshakeStep env excess) l st ⟨rfl, Or.inl⟩ (by
      intro b e he hb
      refine ⟨by rw [handshakeStep_resource]; exact hb.1, ?_⟩
      intro hmem
      rcases handshakeStep_release_mem env excess b e ip hmem with h1 | ⟨h1, h2, h3, h4⟩
      · exact hb.2 h1
      · refine Or.inr ⟨h2, ⟨e.2, ?_, h3⟩, ?_⟩
        · rw [h1]
          exact he
        · rw [← hb.1]
          exact h4)
  exact key.2 h

/-- Every IP the loop decides to mark is in the excess list and has no peer
answer yet. -/
theorem handshakeFold_mark_mem (env : Env) (excess : List String)
    (l : List (String × Time)) (st : ReleaseLoopState) (ip : String)
    (h : ip ∈ (l.foldl (handshakeStep env excess) st).ipsToMark) :
    ip ∈ st.ipsToMark ∨
      (ip ∈ excess ∧ mapGet st.n.resource.Status.IPAM.ReleaseIPs ip = none) := by
  have key := foldl_preserves (fun (s : ReleaseLoopState) => s.n.resource = st.n.resource ∧
      (ip ∈ s.ipsToMark → ip ∈ st.ipsToMark ∨
      (ip ∈ excess ∧ mapGet st.n.resource.Status.IPAM.ReleaseIPs ip = none)))
    (handshakeStep env excess) l st ⟨rfl, Or.inl⟩ (by
      intro b e _ hb
      refine ⟨by rw [handshakeStep_resource]; exact hb.1, ?_⟩
      intro hmem
      rcases handshakeStep_mark_mem env excess b e ip hmem with h1 | ⟨_, h2, h3⟩
      · exact hb.2 h1
      · refine Or.inr ⟨h2, ?_⟩
        rw [← hb.1]
        exact h3)
  exact key.2 h

/-- The loop leaves alone the entries of an IP of the excess list whose peer
status is `ready-for-release`. -/
theorem handshakeFold_frame (env : Env) (excess : List String) (l : List (String × Time))
    (st : ReleaseLoopState) (ip : String) (hex : ip ∈ excess)
    (hready : mapGet st.n.resource.Status.IPAM.ReleaseIPs ip = some IPAMReadyForRelease) :
    mapGet (l.foldl (handshakeStep env excess) st).n.ipsMarkedForRelease ip
      = mapGet st.n.ipsMarkedForRelease ip ∧
    mapGet (l.foldl (handshakeStep env excess) st).n.ipReleaseStatus ip
      = mapGet st.n.ipReleaseStatus ip := by
  have key := foldl_preserves (fun (s : ReleaseLoopState) => s.n.resource = st.n.resource ∧
      mapGet s.n.ipsMarkedForRelease ip = mapGet st.n.ipsMarkedForRelease ip ∧
      mapGet s.n.ipReleaseStatus ip = mapGet st.n.ipReleaseStatus ip)
    (handshakeStep env excess) l st ⟨rfl, rfl, rfl⟩ (by
      intro b e _ hb
      have hr : mapGet b.n.resource.Status.IPAM.ReleaseIPs ip = some IPAMReadyForRelease := by
        rw [hb.1]
        exact hready
      have hf := handshakeStep_frame env excess b e ip hex hr
      refine ⟨by rw [handshakeStep_resource]; exact hb.1, ?_, ?_⟩
      · rw [hf.1]
        exact hb.2.1
      · rw [hf.2]
        exact hb.2.2)
  exact key.2

theorem handshakeFold_none (env : Env) (excess : List String) (l : List (String × Time))
    (st : ReleaseLoopState) (ip : String)
    (h : mapGet st.n.ipsMarkedForRelease ip = none ∧ mapGet st.n.ipReleaseStatus ip = none) :
    mapGet (l.foldl (handshakeStep env excess) st).n.ipsMarkedForRelease ip = none ∧
    mapGet (l.foldl (handshakeStep env excess) st).n.ipReleaseStatus ip = none := by
  apply foldl_preserves (fun (s : ReleaseLoopState) => mapGet s.n.ipsMarkedForRelease ip = none ∧
    mapGet s.n.ipReleaseStatus ip = none)
  · exact h
  · intro b e _ hb
    exact ⟨(handshakeStep_none env excess b e ip).1 hb.1,
      (handshakeStep_none env excess b e ip).2 hb.2⟩

/-- An IP outside the excess list has lost both entries after the loop, if the
loop visits it or if it had none before. -/
theorem handshakeFold_abandon (env : Env) (excess : List String) (ip : String)
    (hex : ip ∉ excess) (l : List (String × Time)) (st : ReleaseLoopState)
    (h : (∃ t, (ip, t) ∈ l) ∨
      (mapGet st.n.ipsMarkedForRelease ip = none ∧ mapGet st.n.ipReleaseStatus ip = none)) :
    mapGet (l.foldl (handshakeStep env excess) st).n.ipsMarkedForRelease ip = none ∧
    mapGet (l.foldl (handshakeStep env excess) st).n.ipReleaseStatus ip = none := by
  induction l generalizing st with
  | nil =>
    rcases h with ⟨t, ht⟩ | h
    · simp at ht
    · exact h
  | cons e l ih =>
    simp only [List.foldl_cons]
    by_cases hk : e.1 = ip
    · apply ih
      right
      have hex' : e.1 ∉ excess := by
        rw [hk]
        exact hex
      have := handshakeStep_abandon env excess st e hex'
      rw [hk] at this
      exact this
    · apply ih
      rcases h with ⟨t, ht⟩ | h
      · left
        rcases List.mem_cons.mp ht with h1 | h1
        · exact absurd (congrArg Prod.fst h1).symm hk
        · exact ⟨t, h1⟩
      · right
        exact ⟨(handshakeStep_none env excess st e ip).1 h.1,
          (handshakeStep_none env excess st e ip).2 h.2⟩

theorem markForRelease_frame (n : NetResource) (l : List String) :
    (markForRelease n l).resource = n.resource ∧
    (markForRelease n l).ipsMarkedForRelease = n.ipsMarkedForRelease ∧
    ∀ ip, ip ∉ l →
      mapGet (markForRelease n l).ipReleaseStatus ip = mapGet n.ipReleaseStatus ip := by
  unfold markForRelease
  refine ⟨?_, ?_, ?_⟩
  · apply foldl_preserves (fun (m : NetResource) => m.resource = n.resource)
    · rfl
    · intro b x _ hb
      exact hb
  · apply foldl_preserves (fun (m : NetResource) => m.ipsMarkedForRelease = n.ipsMarkedForRelease)
    · rfl
    · intro b x _ hb
      exact hb
  · intro ip hip
    apply foldl_preserves (fun (m : NetResource) => mapGet m.ipReleaseStatus ip = mapGet n.ipReleaseStatus ip)
    · rfl
    · intro b x hx hb
      have hne : ip ≠ x := fun heq => hip (heq ▸ hx)
      simp only
      rw [mapGet_mapSet_ne _ _ _ _ hne]
      exact hb

theorem excessFold_get (l : List String) (m : GoMap Bool) (ip : String) :
    mapGet (l.foldl (fun m ip => mapSet m ip true) m) ip
      = if ip ∈ l then some true else mapGet m ip := by
  induction l generalizing m with
  | nil => simp
  | cons x l ih =>
    simp only [List.foldl_cons]
    rw [ih]
    by_cases hl : ip ∈ l
    · simp [hl]
    · by_cases hx : ip = x
      · subst hx
        simp [hl, mapGet_mapSet_self]
      · have : ip ∉ x :: l := by
          simp [hx, hl]
        simp only [hl, this, if_false]
        exact mapGet_mapSet_ne _ _ _ _ hx

/-- The map `excessMap` holds `true` exactly for the IPs of the excess list. -/
theorem excessMapOf_get (a : maintenanceAction) (ip : String) :
    (mapGet (excessMapOf a) ip).getD false = true ↔
      ∃ release, a.release = some release ∧ ip ∈ release.IPsToRelease := by
  unfold excessMapOf
  split
  · rename_i release hrel
    split
    · rw [excessFold_get]
      by_cases hm : ip ∈ release.IPsToRelease
      · simp [hm, hrel]
      · simp [hm, mapGet_nil, hrel]
    · rename_i hlen
      have hnil : release.IPsToRelease = [] := by
        cases hl : release.IPsToRelease with
        | nil => rfl
        | cons x xs => simp [hl] at hlen
      simp [mapGet_nil, hnil, hrel]
  · rename_i hrel
    simp [mapGet_nil, hrel]

/-! ## Lemmas: `abortNoLongerExcessIPs` and the bookkeeping after a release -/

theorem abortStep_resource (em : GoMap Bool) (n : NetResource) (e : String × String) :
    (abortStep em n e).resource = n.resource := by
  unfold abortStep
  split
  · rfl
  · split
    · rfl
    · split
      · split <;> rfl
      · rfl

/-- The abort loop only deletes entries. -/
theorem abortStep_none (em : GoMap Bool) (n : NetResource) (e : String × String)
    (ip : String) :
    (mapGet n.ipsMarkedForRelease ip = none →
      mapGet (abortStep em n e).ipsMarkedForRelease ip = none) ∧
    (mapGet n.ipReleaseStatus ip = none →
      mapGet (abortStep em n e).ipReleaseStatus ip = none) ∧
    (mapGet n.ipReleaseStatus ip ≠ some IPAMReleased →
      mapGet (abortStep em n e).ipReleaseStatus ip ≠ some IPAMReleased) ∧
    (n.ipsMarkedForRelease = [] → (abortStep em n e).ipsMarkedForRelease = []) := by
  unfold abortStep
  split
  · exact ⟨id, id, id, id⟩
  · split
    · exact ⟨id, id, id, id⟩
    · split
      · split
        · refine ⟨mapGet_mapDelete_none _ _ _, mapGet_mapDelete_none _ _ _, ?_, ?_⟩
          · intro h
            by_cases hk : ip = e.1
            · rw [hk, mapGet_mapDelete_self]
              simp
            · rw [mapGet_mapDelete_ne _ _ _ hk]
              exact h
          · intro h
            simp only [h]
            rfl
        · exact ⟨id, id, id, id⟩
      · exact ⟨id, id, id, id⟩

/-- The abort loop leaves the entries of an IP of `excessMap` alone. -/
theorem abortStep_frame (em : GoMap Bool) (n : NetResource) (e : String × String)
    (ip : String) (hex : (mapGet em ip).getD false = true) :
    mapGet (abortStep em n e).ipsMarkedForRelease ip = mapGet n.ipsMarkedForRelease ip ∧
    mapGet (abortStep em n e).ipReleaseStatus ip = mapGet n.ipReleaseStatus ip := by
  unfold abortStep
  split
  · exact ⟨rfl, rfl⟩
  · rename_i hnot
    split
    · exact ⟨rfl, rfl⟩
    · split
      · split
        · have hne : ip ≠ e.1 := by
            intro heq
            rw [heq] at hex
            exact hnot hex
          exact ⟨mapGet_mapDelete_ne _ _ _ hne, mapGet_mapDelete_ne _ _ _ hne⟩
        · exact ⟨rfl, rfl⟩
      · exact ⟨rfl, rfl⟩

/-- The abort loop deletes the local status of an IP whose peer entry is not
`released`, when the IP is not in `excessMap` and its local status is not
`released`. -/
theorem abortStep_abort (em : GoMap Bool) (n : NetResource) (ip s : String)
    (hex : (mapGet em ip).getD false = false) (hs : s ≠ IPAMReleased)
    (hlocal : mapGet n.ipReleaseStatus ip ≠ some IPAMReleased) :
    mapGet (abortStep em n (ip, s)).ipReleaseStatus ip = none := by
  unfold abortStep
  simp only [hex]
  have hs' : (s == IPAMReleased) = false := by simpa using hs
  simp only [hs']
  cases hm : mapGet n.ipReleaseStatus ip with
  | none => simpa using hm
  | some status =>
    have hne : status ≠ IPAMReleased := by
      intro heq
      apply hlocal
      rw [hm, heq]
    have hne' : (status != IPAMReleased) = true := by simpa using hne
    simp only [hne']
    exact mapGet_mapDelete_self _ _

theorem abortNoLongerExcessIPs_resource (n : NetResource) (em : GoMap Bool) :
    (abortNoLongerExcessIPs n em).resource = n.resource := by
  unfold abortNoLongerExcessIPs
  split
  · rfl
  · apply foldl_preserves (fun (m : NetResource) => m.resource = n.resource)
    · rfl
    · intro b e _ hb
      rw [abortStep_resource]
      exact hb

theorem abortNoLongerExcessIPs_none (n : NetResource) (em : GoMap Bool) (ip : String) :
    (mapGet n.ipsMarkedForRelease ip = none →
      mapGet (abortNoLongerExcessIPs n em).ipsMarkedForRelease ip = none) ∧
    (mapGet n.ipReleaseStatus ip = none →
      mapGet (abortNoLongerExcessIPs n em).ipReleaseStatus ip = none) ∧
    (n.ipsMarkedForRelease = [] → (abortNoLongerExcessIPs n em).ipsMarkedForRelease = []) := by
  unfold abortNoLongerExcessIPs
  split
  · exact ⟨id, id, id⟩
  · refine ⟨?_, ?_, ?_⟩
    · intro h
      apply foldl_preserves (fun (m : NetResource) => mapGet m.ipsMarkedForRelease ip = none)
      · exact h
      · intro b e _ hb
        exact (abortStep_none em b e ip).1 hb
    · intro h
      apply foldl_preserves (fun (m : NetResource) => mapGet m.ipReleaseStatus ip = none)
      · exact h
      · intro b e _ hb
        exact (abortStep_none em b e ip).2.1 hb
    · intro h
      apply foldl_preserves (fun (m : NetResource) => m.ipsMarkedForRelease = [])
      · exact h
      · intro b e _ hb
        exact (abortStep_none em b e ip).2.2.2 hb

theorem abortNoLongerExcessIPs_frame (n : NetResource) (em : GoMap Bool) (ip : String)
    (hex : (mapGet em ip).getD false = true) :
    mapGet (abortNoLongerExcessIPs n em).ipsMarkedForRelease ip
      = mapGet n.ipsMarkedForRelease ip ∧
    mapGet (abortNoLongerExcessIPs n em).ipReleaseStatus ip = mapGet n.ipReleaseStatus ip := by
  unfold abortNoLongerExcessIPs
  split
  · exact ⟨rfl, rfl⟩
  · apply foldl_preserves (fun (m : NetResource) =>
      mapGet m.ipsMarkedForRelease ip = mapGet n.ipsMarkedForRelease ip ∧
      mapGet m.ipReleaseStatus ip = mapGet n.ipReleaseStatus ip)
    · exact ⟨rfl, rfl⟩
    · intro b e _ hb
      have hf := abortStep_frame em b e ip hex
      exact ⟨hf.1.trans hb.1, hf.2.trans hb.2⟩

theorem abortFold_abort (em : GoMap Bool) (ip s : String)
    (hex : (mapGet em ip).getD false = false) (hs : s ≠ IPAMReleased)
    (l : List (String × String)) (n : NetResource)
    (h : ((ip, s) ∈ l ∧ mapGet n.ipReleaseStatus ip ≠ some IPAMReleased) ∨
      mapGet n.ipReleaseStatus ip = none) :
    mapGet (l.foldl (abortStep em) n).ipReleaseStatus ip = none := by
  induction l generalizing n with
  | nil =>
    rcases h with ⟨hm, _⟩ | h
    · simp at hm
    · exact h
  | cons e l ih =>
    simp only [List.foldl_cons]
    apply ih
    rcases h with ⟨hm, hl⟩ | h
    · rcases List.mem_cons.mp hm with h1 | h1
      · right
        rw [← h1]
        exact abortStep_abort em n ip s hex hs hl
      · left
        exact ⟨h1, (abortStep_none em n e ip).2.2.1 hl⟩
    · right
      exact (abortStep_none em n e ip).2.1 h

/-- The call `abortNoLongerExcessIPs` removes the local status of every IP that
is not in `excessMap`, whose peer entry is not `released` and whose local status
is not `released`. -/
theorem abortNoLongerExcessIPs_abort (n : NetResource) (em : GoMap Bool) (ip s : String)
    (hex : (mapGet em ip).getD false = false) (hs : s ≠ IPAMReleased)
    (hmem : (ip, s) ∈ n.resource.Status.IPAM.ReleaseIPs)
    (hlocal : mapGet n.ipReleaseStatus ip ≠ some IPAMReleased) :
    mapGet (abortNoLongerExcessIPs n em).ipReleaseStatus ip = none := by
  unfold abortNoLongerExcessIPs
  split
  · rename_i hlen
    have : n.resource.Status.IPAM.ReleaseIPs = [] := List.length_eq_zero.mp hlen
    rw [this] at hmem
    simp at hmem
  · exact abortFold_abort em ip s hex hs _ n (Or.inl ⟨hmem, hlocal⟩)

theorem recordReleased_frame (n : NetResource) (l : List String) (ip : String) :
    (recordReleased n l).resource = n.resource ∧
    (mapGet n.ipsMarkedForRelease ip = none →
      mapGet (recordReleased n l).ipsMarkedForRelease ip = none) ∧
    (ip ∉ l → mapGet (recordReleased n l).ipReleaseStatus ip = mapGet n.ipReleaseStatus ip) := by
  unfold recordReleased
  refine ⟨?_, ?_, ?_⟩
  · apply foldl_preserves (fun (m : NetResource) => m.resource = n.resource)
    · rfl
    · intro b x _ hb
      exact hb
  · intro h
    apply foldl_preserves (fun (m : NetResource) => mapGet m.ipsMarkedForRelease ip = none)
    · exact h
    · intro b x _ hb
      exact mapGet_mapDelete_none _ _ _ hb
  · intro hip
    apply foldl_preserves (fun (m : NetResource) =>
      mapGet m.ipReleaseStatus ip = mapGet n.ipReleaseStatus ip)
    · rfl
    · intro b x hx hb
      have hne : ip ≠ x := fun heq => hip (heq ▸ hx)
      simp only
      rw [mapGet_mapSet_ne _ _ _ _ hne]
      exact hb

/-- After the bookkeeping of a successful release every released IP is
untracked and its local status is `released`. -/
theorem recordReleased_released (l : List String) (n : NetResource) (ip : String)
    (h : ip ∈ l ∨ (mapGet n.ipsMarkedForRelease ip = none ∧
      mapGet n.ipReleaseStatus ip = some IPAMReleased)) :
    mapGet (recordReleased n l).ipsMarkedForRelease ip = none ∧
    mapGet (recordReleased n l).ipReleaseStatus ip = some IPAMReleased := by
  unfold recordReleased
  induction l generalizing n with
  | nil =>
    rcases h with h | h
    · simp at h
    · exact h
  | cons x l ih =>
    simp only [List.foldl_cons]
    apply ih
    by_cases hx : ip = x
    · right
      subst hx
      exact ⟨mapGet_mapDelete_self _ _, mapGet_mapSet_self _ _ _⟩
    · rcases h with h | h
      · left
        rcases List.mem_cons.mp h with h1 | h1
        · exact absurd h1 hx
        · exact h1
      · right
        refine ⟨mapGet_mapDelete_none _ _ _ h.1, ?_⟩
        simp only
        rw [mapGet_mapSet_ne _ _ _ _ hx]
        exact h.2

/-! ## Theorems: `handleIPRelease` -/

theorem resetIfNothingToRelease_of_nonempty (n : NetResource) (a : maintenanceAction)
    (release : ReleaseAction) (hrel : a.release = some release)
    (hne : release.IPsToRelease ≠ []) : resetIfNothingToRelease n a = n := by
  unfold resetIfNothingToRelease
  rw [hrel]
  simp only
  have : ¬ release.IPsToRelease.length = 0 := fun h => hne (List.length_eq_zero.mp h)
  rw [if_neg this]

theorem resetIfNothingToRelease_frame (n : NetResource) (a : maintenanceAction) :
    (resetIfNothingToRelease n a).resource = n.resource ∧
    (resetIfNothingToRelease n a).ipReleaseStatus = n.ipReleaseStatus := by
  unfold resetIfNothingToRelease
  split
  · exact ⟨rfl, rfl⟩
  · split <;> exact ⟨rfl, rfl⟩

theorem resetIfNothingToRelease_of_empty (n : NetResource) (a : maintenanceAction)
    (h : ∀ release, a.release = some release → release.IPsToRelease = []) :
    (resetIfNothingToRelease n a).ipsMarkedForRelease = [] := by
  unfold resetIfNothingToRelease
  split
  · rfl
  · rename_i release hrel
    have : release.IPsToRelease.length = 0 := by
      rw [h release hrel]
      rfl
    rw [if_pos this]

/-- The state in which the real release is decided, when the release action
lists at least one IP. -/
theorem handleIPReleasePrepare_of_nonempty (env : Env) (n : NetResource)
    (a : maintenanceAction) (release : ReleaseAction) (hrel : a.release = some release)
    (hne : release.IPsToRelease ≠ []) :
    handleIPReleasePrepare env n a =
      { (List.foldl (handshakeStep env release.IPsToRelease)
          { n := markNewExcessIPs env.releaseTS n a, ipsToMark := [], ipsToRelease := [] }
          (markNewExcessIPs env.releaseTS n a).ipsMarkedForRelease) with
        n := abortNoLongerExcessIPs
          (markForRelease
            (List.foldl (handshakeStep env release.IPsToRelease)
              { n := markNewExcessIPs env.releaseTS n a, ipsToMark := [], ipsToRelease := [] }
              (markNewExcessIPs env.releaseTS n a).ipsMarkedForRelease).n
            (List.foldl (handshakeStep env release.IPsToRelease)
              { n := markNewExcessIPs env.releaseTS n a, ipsToMark := [], ipsToRelease := [] }
              (markNewExcessIPs env.releaseTS n a).ipsMarkedForRelease).ipsToMark)
          (excessMapOf a) } := by
  unfold handleIPReleasePrepare
  simp only [resetIfNothingToRelease_of_nonempty _ a release hrel hne]
  unfold handshakeLoop
  rw [hrel]

/-- The state in which the real release is decided, when there is no release
action or its list is empty: tracking is reset and nothing is collected. -/
theorem handleIPReleasePrepare_of_empty (env : Env) (n : NetResource)
    (a : maintenanceAction)
    (h : ∀ release, a.release = some release → release.IPsToRelease = []) :
    handleIPReleasePrepare env n a =
      { n := abortNoLongerExcessIPs
          (resetIfNothingToRelease (markNewExcessIPs env.releaseTS n a) a) (excessMapOf a),
        ipsToMark := [], ipsToRelease := [] } := by
  unfold handleIPReleasePrepare
  have hl : handshakeLoop env (resetIfNothingToRelease (markNewExcessIPs env.releaseTS n a) a) a
      = { n := resetIfNothingToRelease (markNewExcessIPs env.releaseTS n a) a,
          ipsToMark := [], ipsToRelease := [] } := by
    unfold handshakeLoop
    split
    · rfl
    · rw [resetIfNothingToRelease_of_empty _ a h]
      rfl
  simp only [hl]
  rfl

theorem handleIPReleasePrepare_nonempty_action (env : Env) (n : NetResource)
    (a : maintenanceAction) (hne : (handleIPReleasePrepare env n a).ipsToRelease ≠ []) :
    ∃ release, a.release = some release ∧ release.IPsToRelease ≠ [] := by
  by_contra hcon
  apply hne
  rw [handleIPReleasePrepare_of_empty env n a]
  intro release hrel
  by_contra hne'
  exact hcon ⟨release, hrel, hne'⟩

/-- Facts about every IP collected for the real release. -/
theorem handleIPReleasePrepare_release_mem (env : Env) (n : NetResource)
    (a : maintenanceAction) (ip : String)
    (hip : ip ∈ (handleIPReleasePrepare env n a).ipsToRelease) :
    (∃ release, a.release = some release ∧ ip ∈ release.IPsToRelease) ∧
    (∃ t, (ip, t) ∈ (markNewExcessIPs env.releaseTS n a).ipsMarkedForRelease ∧
      ((ip, t) ∈ n.ipsMarkedForRelease ∨ t = env.releaseTS) ∧
      t + env.ExcessIPReleaseDelay * Second ≤ env.now ip) ∧
    mapGet n.resource.Status.IPAM.ReleaseIPs ip = some IPAMReadyForRelease ∧
    mapGet (handleIPReleasePrepare env n a).n.ipsMarkedForRelease ip
      = mapGet (markNewExcessIPs env.releaseTS n a).ipsMarkedForRelease ip ∧
    mapGet (handleIPReleasePrepare env n a).n.ipReleaseStatus ip = mapGet n.ipReleaseStatus ip := by
  have hne : (handleIPReleasePrepare env n a).ipsToRelease ≠ [] := by
    intro h
    rw [h] at hip
    simp at hip
  obtain ⟨release, hrel, hnonempty⟩ := handleIPReleasePrepare_nonempty_action env n a hne
  rw [handleIPReleasePrepare_of_nonempty env n a release hrel hnonempty] at hip ⊢
  simp only at hip ⊢
  have hres := (markNewExcessIPs_resource env.releaseTS n a).1
  have hstat := (markNewExcessIPs_resource env.releaseTS n a).2
  rcases handshakeFold_release_mem env release.IPsToRelease _ _ ip hip with h | ⟨hex, ⟨t, ht, hcool⟩, hready⟩
  · simp at h
  · simp only [hres] at hready
    have hready' : mapGet (markNewExcessIPs env.releaseTS n a).resource.Status.IPAM.ReleaseIPs ip
        = some IPAMReadyForRelease := by
      rw [hres]
      exact hready
    have hframe := handshakeFold_frame env release.IPsToRelease
      (markNewExcessIPs env.releaseTS n a).ipsMarkedForRelease
      { n := markNewExcessIPs env.releaseTS n a, ipsToMark := [], ipsToRelease := [] }
      ip hex hready'
    have hnotmark : ip ∉ (List.foldl (handshakeStep env release.IPsToRelease)
        { n := markNewExcessIPs env.releaseTS n a, ipsToMark := [], ipsToRelease := [] }
        (markNewExcessIPs env.releaseTS n a).ipsMarkedForRelease).ipsToMark := by
      intro hm
      rcases handshakeFold_mark_mem env release.IPsToRelease _ _ ip hm with h | ⟨_, hnone⟩
      · simp at h
      · simp only [hres] at hnone
        rw [hnone] at hready
        simp at hready
    have hmark := markForRelease_frame
      (List.foldl (handshakeStep env release.IPsToRelease)
        { n := markNewExcessIPs env.releaseTS n a, ipsToMark := [], ipsToRelease := [] }
        (markNewExcessIPs env.releaseTS n a).ipsMarkedForRelease).n
      (List.foldl (handshakeStep env release.IPsToRelease)
        { n := markNewExcessIPs env.releaseTS n a, ipsToMark := [], ipsToRelease := [] }
        (markNewExcessIPs env.releaseTS n a).ipsMarkedForRelease).ipsToMark
    have hexmap : (mapGet (excessMapOf a) ip).getD false = true :=
      (excessMapOf_get a ip).mpr ⟨release, hrel, hex⟩
    have habort := abortNoLongerExcessIPs_frame
      (markForRelease
        (List.foldl (handshakeStep env release.IPsToRelease)
          { n := markNewExcessIPs env.releaseTS n a, ipsToMark := [], ipsToRelease := [] }
          (markNewExcessIPs env.releaseTS n a).ipsMarkedForRelease).n
        (List.foldl (handshakeStep env release.IPsToRelease)
          { n := markNewExcessIPs env.releaseTS n a, ipsToMark := [], ipsToRelease := [] }
          (markNewExcessIPs env.releaseTS n a).ipsMarkedForRelease).ipsToMark)
      (excessMapOf a) ip hexmap
    refine ⟨⟨release, hrel, hex⟩, ⟨t, ht, markNewExcessIPs_entries _ _ _ _ _ ht, ?_⟩, hready,
      ?_, ?_⟩
    · exact not_lt.mp hcool
    · rw [habort.1, hmark.2.1]
      exact hframe.1
    · rw [habort.2, hmark.2.2 ip hnotmark, hframe.2]
      simp only [hstat]

/-- The calls and the returned values of `handleIPRelease`, by cases on the
list collected for release and on the answer of `ops.ReleaseIPs`. -/
theorem handleIPRelease_cases (env : Env) (ops : NetResourceOperations) (n : NetResource)
    (a : maintenanceAction) :
    ((handleIPReleasePrepare env n a).ipsToRelease = [] ∧
      handleIPRelease env ops n a =
        { n := (handleIPReleasePrepare env n a).n, calls := [], instanceMutated := false,
          err := none }) ∨
    (∃ release, a.release = some release ∧
      (handleIPReleasePrepare env n a).ipsToRelease ≠ [] ∧
      ((ops.ReleaseIPs
          { release with IPsToRelease := (handleIPReleasePrepare env n a).ipsToRelease } = none ∧
        handleIPRelease env ops n a =
          { n := recordReleased (handleIPReleasePrepare env n a).n
              (handleIPReleasePrepare env n a).ipsToRelease,
            calls := [OpsCall.ReleaseIPs
              { release with IPsToRelease := (handleIPReleasePrepare env n a).ipsToRelease }],
            instanceMutated := true, err := none }) ∨
       (∃ err, ops.ReleaseIPs
          { release with IPsToRelease := (handleIPReleasePrepare env n a).ipsToRelease }
            = some err ∧
        handleIPRelease env ops n a =
          { n := (handleIPReleasePrepare env n a).n,
            calls := [OpsCall.ReleaseIPs
              { release with IPsToRelease := (handleIPReleasePrepare env n a).ipsToRelease }],
            instanceMutated := false, err := some err }))) := by
  by_cases hnil : (handleIPReleasePrepare env n a).ipsToRelease = []
  · left
    refine ⟨hnil, ?_⟩
    unfold handleIPRelease
    simp [hnil]
  · right
    obtain ⟨release, hrel, _⟩ := handleIPReleasePrepare_nonempty_action env n a hnil
    refine ⟨release, hrel, hnil, ?_⟩
    have hlen : (handleIPReleasePrepare env n a).ipsToRelease.length > 0 :=
      List.length_pos.mpr hnil
    cases hops : ops.ReleaseIPs
        { release with IPsToRelease := (handleIPReleasePrepare env n a).ipsToRelease } with
    | none =>
      left
      refine ⟨rfl, ?_⟩
      unfold handleIPRelease
      simp only [hlen, if_true, hrel, hops]
    | some err =>
      right
      refine ⟨err, rfl, ?_⟩
      unfold handleIPRelease
      simp only [hlen, if_true, hrel, hops]

/-- C3: release-handshake safety.  Every IP of a list that `handleIPRelease`
passes to `ops.ReleaseIPs` (a) is in the excess list `a.release.IPsToRelease` of
the pass, (b) is tracked in `ipsMarkedForRelease`, at the loop and still at the
call, with a timestamp (an older one or the one of this pass) whose cool-down of
`ExcessIPReleaseDelay` seconds has elapsed, and (c) has peer status
`ready-for-release` in `resource.Status.IPAM.ReleaseIPs`; hence its peer status
is neither `do-not-release` nor missing. -/
theorem handleIPRelease_release_safety (env : Env) (ops : NetResourceOperations)
    (n : NetResource) (a : maintenanceAction) (r : ReleaseAction) (ip : String)
    (hcall : OpsCall.ReleaseIPs r ∈ (handleIPRelease env ops n a).calls)
    (hip : ip ∈ r.IPsToRelease) :
    (∃ release, a.release = some release ∧ ip ∈ release.IPsToRelease) ∧
    (∃ t, (ip, t) ∈ (markNewExcessIPs env.releaseTS n a).ipsMarkedForRelease ∧
      ((ip, t) ∈ n.ipsMarkedForRelease ∨ t = env.releaseTS) ∧
      t + env.ExcessIPReleaseDelay * Second ≤ env.now ip) ∧
    mapGet (handleIPReleasePrepare env n a).n.ipsMarkedForRelease ip ≠ none ∧
    mapGet n.resource.Status.IPAM.ReleaseIPs ip = some IPAMReadyForRelease ∧
    mapGet n.resource.Status.IPAM.ReleaseIPs ip ≠ some IPAMDoNotRelease ∧
    mapGet n.resource.Status.IPAM.ReleaseIPs ip ≠ none := by
  have hmem : ip ∈ (handleIPReleasePrepare env n a).ipsToRelease := by
    rcases handleIPRelease_cases env ops n a with ⟨_, heq⟩ | ⟨release, _, _, h⟩
    · rw [heq] at hcall
      simp at hcall
    · rcases h with ⟨_, heq⟩ | ⟨err, _, heq⟩
      · rw [heq] at hcall
        simp only [List.mem_singleton, OpsCall.ReleaseIPs.injEq] at hcall
        rw [hcall] at hip
        exact hip
      · rw [heq] at hcall
        simp only [List.mem_singleton, OpsCall.ReleaseIPs.injEq] at hcall
        rw [hcall] at hip
        exact hip
  obtain ⟨h1, ⟨t, ht, hor, hcool⟩, hready, hget, _⟩ :=
    handleIPReleasePrepare_release_mem env n a ip hmem
  refine ⟨h1, ⟨t, ht, hor, hcool⟩, ?_, hready, ?_, ?_⟩
  · rw [hget]
    exact mapGet_of_mem _ _ _ ht
  · rw [hready]
    decide
  · rw [hready]
    simp

/-- Witness for C3: on the node in mid-handshake the pass releases exactly the
IP the agent has acknowledged. -/
theorem handleIPRelease_release_safety_witness :
    mapGet excessNode.resource.Status.IPAM.ReleaseIPs "10.0.0.1" = some IPAMReadyForRelease ∧
    (handleIPRelease exampleEnv exampleOps excessNode releaseOnlyAction).calls =
      [OpsCall.ReleaseIPs
        { InterfaceID := "eni-1", PoolID := "sbn-1", IPsToRelease := ["10.0.0.1"] }] :=
  ⟨(handleIPRelease_release_safety exampleEnv exampleOps excessNode releaseOnlyAction
      { InterfaceID := "eni-1", PoolID := "sbn-1", IPsToRelease := ["10.0.0.1"] } "10.0.0.1"
      (by decide) (by decide)).2.2.2.1, by decide⟩

/-- C8: outcome of the real release.  When `handleIPRelease` has IPs to release
it calls `ops.ReleaseIPs` once with them.  If the call succeeds, `(true, nil)`
is returned and every released IP is removed from `ipsMarkedForRelease` and has
local status `released`.  If it fails with `err`, `(false, err)` is returned,
the node state is the one in which the call was made, and for every IP that was
to be released the local status is the one `handleIPRelease` started with and
the tracking entry is still there (the one it started with if the IP was
tracked, else the one recorded in this pass). -/
theorem handleIPRelease_release_outcome (env : Env) (ops : NetResourceOperations)
    (n : NetResource) (a : maintenanceAction)
    (hne : (handleIPReleasePrepare env n a).ipsToRelease ≠ []) :
    ∃ release, a.release = some release ∧
      (handleIPRelease env ops n a).calls =
        [OpsCall.ReleaseIPs
          { release with IPsToRelease := (handleIPReleasePrepare env n a).ipsToRelease }] ∧
      (ops.ReleaseIPs
          { release with IPsToRelease := (handleIPReleasePrepare env n a).ipsToRelease } = none →
        (handleIPRelease env ops n a).instanceMutated = true ∧
        (handleIPRelease env ops n a).err = none ∧
        ∀ ip ∈ (handleIPReleasePrepare env n a).ipsToRelease,
          mapGet (handleIPRelease env ops n a).n.ipsMarkedForRelease ip = none ∧
          mapGet (handleIPRelease env ops n a).n.ipReleaseStatus ip = some IPAMReleased) ∧
      (∀ err, ops.ReleaseIPs
          { release with IPsToRelease := (handleIPReleasePrepare env n a).ipsToRelease }
            = some err →
        (handleIPRelease env ops n a).instanceMutated = false ∧
        (handleIPRelease env ops n a).err = some err ∧
        (handleIPRelease env ops n a).n = (handleIPReleasePrepare env n a).n ∧
        ∀ ip ∈ (handleIPReleasePrepare env n a).ipsToRelease,
          mapGet (handleIPRelease env ops n a).n.ipReleaseStatus ip
            = mapGet n.ipReleaseStatus ip ∧
          mapGet (handleIPRelease env ops n a).n.ipsMarkedForRelease ip ≠ none ∧
          mapGet (handleIPRelease env ops n a).n.ipsMarkedForRelease ip
            = mapGet (markNewExcessIPs env.releaseTS n a).ipsMarkedForRelease ip ∧
          (mapGet n.ipsMarkedForRelease ip ≠ none →
            mapGet (handleIPRelease env ops n a).n.ipsMarkedForRelease ip
              = mapGet n.ipsMarkedForRelease ip)) := by
  rcases handleIPRelease_cases env ops n a with ⟨hnil, _⟩ | ⟨release, hrel, _, h⟩
  · exact absurd hnil hne
  · refine ⟨release, hrel, ?_, ?_, ?_⟩
    · rcases h with ⟨_, heq⟩ | ⟨err, _, heq⟩ <;> rw [heq]
    · intro hok
      rcases h with ⟨_, heq⟩ | ⟨err, herr, _⟩
      · rw [heq]
        refine ⟨rfl, rfl, ?_⟩
        intro ip hip
        exact recordReleased_released _ _ ip (Or.inl hip)
      · rw [hok] at herr
        simp at herr
    · intro err herr
      rcases h with ⟨hok, _⟩ | ⟨err', herr', heq⟩
      · rw [hok] at herr
        simp at herr
      · rw [herr] at herr'
        simp only [Option.some.injEq] at herr'
        subst herr'
        rw [heq]
        refine ⟨rfl, rfl, rfl, ?_⟩
        intro ip hip
        obtain ⟨_, ⟨t, ht, _, _⟩, _, hget, hstat⟩ :=
          handleIPReleasePrepare_release_mem env n a ip hip
        refine ⟨hstat, ?_, hget, ?_⟩
        · simp only
          rw [hget]
          exact mapGet_of_mem _ _ _ ht
        · intro htracked
          simp only
          rw [hget]
          exact markNewExcessIPs_get env.releaseTS n a ip (Or.inl htracked)

/-- Witness for C8: with a succeeding cloud call the acknowledged IP is the one
released; with a failing call the error is returned and the IP keeps its
tracking entry and its local status. -/
theorem handleIPRelease_release_outcome_witness :
    (handleIPReleasePrepare exampleEnv excessNode releaseOnlyAction).ipsToRelease ≠ [] ∧
    (∃ release, releaseOnlyAction.release = some release ∧
      (handleIPRelease exampleEnv exampleOps excessNode releaseOnlyAction).calls =
        [OpsCall.ReleaseIPs
          { release with IPsToRelease :=
              (handleIPReleasePrepare exampleEnv excessNode releaseOnlyAction).ipsToRelease }]) ∧
    (handleIPRelease exampleEnv exampleOps excessNode releaseOnlyAction).n.ipReleaseStatus
      = [("10.0.0.1", IPAMReleased), ("10.0.0.3", IPAMMarkForRelease)] ∧
    (handleIPRelease exampleEnv failingReleaseOps excessNode releaseOnlyAction).err
      = some "release failed" ∧
    (handleIPRelease exampleEnv failingReleaseOps excessNode releaseOnlyAction).n.ipsMarkedForRelease
      = [("10.0.0.1", 0), ("10.0.0.3", 100)] ∧
    (handleIPRelease exampleEnv failingReleaseOps excessNode releaseOnlyAction).n.ipReleaseStatus
      = [("10.0.0.1", IPAMMarkForRelease), ("10.0.0.3", IPAMMarkForRelease)] :=
  ⟨by decide,
    (handleIPRelease_release_outcome exampleEnv exampleOps excessNode releaseOnlyAction
      (by decide)).imp (fun _ h => ⟨h.1, h.2.1⟩),
    by decide, by decide, by decide, by decide⟩

/-- Every IP collected for the real release is in the excess list. -/
theorem handleIPReleasePrepare_release_subset (env : Env) (n : NetResource)
    (a : maintenanceAction) (ip : String)
    (hip : ip ∈ (handleIPReleasePrepare env n a).ipsToRelease) :
    ∃ release, a.release = some release ∧ ip ∈ release.IPsToRelease :=
  (handleIPReleasePrepare_release_mem env n a ip hip).1

/-- The state before the real release: an IP that was tracked and is not in a
non-empty excess list has lost its tracking entry and its local status. -/
theorem handleIPReleasePrepare_abandon (env : Env) (n : NetResource) (a : maintenanceAction)
    (ip : String) (release : ReleaseAction) (hrel : a.release = some release)
    (hnonempty : release.IPsToRelease ≠ [])
    (htracked : mapGet n.ipsMarkedForRelease ip ≠ none)
    (hnot : ip ∉ release.IPsToRelease) :
    mapGet (handleIPReleasePrepare env n a).n.ipsMarkedForRelease ip = none ∧
    mapGet (handleIPReleasePrepare env n a).n.ipReleaseStatus ip = none := by
  rw [handleIPReleasePrepare_of_nonempty env n a release hrel hnonempty]
  simp only
  have hget := markNewExcessIPs_get env.releaseTS n a ip (Or.inl htracked)
  have hvisit : ∃ t, (ip, t) ∈ (markNewExcessIPs env.releaseTS n a).ipsMarkedForRelease := by
    cases hm : mapGet (markNewExcessIPs env.releaseTS n a).ipsMarkedForRelease ip with
    | none =>
      rw [hm] at hget
      exact absurd hget.symm htracked
    | some t => exact ⟨t, mem_of_mapGet _ _ _ hm⟩
  have hfold := handshakeFold_abandon env release.IPsToRelease ip hnot
    (markNewExcessIPs env.releaseTS n a).ipsMarkedForRelease
    { n := markNewExcessIPs env.releaseTS n a, ipsToMark := [], ipsToRelease := [] }
    (Or.inl hvisit)
  have hnotmark : ip ∉ (List.foldl (handshakeStep env release.IPsToRelease)
      { n := markNewExcessIPs env.releaseTS n a, ipsToMark := [], ipsToRelease := [] }
      (markNewExcessIPs env.releaseTS n a).ipsMarkedForRelease).ipsToMark := by
    intro hm
    rcases handshakeFold_mark_mem env release.IPsToRelease _ _ ip hm with h | ⟨h, _⟩
    · simp at h
    · exact hnot h
  have hmark := markForRelease_frame
    (List.foldl (handshakeStep env release.IPsToRelease)
      { n := markNewExcessIPs env.releaseTS n a, ipsToMark := [], ipsToRelease := [] }
      (markNewExcessIPs env.releaseTS n a).ipsMarkedForRelease).n
    (List.foldl (handshakeStep env release.IPsToRelease)
      { n := markNewExcessIPs env.releaseTS n a, ipsToMark := [], ipsToRelease := [] }
      (markNewExcessIPs env.releaseTS n a).ipsMarkedForRelease).ipsToMark
  constructor
  · apply (abortNoLongerExcessIPs_none _ _ ip).1
    rw [hmark.2.1]
    exact hfold.1
  · apply (abortNoLongerExcessIPs_none _ _ ip).2.1
    rw [hmark.2.2 ip hnotmark]
    exact hfold.2

/-- The real release only touches the entries of the IPs it releases. -/
theorem handleIPRelease_after_prepare (env : Env) (ops : NetResourceOperations)
    (n : NetResource) (a : maintenanceAction) (ip : String)
    (hnot : ∀ release, a.release = some release → ip ∉ release.IPsToRelease) :
    (mapGet (handleIPReleasePrepare env n a).n.ipsMarkedForRelease ip = none →
      mapGet (handleIPRelease env ops n a).n.ipsMarkedForRelease ip = none) ∧
    mapGet (handleIPRelease env ops n a).n.ipReleaseStatus ip
      = mapGet (handleIPReleasePrepare env n a).n.ipReleaseStatus ip := by
  have hnotrel : ip ∉ (handleIPReleasePrepare env n a).ipsToRelease := by
    intro hip
    obtain ⟨release, hrel, hmem⟩ := handleIPReleasePrepare_release_subset env n a ip hip
    exact hnot release hrel hmem
  rcases handleIPRelease_cases env ops n a with ⟨_, heq⟩ | ⟨release, _, _, h⟩
  · rw [heq]
    exact ⟨id, rfl⟩
  · rcases h with ⟨_, heq⟩ | ⟨err, _, heq⟩
    · rw [heq]
      exact ⟨(recordReleased_frame _ _ ip).2.1, (recordReleased_frame _ _ ip).2.2 hnotrel⟩
    · rw [heq]
      exact ⟨id, rfl⟩

/-- C9 as amended: after `handleIPRelease` returns, every IP that was tracked in
`ipsMarkedForRelease` and is not in the excess list of the pass is absent from
`ipsMarkedForRelease`; it is absent from the local `ipReleaseStatus` map too when
the release action lists at least one IP, and also whenever
`resource.Status.IPAM.ReleaseIPs` holds an entry other than `released` for it
and its local status is not `released`. -/
theorem handleIPRelease_abandons_non_excess (env : Env) (ops : NetResourceOperations)
    (n : NetResource) (a : maintenanceAction) (ip : String)
    (htracked : mapGet n.ipsMarkedForRelease ip ≠ none)
    (hnot : ∀ release, a.release = some release → ip ∉ release.IPsToRelease) :
    mapGet (handleIPRelease env ops n a).n.ipsMarkedForRelease ip = none ∧
    ((∃ release, a.release = some release ∧ release.IPsToRelease ≠ []) →
      mapGet (handleIPRelease env ops n a).n.ipReleaseStatus ip = none) ∧
    (∀ s, (ip, s) ∈ n.resource.Status.IPAM.ReleaseIPs → s ≠ IPAMReleased →
      mapGet n.ipReleaseStatus ip ≠ some IPAMReleased →
      mapGet (handleIPRelease env ops n a).n.ipReleaseStatus ip = none) := by
  have hafter := handleIPRelease_after_prepare env ops n a ip hnot
  by_cases hcase : ∃ release, a.release = some release ∧ release.IPsToRelease ≠ []
  · obtain ⟨release, hrel, hnonempty⟩ := hcase
    have hab := handleIPReleasePrepare_abandon env n a ip release hrel hnonempty htracked
      (hnot release hrel)
    have hstat : mapGet (handleIPRelease env ops n a).n.ipReleaseStatus ip = none := by
      rw [hafter.2]
      exact hab.2
    exact ⟨hafter.1 hab.1, fun _ => hstat, fun _ _ _ _ => hstat⟩
  · have hempty : ∀ release, a.release = some release → release.IPsToRelease = [] := by
      intro release hrel
      by_contra hne
      exact hcase ⟨release, hrel, hne⟩
    have hprep := handleIPReleasePrepare_of_empty env n a hempty
    refine ⟨?_, fun h => absurd h hcase, ?_⟩
    · apply hafter.1
      rw [hprep]
      simp only
      apply (abortNoLongerExcessIPs_none _ _ ip).1
      rw [resetIfNothingToRelease_of_empty _ a hempty]
      rfl
    · intro s hmem hs hlocal
      rw [hafter.2, hprep]
      simp only
      have hexmap : (mapGet (excessMapOf a) ip).getD false = false := by
        cases hb : (mapGet (excessMapOf a) ip).getD false with
        | false => rfl
        | true =>
          obtain ⟨release, hrel, hin⟩ := (excessMapOf_get a ip).mp hb
          exact absurd hin (hnot release hrel)
      have hres : (resetIfNothingToRelease (markNewExcessIPs env.releaseTS n a) a).resource
          = n.resource := by
        rw [(resetIfNothingToRelease_frame _ a).1, (markNewExcessIPs_resource _ n a).1]
      have hstat : (resetIfNothingToRelease (markNewExcessIPs env.releaseTS n a) a).ipReleaseStatus
          = n.ipReleaseStatus := by
        rw [(resetIfNothingToRelease_frame _ a).2, (markNewExcessIPs_resource _ n a).2]
      apply abortNoLongerExcessIPs_abort _ _ ip s hexmap hs
      · rw [hres]
        exact hmem
      · rw [hstat]
        exact hlocal

/-- Witness for C9 as amended: the tracked IP that the adapter no longer
proposes is removed from both maps. -/
theorem handleIPRelease_abandons_non_excess_witness :
    mapGet excessNode.ipsMarkedForRelease "10.0.0.9" ≠ none ∧
    mapGet (handleIPRelease exampleEnv exampleOps excessNode releaseOnlyAction).n.ipsMarkedForRelease
        "10.0.0.9" = none ∧
    mapGet (handleIPRelease exampleEnv exampleOps excessNode releaseOnlyAction).n.ipReleaseStatus
        "10.0.0.9" = none :=
  ⟨by decide,
    (handleIPRelease_abandons_non_excess exampleEnv exampleOps excessNode releaseOnlyAction
      "10.0.0.9" (by decide) (by decide)).1,
    (handleIPRelease_abandons_non_excess exampleEnv exampleOps excessNode releaseOnlyAction
      "10.0.0.9" (by decide) (by decide)).2.1 ⟨_, rfl, by decide⟩⟩

/-- Counterexample to C9 as stated: with an allocation-only action the excess
list is empty; the IP `10.0.0.9` was tracked and is not in that list, yet after
`handleIPRelease` it is still in the local `ipReleaseStatus` map (only its
tracking entry is gone). -/
theorem handleIPRelease_abandon_counterexample :
    mapGet deficitNode.ipsMarkedForRelease "10.0.0.9" ≠ none ∧
    allocationOnlyAction.release = none ∧
    mapGet (handleIPRelease exampleEnv exampleOps deficitNode
        allocationOnlyAction).n.ipsMarkedForRelease "10.0.0.9" = none ∧
    mapGet (handleIPRelease exampleEnv exampleOps deficitNode
        allocationOnlyAction).n.ipReleaseStatus "10.0.0.9" = some IPAMMarkForRelease := by
  decide

/-! ## Theorems: `maintainIPPool` -/

theorem determineMaintenanceAction_calls (env : Env) (ops : NetResourceOperations)
    (n : NetResource) (c : OpsCall) (hc : c ∈ (determineMaintenanceAction env ops n).2.1) :
    (∃ k, c = OpsCall.PrepareIPRelease k) ∨ c = OpsCall.PrepareIPAllocation := by
  unfold determineMaintenanceAction at hc
  simp only at hc
  split at hc
  · simp only [List.mem_singleton] at hc
    exact Or.inl ⟨_, hc⟩
  · split at hc
    · simp at hc
    · split at hc
      · simp only [List.mem_singleton] at hc
        exact Or.inr hc
      · simp only [List.mem_singleton] at hc
        exact Or.inr hc

theorem determineMaintenanceAction_marks (env : Env) (ops : NetResourceOperations)
    (n : NetResource) :
    (determineMaintenanceAction env ops n).1.ipsMarkedForRelease = n.ipsMarkedForRelease := by
  unfold determineMaintenanceAction
  simp only
  split
  · rfl
  · split
    · rfl
    · split <;> rfl

theorem createInterface_calls (env : Env) (ops : NetResourceOperations) (n : NetResource)
    (al : AllocationAction) :
    (∀ c ∈ (createInterface env ops n al).calls, c = OpsCall.CreateInterface al) ∧
    (createInterface env ops n al).n.ipsMarkedForRelease = n.ipsMarkedForRelease := by
  unfold createInterface
  split
  · refine ⟨by simp, ?_⟩
    simp only
    split
    · split <;> rfl
    · rfl
  · split
    · exact ⟨by simp, rfl⟩
    · exact ⟨by simp, rfl⟩

theorem handleIPAllocation_calls (env : Env) (ops : NetResourceOperations) (n : NetResource)
    (a : maintenanceAction) :
    (∀ c ∈ (handleIPAllocation env ops n a).calls,
      ∃ al, c = OpsCall.AllocateIPs al ∨ c = OpsCall.CreateInterface al) ∧
    (handleIPAllocation env ops n a).n.ipsMarkedForRelease = n.ipsMarkedForRelease := by
  unfold handleIPAllocation
  split
  · exact ⟨by simp, rfl⟩
  · split
    · simp only
      split
      · refine ⟨?_, rfl⟩
        intro c hc
        simp only [List.mem_singleton] at hc
        exact ⟨_, Or.inl hc⟩
      · refine ⟨?_, (createInterface_calls env ops n _).2⟩
        intro c hc
        simp only [List.mem_cons] at hc
        rcases hc with hc | hc
        · exact ⟨_, Or.inl hc⟩
        · exact ⟨_, Or.inr ((createInterface_calls env ops n _).1 c hc)⟩
    · refine ⟨?_, (createInterface_calls env ops n _).2⟩
      intro c hc
      exact ⟨_, Or.inr ((createInterface_calls env ops n _).1 c hc)⟩

/-- The calls of `handleIPRelease`: none when it reports neither a mutation nor
an error, and otherwise only `ReleaseIPs`. -/
theorem handleIPRelease_calls (env : Env) (ops : NetResourceOperations) (n : NetResource)
    (a : maintenanceAction) :
    (∀ c ∈ (handleIPRelease env ops n a).calls, ∃ r, c = OpsCall.ReleaseIPs r) ∧
    (¬ ((handleIPRelease env ops n a).instanceMutated = true ∨
        (handleIPRelease env ops n a).err ≠ none) →
      (handleIPRelease env ops n a).calls = []) := by
  rcases handleIPRelease_cases env ops n a with ⟨_, heq⟩ | ⟨release, _, _, h⟩
  · rw [heq]
    exact ⟨by simp, fun _ => rfl⟩
  · rcases h with ⟨_, heq⟩ | ⟨err, _, heq⟩
    · rw [heq]
      refine ⟨by simp, ?_⟩
      intro h
      exact absurd (Or.inl rfl) h
    · rw [heq]
      refine ⟨by simp, ?_⟩
      intro h
      exact absurd (Or.inr (by simp)) h

/-- The three ways in which `maintainIPPool` ends. -/
theorem maintainIPPool_cases (env : Env) (ops : NetResourceOperations) (n : NetResource) :
    (∃ n1 calls oa err,
      determineMaintenanceAction env ops
        (if n.releaseExcessIPs then removeStaleReleaseIPs n else n) = (n1, calls, oa, some err) ∧
      maintainIPPool env ops n =
        { n := abortNoLongerExcessIPs n1 [], calls := calls, instanceMutated := false,
          err := some err }) ∨
    (∃ n1 calls,
      determineMaintenanceAction env ops
        (if n.releaseExcessIPs then removeStaleReleaseIPs n else n) = (n1, calls, none, none) ∧
      maintainIPPool env ops n =
        { n := abortNoLongerExcessIPs n1 [], calls := calls, instanceMutated := false,
          err := none }) ∨
    (∃ n1 calls a,
      determineMaintenanceAction env ops
        (if n.releaseExcessIPs then removeStaleReleaseIPs n else n) = (n1, calls, some a, none) ∧
      (((handleIPRelease env ops n1 a).instanceMutated = true ∨
          (handleIPRelease env ops n1 a).err ≠ none) ∧
        maintainIPPool env ops n =
          { handleIPRelease env ops n1 a with
            calls := calls ++ (handleIPRelease env ops n1 a).calls } ∨
       (¬ ((handleIPRelease env ops n1 a).instanceMutated = true ∨
          (handleIPRelease env ops n1 a).err ≠ none) ∧
        maintainIPPool env ops n =
          { handleIPAllocation env ops (handleIPRelease env ops n1 a).n a with
            calls := calls ++ (handleIPRelease env ops n1 a).calls ++
              (handleIPAllocation env ops (handleIPRelease env ops n1 a).n a).calls }))) := by
  rcases hdet : determineMaintenanceAction env ops
    (if n.releaseExcessIPs then removeStaleReleaseIPs n else n) with ⟨n1, calls, oa, oerr⟩
  cases oerr with
  | some err =>
    left
    refine ⟨n1, calls, oa, err, rfl, ?_⟩
    unfold maintainIPPool
    simp only [hdet]
  | none =>
    right
    cases oa with
    | none =>
      left
      refine ⟨n1, calls, rfl, ?_⟩
      unfold maintainIPPool
      simp only [hdet]
    | some a =>
      right
      refine ⟨n1, calls, a, rfl, ?_⟩
      by_cases hr : (handleIPRelease env ops n1 a).instanceMutated = true ∨
          (handleIPRelease env ops n1 a).err ≠ none
      · left
        refine ⟨hr, ?_⟩
        unfold maintainIPPool
        simp only [hdet]
        rw [if_pos hr]
      · right
        refine ⟨hr, ?_⟩
        unfold maintainIPPool
        simp only [hdet]
        rw [if_neg hr]

/-- C4: in one `maintainIPPool` pass a release and an allocation never both
happen.  The calls of the pass never contain both `ops.ReleaseIPs` and one of
`ops.AllocateIPs`, `ops.CreateInterface`; and when `handleIPRelease` reports a
mutation or an error for the action returned by `determineMaintenanceAction`,
the pass returns what `handleIPRelease` returned, in the node state it left,
with no further call on `ops` (so `handleIPAllocation` is not run). -/
theorem maintainIPPool_release_or_allocation (env : Env) (ops : NetResourceOperations)
    (n : NetResource) :
    ¬ ((∃ r, OpsCall.ReleaseIPs r ∈ (maintainIPPool env ops n).calls) ∧
       (∃ al, OpsCall.AllocateIPs al ∈ (maintainIPPool env ops n).calls ∨
          OpsCall.CreateInterface al ∈ (maintainIPPool env ops n).calls)) ∧
    (∀ n1 calls a,
      determineMaintenanceAction env ops
        (if n.releaseExcessIPs then removeStaleReleaseIPs n else n) = (n1, calls, some a, none) →
      ((handleIPRelease env ops n1 a).instanceMutated = true ∨
        (handleIPRelease env ops n1 a).err ≠ none) →
      maintainIPPool env ops n =
        { handleIPRelease env ops n1 a with
          calls := calls ++ (handleIPRelease env ops n1 a).calls }) := by
  constructor
  · rintro ⟨⟨r, hr⟩, ⟨al, hal⟩⟩
    have hdetcalls : ∀ n1 calls oa oerr,
        determineMaintenanceAction env ops
          (if n.releaseExcessIPs then removeStaleReleaseIPs n else n) = (n1, calls, oa, oerr) →
        ∀ c ∈ calls, (∃ k, c = OpsCall.PrepareIPRelease k) ∨ c = OpsCall.PrepareIPAllocation := by
      intro n1 calls oa oerr hdet c hc
      apply determineMaintenanceAction_calls env ops
        (if n.releaseExcessIPs then removeStaleReleaseIPs n else n) c
      rw [hdet]
      exact hc
    rcases maintainIPPool_cases env ops n with ⟨n1, calls, oa, err, hdet, heq⟩ |
      ⟨n1, calls, hdet, heq⟩ | ⟨n1, calls, a, hdet, h⟩
    · rw [heq] at hr
      rcases hdetcalls _ _ _ _ hdet _ hr with ⟨k, hk⟩ | hk <;> cases hk
    · rw [heq] at hr
      rcases hdetcalls _ _ _ _ hdet _ hr with ⟨k, hk⟩ | hk <;> cases hk
    · rcases h with ⟨_, heq⟩ | ⟨hnot, heq⟩
      · rw [heq] at hal
        simp only [List.mem_append] at hal
        rcases hal with (hal | hal) | (hal | hal)
        · rcases hdetcalls _ _ _ _ hdet _ hal with ⟨k, hk⟩ | hk <;> cases hk
        · obtain ⟨r', hr'⟩ := (handleIPRelease_calls env ops n1 a).1 _ hal
          cases hr'
        · rcases hdetcalls _ _ _ _ hdet _ hal with ⟨k, hk⟩ | hk <;> cases hk
        · obtain ⟨r', hr'⟩ := (handleIPRelease_calls env ops n1 a).1 _ hal
          cases hr'
      · rw [heq] at hr
        simp only [List.mem_append, (handleIPRelease_calls env ops n1 a).2 hnot,
          List.not_mem_nil, or_false] at hr
        rcases hr with hr | hr
        · rcases hdetcalls _ _ _ _ hdet _ hr with ⟨k, hk⟩ | hk <;> cases hk
        · obtain ⟨al', hal'⟩ := (handleIPAllocation_calls env ops _ a).1 _ hr
          rcases hal' with h | h <;> cases h
  · intro n1 calls a hdet hr
    rcases maintainIPPool_cases env ops n with ⟨n1', calls', oa, err, hdet', _⟩ |
      ⟨n1', calls', hdet', _⟩ | ⟨n1', calls', a', hdet', h⟩
    · rw [hdet] at hdet'
      simp at hdet'
    · rw [hdet] at hdet'
      simp at hdet'
    · rw [hdet] at hdet'
      simp only [Prod.mk.injEq, Option.some.injEq, and_true] at hdet'
      obtain ⟨h1, h2, h3⟩ := hdet'
      subst h1 h2 h3
      rcases h with ⟨_, heq⟩ | ⟨hnot, _⟩
      · exact heq
      · exact absurd hr hnot

/-- Witness for C4: the pass on the node in mid-handshake releases one IP and
makes no allocation call. -/
theorem maintainIPPool_release_or_allocation_witness :
    maintainIPPool exampleEnv exampleOps excessNode =
      { handleIPRelease exampleEnv exampleOps excessNode releaseOnlyAction with
        calls := [OpsCall.PrepareIPRelease 6] ++
          (handleIPRelease exampleEnv exampleOps excessNode releaseOnlyAction).calls } :=
  (maintainIPPool_release_or_allocation exampleEnv exampleOps excessNode).2
    excessNode [OpsCall.PrepareIPRelease 6] releaseOnlyAction (by decide) (by decide)

/-- A pass whose action has no release part, or an empty release list, leaves
`ipsMarkedForRelease` empty. -/
theorem maintainIPPool_resets_marks (env : Env) (ops : NetResourceOperations)
    (n : NetResource) (n1 : NetResource) (calls : List OpsCall) (a : maintenanceAction)
    (hdet : determineMaintenanceAction env ops
      (if n.releaseExcessIPs then removeStaleReleaseIPs n else n) = (n1, calls, some a, none))
    (hempty : ∀ release, a.release = some release → release.IPsToRelease = []) :
    (maintainIPPool env ops n).n.ipsMarkedForRelease = [] := by
  have hprep := handleIPReleasePrepare_of_empty env n1 a hempty
  have hrel : handleIPRelease env ops n1 a =
      { n := (handleIPReleasePrepare env n1 a).n, calls := [], instanceMutated := false,
        err := none } := by
    rcases handleIPRelease_cases env ops n1 a with ⟨_, heq⟩ | ⟨release, _, hne, _⟩
    · exact heq
    · rw [hprep] at hne
      exact absurd rfl hne
  have hmarks : (handleIPRelease env ops n1 a).n.ipsMarkedForRelease = [] := by
    rw [hrel, hprep]
    simp only
    apply (abortNoLongerExcessIPs_none _ _ "").2.2
    exact resetIfNothingToRelease_of_empty _ a hempty
  rcases maintainIPPool_cases env ops n with ⟨n1', calls', oa, err, hdet', _⟩ |
    ⟨n1', calls', hdet', _⟩ | ⟨n1', calls', a', hdet', h⟩
  · rw [hdet] at hdet'
    simp at hdet'
  · rw [hdet] at hdet'
    simp at hdet'
  · rw [hdet] at hdet'
    simp only [Prod.mk.injEq, Option.some.injEq, and_true] at hdet'
    obtain ⟨h1, h2, h3⟩ := hdet'
    subst h1 h2 h3
    rcases h with ⟨_, heq⟩ | ⟨_, heq⟩
    · rw [heq]
      exact hmarks
    · rw [heq]
      simp only
      rw [(handleIPAllocation_calls env ops _ a).2]
      exact hmarks

/-- C10, the code at the failing inputs.  The node `settledNode` tracks
`10.0.0.9` since time 0.  In a pass at 100 s `determineMaintenanceAction` returns
no action (no excess, no deficit) and the pass ends with `10.0.0.9` still in
`ipsMarkedForRelease`; the same happens on `deficitNode` when
`PrepareIPAllocation` fails.  In a later pass at 400 s, with a delay of 300 s,
the stale timestamp makes `10.0.0.9` pass the cool-down at once: it is marked
for release, while the fresh IP `10.0.0.7` is not. -/
theorem maintainIPPool_keeps_stale_marks :
    (determineMaintenanceAction delayedEnv exampleOps settledNode).2.2 = (none, none) ∧
    (maintainIPPool delayedEnv exampleOps settledNode).n.ipsMarkedForRelease
      = [("10.0.0.9", 0)] ∧
    (determineMaintenanceAction delayedEnv failingPrepareOps deficitNode).2.2
      = (none, some "failed to refresh ebc info") ∧
    (maintainIPPool delayedEnv failingPrepareOps deficitNode).n.ipsMarkedForRelease
      = [("10.0.0.9", 0)] ∧
    (handleIPRelease laterEnv exampleOps (maintainIPPool delayedEnv exampleOps settledNode).n
        laterReleaseAction).n.ipReleaseStatus = [("10.0.0.9", IPAMMarkForRelease)] := by
  decide

/-! ## Lemmas: what a maintenance pass leaves alone -/

theorem removeStaleReleaseIPs_resyncNeeded (n : NetResource) :
    (removeStaleReleaseIPs n).resyncNeeded = n.resyncNeeded := by
  unfold removeStaleReleaseIPs
  apply foldl_preserves (fun (m : NetResource) => m.resyncNeeded = n.resyncNeeded)
  · rfl
  · intro b e _ hb
    split
    · exact hb
    · split
      · exact hb
      · exact hb

theorem determineMaintenanceAction_resyncNeeded (env : Env) (ops : NetResourceOperations)
    (n : NetResource) : (determineMaintenanceAction env ops n).1.resyncNeeded = n.resyncNeeded := by
  unfold determineMaintenanceAction
  simp only
  split
  · rfl
  · split
    · rfl
    · split <;> rfl

theorem abortStep_resyncNeeded (em : GoMap Bool) (n : NetResource) (e : String × String) :
    (abortStep em n e).resyncNeeded = n.resyncNeeded := by
  unfold abortStep
  split
  · rfl
  · split
    · rfl
    · split
      · split <;> rfl
      · rfl

theorem abortNoLongerExcessIPs_resyncNeeded (n : NetResource) (em : GoMap Bool) :
    (abortNoLongerExcessIPs n em).resyncNeeded = n.resyncNeeded := by
  unfold abortNoLongerExcessIPs
  split
  · rfl
  · apply foldl_preserves (fun (m : NetResource) => m.resyncNeeded = n.resyncNeeded)
    · rfl
    · intro b e _ hb
      rw [abortStep_resyncNeeded]
      exact hb

theorem markNewExcessIPs_resyncNeeded (ts : Time) (n : NetResource) (a : maintenanceAction) :
    (markNewExcessIPs ts n a).resyncNeeded = n.resyncNeeded := by
  unfold markNewExcessIPs
  split
  · apply foldl_preserves (fun (m : NetResource) => m.resyncNeeded = n.resyncNeeded)
    · rfl
    · intro b x _ hb
      split
      · exact hb
      · exact hb
  · rfl

theorem resetIfNothingToRelease_resyncNeeded (n : NetResource) (a : maintenanceAction) :
    (resetIfNothingToRelease n a).resyncNeeded = n.resyncNeeded := by
  unfold resetIfNothingToRelease
  split
  · rfl
  · split <;> rfl

theorem handleIPReleaseResponse_resyncNeeded (n : NetResource) (markedIP : String)
    (l : List String) :
    (handleIPReleaseResponse n markedIP l).1.resyncNeeded = n.resyncNeeded := by
  unfold handleIPReleaseResponse
  split
  · split
    · rfl
    · split <;> rfl
  · rfl

theorem handshakeStep_resyncNeeded (env : Env) (excess : List String) (st : ReleaseLoopState)
    (e : String × Time) :
    (handshakeStep env excess st e).n.resyncNeeded = st.n.resyncNeeded := by
  unfold handshakeStep
  simp only
  split
  · rfl
  · split
    · rfl
    · split
      · exact handleIPReleaseResponse_resyncNeeded _ _ _
      · exact handleIPReleaseResponse_resyncNeeded _ _ _

theorem handshakeLoop_resyncNeeded (env : Env) (n : NetResource) (a : maintenanceAction) :
    (handshakeLoop env n a).n.resyncNeeded = n.resyncNeeded := by
  unfold handshakeLoop
  split
  · rfl
  · apply foldl_preserves (fun (s : ReleaseLoopState) => s.n.resyncNeeded = n.resyncNeeded)
    · rfl
    · intro b e _ hb
      rw [handshakeStep_resyncNeeded]
      exact hb

theorem markForRelease_resyncNeeded (n : NetResource) (l : List String) :
    (markForRelease n l).resyncNeeded = n.resyncNeeded := by
  unfold markForRelease
  apply foldl_preserves (fun (m : NetResource) => m.resyncNeeded = n.resyncNeeded)
  · rfl
  · intro b x _ hb
    exact hb

theorem recordReleased_resyncNeeded (n : NetResource) (l : List String) :
    (recordReleased n l).resyncNeeded = n.resyncNeeded := by
  unfold recordReleased
  apply foldl_preserves (fun (m : NetResource) => m.resyncNeeded = n.resyncNeeded)
  · rfl
  · intro b x _ hb
    exact hb

theorem handleIPReleasePrepare_resyncNeeded (env : Env) (n : NetResource)
    (a : maintenanceAction) :
    (handleIPReleasePrepare env n a).n.resyncNeeded = n.resyncNeeded := by
  unfold handleIPReleasePrepare
  simp only
  rw [abortNoLongerExcessIPs_resyncNeeded, markForRelease_resyncNeeded,
    handshakeLoop_resyncNeeded, resetIfNothingToRelease_resyncNeeded,
    markNewExcessIPs_resyncNeeded]

theorem handleIPRelease_resyncNeeded (env : Env) (ops : NetResourceOperations)
    (n : NetResource) (a : maintenanceAction) :
    (handleIPRelease env ops n a).n.resyncNeeded = n.resyncNeeded := by
  rcases handleIPRelease_cases env ops n a with ⟨_, heq⟩ | ⟨release, _, _, h⟩
  · rw [heq]
    exact handleIPReleasePrepare_resyncNeeded env n a
  · rcases h with ⟨_, heq⟩ | ⟨err, _, heq⟩
    · rw [heq]
      simp only
      rw [recordReleased_resyncNeeded]
      exact handleIPReleasePrepare_resyncNeeded env n a
    · rw [heq]
      exact handleIPReleasePrepare_resyncNeeded env n a

theorem createInterface_resyncNeeded (env : Env) (ops : NetResourceOperations)
    (n : NetResource) (al : AllocationAction) :
    (createInterface env ops n al).n.resyncNeeded = n.resyncNeeded := by
  unfold createInterface
  split
  · simp only
    split
    · split <;> rfl
    · rfl
  · split <;> rfl

theorem handleIPAllocation_resyncNeeded (env : Env) (ops : NetResourceOperations)
    (n : NetResource) (a : maintenanceAction) :
    (handleIPAllocation env ops n a).n.resyncNeeded = n.resyncNeeded := by
  unfold handleIPAllocation
  split
  · rfl
  · split
    · simp only
      split
      · rfl
      · exact createInterface_resyncNeeded env ops n _
    · exact createInterface_resyncNeeded env ops n _

/-- A pass of `maintainIPPool` never writes `resyncNeeded`. -/
theorem maintainIPPool_resyncNeeded (env : Env) (ops : NetResourceOperations)
    (n : NetResource) : (maintainIPPool env ops n).n.resyncNeeded = n.resyncNeeded := by
  have hstale : (if n.releaseExcessIPs then removeStaleReleaseIPs n else n).resyncNeeded
      = n.resyncNeeded := by
    split
    · exact removeStaleReleaseIPs_resyncNeeded n
    · rfl
  have hdetn : ∀ n1 calls oa oerr,
      determineMaintenanceAction env ops
        (if n.releaseExcessIPs then removeStaleReleaseIPs n else n) = (n1, calls, oa, oerr) →
      n1.resyncNeeded = n.resyncNeeded := by
    intro n1 calls oa oerr hdet
    have := determineMaintenanceAction_resyncNeeded env ops
      (if n.releaseExcessIPs then removeStaleReleaseIPs n else n)
    rw [hdet] at this
    exact this.trans hstale
  rcases maintainIPPool_cases env ops n with ⟨n1, calls, oa, err, hdet, heq⟩ |
    ⟨n1, calls, hdet, heq⟩ | ⟨n1, calls, a, hdet, h⟩
  · rw [heq]
    simp only
    rw [abortNoLongerExcessIPs_resyncNeeded]
    exact hdetn _ _ _ _ hdet
  · rw [heq]
    simp only
    rw [abortNoLongerExcessIPs_resyncNeeded]
    exact hdetn _ _ _ _ hdet
  · rcases h with ⟨_, heq⟩ | ⟨_, heq⟩
    · rw [heq]
      simp only
      rw [handleIPRelease_resyncNeeded]
      exact hdetn _ _ _ _ hdet
    · rw [heq]
      simp only
      rw [handleIPAllocation_resyncNeeded, handleIPRelease_resyncNeeded]
      exact hdetn _ _ _ _ hdet

theorem recalculate_resyncNeeded (env : Env) (ops : NetResourceOperations) (n : NetResource) :
    (recalculate env ops n).resyncNeeded = n.resyncNeeded := by
  unfold recalculate
  split
  · rfl
  · split <;> rfl

/-! ## Theorems: `MaintainIPPool`, the in-flight flag and the interface budget -/

/-- C11 as amended: on every return path of `MaintainIPPool` the flag
`waitingForPoolMaintenance` is false.  When the pass `maintainIPPool` is reached
(instances API ready, node running), `MaintainIPPool` returns its error, fires
the manager-wide resync trigger exactly when the pass mutated the instance or
returned an error, and sets `resyncNeeded` to the current (non-zero) time
exactly when the pass returned no error; after a pass that returned an error
`resyncNeeded` is what it was before. -/
theorem MaintainIPPool_resync_marking (env : Env) (ops : NetResourceOperations)
    (n : NetResource) :
    (MaintainIPPool env ops n).n.waitingForPoolMaintenance = false ∧
    (env.InstancesAPIIsReady = true → IsRunning env n = true →
      (MaintainIPPool env ops n).err
        = (maintainIPPool env ops (requirePoolMaintenance n)).err ∧
      ((MaintainIPPool env ops n).resyncTriggered = true ↔
        ((maintainIPPool env ops (requirePoolMaintenance n)).instanceMutated = true ∨
          (maintainIPPool env ops (requirePoolMaintenance n)).err ≠ none)) ∧
      ((maintainIPPool env ops (requirePoolMaintenance n)).err = none →
        (MaintainIPPool env ops n).n.resyncNeeded = some env.resyncNow) ∧
      ((maintainIPPool env ops (requirePoolMaintenance n)).err ≠ none →
        (MaintainIPPool env ops n).n.resyncNeeded = n.resyncNeeded)) := by
  constructor
  · unfold MaintainIPPool
    simp only
    split
    · rfl
    · split <;> rfl
  · intro hready hrun
    have hrun' : IsRunning env (requirePoolMaintenance n) = true := hrun
    have heq : MaintainIPPool env ops n =
        { n := poolMaintenanceComplete (recalculate env ops
            (if (maintainIPPool env ops (requirePoolMaintenance n)).err = none then
              requireResync env (maintainIPPool env ops (requirePoolMaintenance n)).n
            else (maintainIPPool env ops (requirePoolMaintenance n)).n)),
          calls := (maintainIPPool env ops (requirePoolMaintenance n)).calls,
          retryTriggered := false,
          resyncTriggered := (maintainIPPool env ops (requirePoolMaintenance n)).instanceMutated
            || (maintainIPPool env ops (requirePoolMaintenance n)).err.isSome,
          err := (maintainIPPool env ops (requirePoolMaintenance n)).err } := by
      unfold MaintainIPPool
      simp [hready, hrun']
    rw [heq]
    refine ⟨rfl, ?_, ?_, ?_⟩
    · simp only [Bool.or_eq_true]
      constructor
      · rintro (h | h)
        · exact Or.inl h
        · right
          intro hnone
          rw [hnone] at h
          simp at h
      · rintro (h | h)
        · exact Or.inl h
        · right
          cases herr : (maintainIPPool env ops (requirePoolMaintenance n)).err with
          | none => exact absurd herr h
          | some e => rfl
    · intro hnone
      simp only [hnone, if_true]
      show (recalculate env ops _).resyncNeeded = _
      rw [recalculate_resyncNeeded]
      rfl
    · intro hsome
      simp only [hsome, if_false]
      show (recalculate env ops _).resyncNeeded = _
      rw [recalculate_resyncNeeded, maintainIPPool_resyncNeeded]
      rfl

/-- Witness for C11 as amended: the pass on the node in mid-handshake returns no
error, so `resyncNeeded` is set to the reading of the clock. -/
theorem MaintainIPPool_resync_marking_witness :
    (MaintainIPPool twoHoursEnv exampleOps excessNode).n.resyncNeeded
      = some twoHoursEnv.resyncNow :=
  ((MaintainIPPool_resync_marking twoHoursEnv exampleOps excessNode).2
    rfl (by decide)).2.2.1 (by decide)

/-- Counterexample to C11 as stated: on `deficitNode` with a failing
`PrepareIPAllocation` the pass is reached and returns an error; the resync
trigger is fired, but `resyncNeeded` is not set and stays the zero time. -/
theorem MaintainIPPool_resync_counterexample :
    twoHoursEnv.InstancesAPIIsReady = true ∧
    IsRunning twoHoursEnv deficitNode = true ∧
    (maintainIPPool twoHoursEnv failingPrepareOps (requirePoolMaintenance deficitNode)).err
      = some "failed to refresh ebc info" ∧
    (MaintainIPPool twoHoursEnv failingPrepareOps deficitNode).resyncTriggered = true ∧
    (MaintainIPPool twoHoursEnv failingPrepareOps deficitNode).n.resyncNeeded = none := by
  decide

/-- C12 as amended: while `waitingForPoolMaintenance` is true, `allocationNeeded`
returns false whatever the statistics and `resyncNeeded` are, and
`releaseNeeded` returns true exactly when the resource is attached and its map
`Status.IPAM.ReleaseIPs` is not empty (a release handshake is in progress). -/
theorem inflight_flag_gates_maintenance (n : NetResource)
    (hwait : n.waitingForPoolMaintenance = true) :
    allocationNeeded n = false ∧
    (releaseNeeded n = true ↔
      (n.hasResource = true ∧ n.resource.Status.IPAM.ReleaseIPs.length > 0)) := by
  constructor
  · simp [allocationNeeded, hwait]
  · unfold releaseNeeded
    simp only [hwait]
    cases n.hasResource <;> simp

/-- Witness for C12 as amended: on a waiting node with an empty handshake map
neither an allocation nor a release is needed. -/
theorem inflight_flag_gates_maintenance_witness :
    allocationNeeded { deficitNode with waitingForPoolMaintenance := true } = false ∧
    ¬ (releaseNeeded { deficitNode with waitingForPoolMaintenance := true } = true) :=
  ⟨(inflight_flag_gates_maintenance { deficitNode with waitingForPoolMaintenance := true }
      rfl).1,
    fun h => absurd
      ((inflight_flag_gates_maintenance { deficitNode with waitingForPoolMaintenance := true }
        rfl).2.mp h).2 (by decide)⟩

/-- Counterexample to C12 as stated: `waitingNode` has the in-flight flag set
and two entries in `Status.IPAM.ReleaseIPs`, and `releaseNeeded` returns true. -/
theorem inflight_flag_counterexample :
    waitingNode.waitingForPoolMaintenance = true ∧ releaseNeeded waitingNode = true := by
  decide

/-- What `createInterface` does without interface budget: it returns
`(false, nil)` and makes no call; it records a warning exactly when an earlier
warning is recorded and is more than an hour old. -/
theorem createInterface_exhausted (env : Env) (ops : NetResourceOperations) (n : NetResource)
    (a : AllocationAction) (h0 : a.AvailableInterfaces = 0) :
    (createInterface env ops n a).calls = [] ∧
    (createInterface env ops n a).instanceMutated = false ∧
    (createInterface env ops n a).err = none ∧
    (n.lastMaxAdapterWarning = none → (createInterface env ops n a).n = n) ∧
    (∀ last, n.lastMaxAdapterWarning = some last → env.sinceNow - last > warningInterval →
      (createInterface env ops n a).n.lastMaxAdapterWarning = some env.warnNow) := by
  unfold createInterface
  simp only [h0, if_true]
  refine ⟨trivial, trivial, trivial, ?_, ?_⟩
  · intro hnone
    simp [hnone]
  · intro last hlast hold
    simp [hlast, hold]

/-- C13, the code at the failing input.  On `deficitNode`, whose
`lastMaxAdapterWarning` is the zero time, `createInterface` without interface
budget returns `(false, nil)` with no call, but records no warning, also two
hours later: the node state is unchanged, so the warning is never emitted.  A
warning is recorded only on a node that already has one (`warnedNode`). -/
theorem createInterface_never_warns_first :
    deficitNode.lastMaxAdapterWarning = none ∧
    exhaustedAction.AvailableInterfaces = 0 ∧
    createInterface twoHoursEnv exampleOps deficitNode exhaustedAction
      = { n := deficitNode, calls := [], instanceMutated := false, err := none } ∧
    (createInterface twoHoursEnv exampleOps warnedNode exhaustedAction).n.lastMaxAdapterWarning
      = some (7200 * Second) := by
  decide

end Ipam

namespace Bcesync

open Ipam

/-! ## Lemmas: `deleteENI` -/

theorem deleteResource_calls (w : EniWorld) (resource : ENI) :
    (deleteResource w resource).1 =
      [EniCall.DeleteENI resource.Spec.ENI.ID, EniCall.Event "DeleteENISuccess",
        EniCall.updaterDelete resource.Name] := rfl

/-- The two shapes of the trace of `deleteENI`. -/
theorem deleteENI_calls (w : EniWorld) (resource : ENI) :
    (cloudDeleteTolerated w resource = true ∧
      (deleteENI w resource).1 =
        [EniCall.DeleteENI resource.Spec.ENI.ID, EniCall.Event "DeleteENISuccess",
          EniCall.updaterDelete resource.Name] ∧
      (deleteENI w resource).2 = (deleteResource w resource).2) ∨
    (cloudDeleteTolerated w resource = false ∧
      (deleteENI w resource).1 =
        [EniCall.DeleteENI resource.Spec.ENI.ID, EniCall.Event "DeleteENIFailed"] ∧
      ∃ msg, (deleteENI w resource).2 = some (SyncError.wrapped msg)) := by
  unfold deleteENI cloudDeleteTolerated
  cases hdel : w.DeleteENI resource.Spec.ENI.ID with
  | none => exact Or.inl ⟨by simp, rfl, rfl⟩
  | some err =>
    by_cases htol : (w.IsErrorReasonNoSuchObject err || w.IsErrorENINotFound err) = true
    · left
      have hcond : ¬ ((!w.IsErrorReasonNoSuchObject err && !w.IsErrorENINotFound err) = true) := by
        cases h1 : w.IsErrorReasonNoSuchObject err <;> cases h2 : w.IsErrorENINotFound err <;>
          simp_all
      refine ⟨htol, ?_, ?_⟩
      · dsimp only
        rw [if_neg hcond]
        rfl
      · dsimp only
        rw [if_neg hcond]
    · right
      have hfalse : (w.IsErrorReasonNoSuchObject err || w.IsErrorENINotFound err) = false := by
        simpa using htol
      have hcond : (!w.IsErrorReasonNoSuchObject err && !w.IsErrorENINotFound err) = true := by
        cases h1 : w.IsErrorReasonNoSuchObject err <;> cases h2 : w.IsErrorENINotFound err <;>
          simp_all
      refine ⟨hfalse, ?_, ?_⟩
      · dsimp only
        rw [if_pos hcond]
      · dsimp only
        rw [if_pos hcond]
        exact ⟨_, rfl⟩

theorem deleteENI_no_attach (w : EniWorld) (resource : ENI) (i e : String) :
    EniCall.AttachENI i e ∉ (deleteENI w resource).1 := by
  rcases deleteENI_calls w resource with ⟨_, h, _⟩ | ⟨_, h, _⟩ <;> rw [h] <;> simp

theorem deleteENI_calls_delete (w : EniWorld) (resource : ENI) :
    EniCall.DeleteENI resource.Spec.ENI.ID ∈ (deleteENI w resource).1 := by
  rcases deleteENI_calls w resource with ⟨_, h, _⟩ | ⟨_, h, _⟩ <;> rw [h] <;> simp

/-! ## Theorems: the state machine -/

/-- C16: the delete transition.  `deleteENI` calls the delete of the local
custom resource if and only if the cloud `DeleteENI` call succeeded or failed
with a no-such-object or ENI-not-found error; on any other cloud error it
returns an error and does not call the local delete; after a successful or
tolerated cloud delete it returns an error exactly when the local delete
fails. -/
theorem deleteENI_transition (w : EniWorld) (resource : ENI) :
    (EniCall.updaterDelete resource.Name ∈ (deleteENI w resource).1 ↔
      cloudDeleteTolerated w resource = true) ∧
    (cloudDeleteTolerated w resource = false →
      (deleteENI w resource).2 ≠ none ∧
      EniCall.updaterDelete resource.Name ∉ (deleteENI w resource).1) ∧
    (cloudDeleteTolerated w resource = true →
      ((deleteENI w resource).2 ≠ none ↔ w.updaterDelete resource.Name ≠ none)) := by
  have hlocal : (deleteResource w resource).2 ≠ none ↔ w.updaterDelete resource.Name ≠ none := by
    unfold deleteResource
    cases w.updaterDelete resource.Name <;> simp
  rcases deleteENI_calls w resource with ⟨htol, hcalls, herr⟩ | ⟨htol, hcalls, msg, herr⟩
  · refine ⟨?_, ?_, ?_⟩
    · rw [hcalls]
      simp [htol]
    · intro h
      rw [htol] at h
      simp at h
    · intro _
      rw [herr]
      exact hlocal
  · refine ⟨?_, ?_, ?_⟩
    · rw [hcalls]
      simp [htol]
    · intro _
      rw [herr, hcalls]
      simp
    · intro h
      rw [htol] at h
      simp at h

/-- Witness for C16: when the cloud delete fails with another error the local
resource is kept and an error is returned; when it succeeds the local resource
is deleted. -/
theorem deleteENI_transition_witness :
    (cloudDeleteTolerated failingAttachWorld managedENI = false ∧
      (deleteENI failingAttachWorld managedENI).2 ≠ none ∧
      EniCall.updaterDelete managedENI.Name ∉ (deleteENI failingAttachWorld managedENI).1) ∧
    EniCall.updaterDelete managedENI.Name ∈ (deleteENI exampleWorld managedENI).1 :=
  ⟨⟨by decide, (deleteENI_transition failingAttachWorld managedENI).2.1 (by decide)⟩,
    (deleteENI_transition exampleWorld managedENI).1.mpr (by decide)⟩

/-- C15: attach rollback.  When the cloud call `AttachENI` fails inside
`attachENI` (cloud status `available`, interface not expired), the warning
event is recorded and `deleteENI` runs as rollback; the returned error is the
one built from the attach failure, whatever the rollback returns; and when the
cloud delete and the local delete of the rollback succeed the custom resource
has been deleted. -/
theorem attachENI_rollback (w : EniWorld) (resource : ENI) (vpceni : VpcEni) (e : Error)
    (hstatus : vpceni.Status = VPCENIStatusAvailable)
    (hfresh : expired w resource = false)
    (hattach : w.AttachENI resource.Spec.ENI.InstanceID resource.Spec.ENI.ID = some e) :
    (attachENI w resource vpceni).1 =
      [EniCall.AttachENI resource.Spec.ENI.InstanceID resource.Spec.ENI.ID,
        EniCall.Event "AttachENIFailed"] ++ (deleteENI w resource).1 ∧
    (attachENI w resource vpceni).2 =
      some (SyncError.wrapped ("failed to attach eni(" ++ resource.Spec.ENI.ID ++
        ") to instance(" ++ resource.Spec.ENI.InstanceID ++ "): " ++ e ++
        ", will delete eni crd")) ∧
    (w.DeleteENI resource.Spec.ENI.ID = none → w.updaterDelete resource.Name = none →
      EniCall.updaterDelete resource.Name ∈ (attachENI w resource vpceni).1 ∧
      (deleteENI w resource).2 = none) := by
  have hs : (vpceni.Status != VPCENIStatusAvailable) = false := by simp [hstatus]
  have heq : attachENI w resource vpceni =
      ([EniCall.AttachENI resource.Spec.ENI.InstanceID resource.Spec.ENI.ID,
          EniCall.Event "AttachENIFailed"] ++ (deleteENI w resource).1,
        some (SyncError.wrapped ("failed to attach eni(" ++ resource.Spec.ENI.ID ++
          ") to instance(" ++ resource.Spec.ENI.InstanceID ++ "): " ++ e ++
          ", will delete eni crd"))) := by
    unfold attachENI
    simp only [hs, hfresh, hattach]
    rfl
  rw [heq]
  refine ⟨rfl, rfl, ?_⟩
  intro hdel hlocal
  have hd : deleteENI w resource = deleteResource w resource := by
    unfold deleteENI
    rw [hdel]
  rw [hd]
  constructor
  · rw [deleteResource_calls]
    simp
  · unfold deleteResource
    rw [hlocal]

/-- Witness for C15: the attach fails and so does the rollback, and the error
returned is the one of the attach. -/
theorem attachENI_rollback_witness :
    (deleteENI failingAttachWorld managedENI).2 ≠ none ∧
    (attachENI failingAttachWorld managedENI availableVpcEni).2 =
      some (SyncError.wrapped
        "failed to attach eni(eni-1) to instance(i-1): instance is busy, will delete eni crd") :=
  ⟨by decide,
    (attachENI_rollback failingAttachWorld managedENI availableVpcEni "instance is busy"
      rfl (by decide) rfl).2.1⟩

/-- The result of `start` for a managed interface of an ordinary type whose
recorded status is neither `in-use` nor `deleted`, when the cloud answers with
a status other than `in-use`: the transition step, then the status comparison. -/
theorem start_transition (w : EniWorld) (resource : ENI) (vpceni : VpcEni)
    (hhpc : resource.Spec.ENIType ≠ ENIForHPC) (heri : resource.Spec.ENIType ≠ ENIForERI)
    (hinuse : resource.Status.VPCStatus ≠ VPCENIStatusInuse)
    (hdeleted : resource.Status.VPCStatus ≠ VPCENIStatusDeleted)
    (hmanaged : managedByMe resource = true)
    (hstat : w.statENI resource.Name = Except.ok vpceni)
    (hobs : vpceni.Status ≠ VPCENIStatusInuse) :
    start w resource =
      if (transition w resource vpceni).2.isSome then
        { obj := resource, resource := resource, isSync := false,
          calls := EniCall.statENI resource.Name :: (transition w resource vpceni).1,
          err := (transition w resource vpceni).2 }
      else if resource.Status.VPCStatus != vpceni.Status then
        { obj := { resource with Status := AppendVPCStatus resource.Status vpceni.Status },
          resource := { resource with Status := AppendVPCStatus resource.Status vpceni.Status },
          isSync := false,
          calls := EniCall.statENI resource.Name :: (transition w resource vpceni).1,
          err := none }
      else
        { obj := resource, resource := resource, isSync := false,
          calls := EniCall.statENI resource.Name :: (transition w resource vpceni).1,
          err := some (SyncError.delay resource.Name ENIReadyTimeToAttach
            ("eni " ++ resource.Spec.ENI.ID ++ " status is not final: " ++
              resource.Status.VPCStatus)) } := by
  have h1 : (resource.Spec.ENIType == ENIForHPC || resource.Spec.ENIType == ENIForERI) = false := by
    simp [hhpc, heri]
  have h2 : (resource.Status.VPCStatus == VPCENIStatusInuse) = false := by simp [hinuse]
  have h3 : (resource.Status.VPCStatus != VPCENIStatusDeleted) = true := by simp [hdeleted]
  have h4 : (vpceni.Status == VPCENIStatusInuse) = false := by simp [hobs]
  unfold start
  simp only [h1, h2, h3, hmanaged, hstat, h4]
  simp

/-- C14: the stuck-creation bound.  For a managed interface of an ordinary type
whose recorded VPC status is `available` or `attaching`, whose cloud status is
the recorded one and whose creation is more than `ENIMaxCreateDuration` (5
minutes) old, one pass of `start` asks the cloud for the status and then runs
`deleteENI` (after the event `AttachingENIError` in status `attaching`): the
cloud `DeleteENI` is called, `AttachENI` is never called, and an error of the
delete transition is returned. -/
theorem start_deletes_stuck_interface (w : EniWorld) (resource : ENI) (vpceni : VpcEni)
    (hhpc : resource.Spec.ENIType ≠ ENIForHPC) (heri : resource.Spec.ENIType ≠ ENIForERI)
    (hmanaged : managedByMe resource = true)
    (hstatus : resource.Status.VPCStatus = VPCENIStatusAvailable ∨
      resource.Status.VPCStatus = VPCENIStatusAttaching)
    (hstat : w.statENI resource.Name = Except.ok vpceni)
    (hsame : vpceni.Status = resource.Status.VPCStatus)
    (hold : resource.CreationTimestamp + ENIMaxCreateDuration < w.now) :
    ENIMaxCreateDuration = 300 * Second ∧
    (resource.Status.VPCStatus = VPCENIStatusAvailable →
      (start w resource).calls = EniCall.statENI resource.Name :: (deleteENI w resource).1) ∧
    (resource.Status.VPCStatus = VPCENIStatusAttaching →
      (start w resource).calls =
        EniCall.statENI resource.Name :: EniCall.Event "AttachingENIError" ::
          (deleteENI w resource).1) ∧
    EniCall.DeleteENI resource.Spec.ENI.ID ∈ (start w resource).calls ∧
    (∀ i e, EniCall.AttachENI i e ∉ (start w resource).calls) ∧
    ((deleteENI w resource).2 ≠ none → (start w resource).err = (deleteENI w resource).2) := by
  have hexp : expired w resource = true := by
    unfold expired
    simpa using hold
  have hinuse : resource.Status.VPCStatus ≠ VPCENIStatusInuse := by
    rcases hstatus with h | h <;> rw [h] <;> decide
  have hdeleted : resource.Status.VPCStatus ≠ VPCENIStatusDeleted := by
    rcases hstatus with h | h <;> rw [h] <;> decide
  have hobs : vpceni.Status ≠ VPCENIStatusInuse := by
    rw [hsame]
    exact hinuse
  have hstart := start_transition w resource vpceni hhpc heri hinuse hdeleted hmanaged hstat hobs
  have hne : (resource.Status.VPCStatus != vpceni.Status) = false := by simp [hsame]
  have htrans : transition w resource vpceni =
      if resource.Status.VPCStatus = VPCENIStatusAvailable then deleteENI w resource
      else (EniCall.Event "AttachingENIError" :: (deleteENI w resource).1,
        (deleteENI w resource).2) := by
    unfold transition
    rcases hstatus with h | h
    · have hv : (vpceni.Status != VPCENIStatusAvailable) = false := by simp [hsame, h]
      simp only [h, beq_self_eq_true, if_true]
      unfold attachENI
      simp only [hv, hexp]
      simp
    · have hv : (vpceni.Status != VPCENIStatusAttaching) = false := by simp [hsame, h]
      have hna : (VPCENIStatusAttaching == VPCENIStatusAvailable) = false := by decide
      have hna' : ¬ (VPCENIStatusAttaching = VPCENIStatusAvailable) := by decide
      simp only [h, hna, hna', beq_self_eq_true, if_true, if_false]
      unfold attachingENI
      simp only [hv, hexp]
      simp
  have hcalls : (start w resource).calls =
      EniCall.statENI resource.Name :: (transition w resource vpceni).1 := by
    rw [hstart]
    simp only [hne]
    split <;> simp
  have herr : (transition w resource vpceni).2 ≠ none →
      (start w resource).err = (transition w resource vpceni).2 := by
    intro h
    rw [hstart]
    have hsome : (transition w resource vpceni).2.isSome = true := by
      cases ht : (transition w resource vpceni).2 with
      | none => exact absurd ht h
      | some e => rfl
    simp only [hsome, if_true]
  refine ⟨by decide, ?_, ?_, ?_, ?_, ?_⟩
  · intro h
    rw [hcalls, htrans, if_pos h]
  · intro h
    have hna : ¬ (resource.Status.VPCStatus = VPCENIStatusAvailable) := by
      rw [h]
      decide
    rw [hcalls, htrans, if_neg hna]
  · rw [hcalls, htrans]
    split
    · exact List.mem_cons_of_mem _ (deleteENI_calls_delete w resource)
    · exact List.mem_cons_of_mem _ (List.mem_cons_of_mem _ (deleteENI_calls_delete w resource))
  · intro i e
    rw [hcalls, htrans]
    split
    · simp only [List.mem_cons, not_or]
      exact ⟨by simp, deleteENI_no_attach w resource i e⟩
    · simp only [List.mem_cons, not_or]
      exact ⟨by simp, by simp, deleteENI_no_attach w resource i e⟩
  · intro h
    have : (transition w resource vpceni).2 = (deleteENI w resource).2 := by
      rw [htrans]
      split <;> rfl
    rw [← this] at h ⊢
    exact herr h

/-- Witness for C14: ten minutes after its creation the interface that is still
`available` is deleted in the cloud and as a custom resource, without any
attach. -/
theorem start_deletes_stuck_interface_witness :
    (start lateWorld managedENI).calls =
      [EniCall.statENI "eni-1", EniCall.DeleteENI "eni-1", EniCall.Event "DeleteENISuccess",
        EniCall.updaterDelete "eni-1"] :=
  ((start_deletes_stuck_interface lateWorld managedENI availableVpcEni (by decide) (by decide)
    (by decide) (Or.inl rfl) rfl rfl (by decide)).2.1 rfl).trans (by decide)

theorem removeFinalizer_frame (newObj : ENI) :
    (removeFinalizer newObj).1.Spec = newObj.Spec ∧
    (removeFinalizer newObj).1.Status = newObj.Status ∧
    (removeFinalizer newObj).1.OwnerReferences = newObj.OwnerReferences ∧
    (removeFinalizer newObj).1.Name = newObj.Name := by
  unfold removeFinalizer
  simp only
  split <;> exact ⟨rfl, rfl, rfl, rfl⟩

theorem addFinalizer_frame (newObj : ENI) :
    (addFinalizer newObj).Spec = newObj.Spec ∧
    (addFinalizer newObj).Status = newObj.Status ∧
    (addFinalizer newObj).OwnerReferences = newObj.OwnerReferences ∧
    (addFinalizer newObj).Name = newObj.Name := by
  unfold addFinalizer
  split <;> exact ⟨rfl, rfl, rfl, rfl⟩

theorem guardFinalizer_frame (w : EniWorld) (newObj : ENI) :
    (guardFinalizer w newObj).1.Spec = newObj.Spec ∧
    (guardFinalizer w newObj).1.Status = newObj.Status ∧
    (guardFinalizer w newObj).1.OwnerReferences = newObj.OwnerReferences ∧
    (guardFinalizer w newObj).1.Name = newObj.Name := by
  unfold guardFinalizer
  simp only
  split
  · split
    · exact removeFinalizer_frame _
    · split
      · exact removeFinalizer_frame _
      · split
        · exact removeFinalizer_frame _
        · split
          · exact removeFinalizer_frame _
          · exact ⟨rfl, rfl, rfl, rfl⟩
  · exact ⟨rfl, rfl, rfl, rfl⟩

/-- The method `mangeFinalizer` only writes the finalizer list. -/
theorem mangeFinalizer_frame (w : EniWorld) (newObj : ENI) :
    (mangeFinalizer w newObj).1.Spec = newObj.Spec ∧
    (mangeFinalizer w newObj).1.Status = newObj.Status ∧
    (mangeFinalizer w newObj).1.OwnerReferences = newObj.OwnerReferences ∧
    (mangeFinalizer w newObj).1.Name = newObj.Name := by
  unfold mangeFinalizer
  have h1 := guardFinalizer_frame w (addFinalizer newObj)
  have h2 := addFinalizer_frame newObj
  exact ⟨h1.1.trans h2.1, h1.2.1.trans h2.2.1, h1.2.2.1.trans h2.2.2.1,
    h1.2.2.2.trans h2.2.2.2⟩

/-- The result of `start` for an unmanaged interface of an ordinary type. -/
theorem start_unmanaged (w : EniWorld) (resource : ENI)
    (hhpc : resource.Spec.ENIType ≠ ENIForHPC) (heri : resource.Spec.ENIType ≠ ENIForERI)
    (hunmanaged : managedByMe resource = false) :
    start w resource =
      if resource.Status.VPCStatus = VPCENIStatusInuse ∨
          resource.Status.VPCStatus = VPCENIStatusDeleted then
        { obj := resource, resource := resource, isSync := false, calls := [], err := none }
      else
        { obj := resource, resource := resource, isSync := true, calls := [], err := none } := by
  have h1 : (resource.Spec.ENIType == ENIForHPC || resource.Spec.ENIType == ENIForERI) = false := by
    simp [hhpc, heri]
  unfold start
  simp only [h1, hunmanaged]
  by_cases hin : resource.Status.VPCStatus = VPCENIStatusInuse
  · simp [hin]
  · by_cases hdel : resource.Status.VPCStatus = VPCENIStatusDeleted
    · simp [hin, hdel]
    · simp [hin, hdel]

/-- C17: unmanaged interfaces are only observed.  For an interface of an
ordinary type without an owner reference of the CCE group version and the
`NetResourceSet` kind, `start` makes no call at all (no cloud call, no write of
the updater, no event), leaves the resource as it is and returns nil; when the
recorded VPC status is neither `in-use` nor `deleted` it sets `isSync`, and
`handleENIUpdate` then returns nil without the status patch, whenever it
reaches the state machine. -/
theorem start_unmanaged_observed_only (w : EniWorld) (resource : ENI)
    (hhpc : resource.Spec.ENIType ≠ ENIForHPC) (heri : resource.Spec.ENIType ≠ ENIForERI)
    (hunmanaged : managedByMe resource = false) :
    (start w resource).calls = [] ∧
    (start w resource).err = none ∧
    (start w resource).obj = resource ∧
    (start w resource).resource = resource ∧
    (resource.Status.VPCStatus ≠ VPCENIStatusInuse →
      resource.Status.VPCStatus ≠ VPCENIStatusDeleted →
      (start w resource).isSync = true ∧
      (w.useENIMachine = true → (mangeFinalizer w resource).2 = false →
        handleENIUpdate w resource = { calls := [], err := none })) := by
  have hshape := start_unmanaged w resource hhpc heri hunmanaged
  refine ⟨?_, ?_, ?_, ?_, ?_⟩
  · rw [hshape]
    split <;> rfl
  · rw [hshape]
    split <;> rfl
  · rw [hshape]
    split <;> rfl
  · rw [hshape]
    split <;> rfl
  · intro hin hdel
    have hnot : ¬ (resource.Status.VPCStatus = VPCENIStatusInuse ∨
        resource.Status.VPCStatus = VPCENIStatusDeleted) := by
      rintro (h | h)
      · exact hin h
      · exact hdel h
    constructor
    · rw [hshape, if_neg hnot]
    · intro hmachine hfin
      have hfr := mangeFinalizer_frame w resource
      have hmanaged' : managedByMe (mangeFinalizer w resource).1 = false := by
        unfold managedByMe at hunmanaged ⊢
        rw [hfr.2.2.1]
        exact hunmanaged
      have hnot' : ¬ ((mangeFinalizer w resource).1.Status.VPCStatus = VPCENIStatusInuse ∨
          (mangeFinalizer w resource).1.Status.VPCStatus = VPCENIStatusDeleted) := by
        rw [hfr.2.1]
        exact hnot
      have hstart' := start_unmanaged w (mangeFinalizer w resource).1
        (by rw [hfr.1]; exact hhpc) (by rw [hfr.1]; exact heri) hmanaged'
      rw [if_neg hnot'] at hstart'
      have hd : (resource.Status.VPCStatus == VPCENIStatusDeleted) = false := by simp [hdel]
      unfold handleENIUpdate
      simp only [hd, hfin, hmachine, hstart']
      simp [updateStatus]

/-- Witness for C17: the resource without owner reference is left alone, by
`start` and by `handleENIUpdate`. -/
theorem start_unmanaged_observed_only_witness :
    (start exampleWorld unmanagedENI).calls = [] ∧
    (start exampleWorld unmanagedENI).isSync = true ∧
    handleENIUpdate exampleWorld unmanagedENI = { calls := [], err := none } :=
  ⟨(start_unmanaged_observed_only exampleWorld unmanagedENI (by decide) (by decide)
      (by decide)).1,
    ((start_unmanaged_observed_only exampleWorld unmanagedENI (by decide) (by decide)
      (by decide)).2.2.2.2 (by decide) (by decide)).1,
    ((start_unmanaged_observed_only exampleWorld unmanagedENI (by decide) (by decide)
      (by decide)).2.2.2.2 (by decide) (by decide)).2 rfl (by decide)⟩

/-! ## Theorems: the handlers -/

/-- C20: the finalizer guard.  For an object with a deletion timestamp and a
non-empty finalizer list, if the owning `NetResourceSet` is found, is not being
deleted, has the UID of the first owner reference and the VPC status of the
object is `in-use`, then `mangeFinalizer` leaves the object, and so its
finalizer list, unchanged and returns false.  For an object without deletion
timestamp and with an empty finalizer list it adds exactly the finalizer
`eni-syncer` and returns false. -/
theorem mangeFinalizer_guard (w : EniWorld) (newObj : ENI) :
    (∀ nd, newObj.DeletionTimestamp ≠ none → newObj.Finalizers ≠ [] →
      (w.nodeGet newObj.Spec.NodeName).1 = some nd →
      (∀ e, (w.nodeGet newObj.Spec.NodeName).2 = some e → w.IsNotFound e = false) →
      nd.DeletionTimestamp = none →
      (∀ owner rest, newObj.OwnerReferences = owner :: rest → nd.UID = owner.UID) →
      newObj.Status.VPCStatus = VPCENIStatusInuse →
      mangeFinalizer w newObj = (newObj, false)) ∧
    (newObj.DeletionTimestamp = none → newObj.Finalizers = [] →
      mangeFinalizer w newObj = ({ newObj with Finalizers := [FinalizerENI] }, false)) := by
  constructor
  · intro nd hdel hfin hnode herr hnd howner hstatus
    have hadd : addFinalizer newObj = newObj := by
      unfold addFinalizer
      have : ¬ (newObj.DeletionTimestamp.isNone = true ∧ newObj.Finalizers.length = 0) := by
        rintro ⟨h, _⟩
        cases hd : newObj.DeletionTimestamp with
        | none => exact hdel hd
        | some t => simp [hd] at h
      rw [if_neg this]
    unfold mangeFinalizer
    rw [hadd]
    unfold guardFinalizer
    have hc1 : newObj.DeletionTimestamp.isSome = true ∧ newObj.Finalizers.length ≠ 0 := by
      constructor
      · cases hd : newObj.DeletionTimestamp with
        | none => exact absurd hd hdel
        | some t => rfl
      · intro h
        exact hfin (List.length_eq_zero.mp h)
    have hc2 : ¬ ((match (w.nodeGet newObj.Spec.NodeName).2 with
        | some e => w.IsNotFound e
        | none => false) = true) := by
      cases he : (w.nodeGet newObj.Spec.NodeName).2 with
      | none => simp
      | some e => simp [herr e he]
    have hc3 : ¬ ((match (w.nodeGet newObj.Spec.NodeName).1 with
        | some nd => nd.DeletionTimestamp.isSome
        | none => false) = true) := by
      rw [hnode]
      simp [hnd]
    have hc4 : ¬ ((match (w.nodeGet newObj.Spec.NodeName).1, newObj.OwnerReferences with
        | some nd, owner :: _ => nd.UID != owner.UID
        | _, _ => false) = true) := by
      rw [hnode]
      cases ho : newObj.OwnerReferences with
      | nil => simp
      | cons owner rest => simp [howner owner rest ho]
    have hc5 : ¬ ((newObj.Status.VPCStatus != VPCENIStatusDeleted) = true ∧
        (newObj.Status.VPCStatus != VPCENIStatusInuse) = true) := by
      rintro ⟨_, h⟩
      simp [hstatus] at h
    simp only
    rw [if_pos hc1, if_neg hc2, if_neg hc3, if_neg hc4, if_neg hc5]
  · intro hdel hfin
    unfold mangeFinalizer
    have hadd : addFinalizer newObj = { newObj with Finalizers := [FinalizerENI] } := by
      unfold addFinalizer
      simp [hdel, hfin]
    rw [hadd]
    unfold guardFinalizer
    simp [hdel]

/-- Witness for C20: the interface in use on a live node keeps its finalizer
although its deletion was requested, and a fresh object gets the finalizer. -/
theorem mangeFinalizer_guard_witness :
    mangeFinalizer exampleWorld deletingInuseENI = (deletingInuseENI, false) ∧
    mangeFinalizer exampleWorld freshENI = ({ freshENI with Finalizers := ["eni-syncer"] }, false) :=
  ⟨(mangeFinalizer_guard exampleWorld deletingInuseENI).1
      { UID := "uid-1", DeletionTimestamp := none }
      (by decide) (by decide) rfl (by intro e h; cases h) rfl
      (by intro owner rest h; cases h; rfl) rfl,
    (mangeFinalizer_guard exampleWorld freshENI).2 rfl rfl⟩

/-- The state machine signals a delay when the transition step returns no
error and the recorded status is the observed one. -/
theorem start_delay_signal (w : EniWorld) (resource : ENI) (vpceni : VpcEni)
    (hhpc : resource.Spec.ENIType ≠ ENIForHPC) (heri : resource.Spec.ENIType ≠ ENIForERI)
    (hinuse : resource.Status.VPCStatus ≠ VPCENIStatusInuse)
    (hdeleted : resource.Status.VPCStatus ≠ VPCENIStatusDeleted)
    (hmanaged : managedByMe resource = true)
    (hstat : w.statENI resource.Name = Except.ok vpceni)
    (hsame : vpceni.Status = resource.Status.VPCStatus)
    (hok : (transition w resource vpceni).2 = none) :
    (start w resource).err =
      some (SyncError.delay resource.Name ENIReadyTimeToAttach
        ("eni " ++ resource.Spec.ENI.ID ++ " status is not final: " ++
          resource.Status.VPCStatus)) ∧
    ENIReadyTimeToAttach = 1000000000 := by
  have hobs : vpceni.Status ≠ VPCENIStatusInuse := by
    rw [hsame]
    exact hinuse
  have hne : (resource.Status.VPCStatus != vpceni.Status) = false := by simp [hsame]
  rw [start_transition w resource vpceni hhpc heri hinuse hdeleted hmanaged hstat hobs]
  simp only [hok, hne]
  exact ⟨by simp, by decide⟩

/-- The part of `handleENIUpdate` after the label `UpdateStatus` returns nil or
an error of a client, never a delay event. -/
theorem updateStatus_err (w : EniWorld) (resource newObj : ENI) (eniStatus : Option ENIStatus)
    (skip : Bool) (calls : List EniCall) :
    (updateStatus w resource newObj eniStatus skip calls).err = none ∨
    ∃ e, (updateStatus w resource newObj eniStatus skip calls).err = some (SyncError.api e) := by
  unfold updateStatus
  split
  · exact Or.inl rfl
  · split
    · exact Or.inr ⟨_, rfl⟩
    · exact Or.inl rfl
    · split
      · split
        · dsimp only
          split
          · exact Or.inr ⟨_, rfl⟩
          · exact Or.inl rfl
        · exact Or.inl rfl
      · exact Or.inl rfl

/-- No run of `handleENIUpdate` returns a delay event. -/
theorem handleENIUpdate_never_delay (w : EniWorld) (resource : ENI) (key : String)
    (duration : Int) (reason : String) :
    (handleENIUpdate w resource).err ≠ some (SyncError.delay key duration reason) := by
  have hup : ∀ newObj eniStatus skip calls,
      (updateStatus w resource newObj eniStatus skip calls).err
        ≠ some (SyncError.delay key duration reason) := by
    intro newObj eniStatus skip calls
    rcases updateStatus_err w resource newObj eniStatus skip calls with h | ⟨e, h⟩ <;>
      rw [h] <;> simp
  unfold handleENIUpdate
  split
  · simp
  · simp only
    split
    · split <;> simp
    · split
      · split
        · exact hup _ _ _ _
        · rename_i err hnotdelay herr
          intro h
          simp only [Option.some.injEq] at h
          exact hnotdelay _ _ _ h
        · exact hup _ _ _ _
      · exact hup _ _ _ _

/-- C18, the code at the failing input.  For the managed interface
`managedENI`, `available` in the record and in the cloud one minute after its
creation, the attach succeeds and no status change fires: `start` returns a
delay event of `ENIReadyTimeToAttach`, which is one second; `handleENIUpdate`
then looks the object up, finds the status unchanged and returns nil, not the
delay event. -/
theorem handleENIUpdate_drops_delay :
    (start exampleWorld managedENI).err =
      some (SyncError.delay "eni-1" ENIReadyTimeToAttach
        "eni eni-1 status is not final: available") ∧
    ENIReadyTimeToAttach = 1000000000 ∧
    handleENIUpdate exampleWorld managedENI =
      { calls := [EniCall.statENI "eni-1", EniCall.AttachENI "i-1" "eni-1",
          EniCall.listerGet "eni-1"],
        err := none } := by
  decide

/-- The loop of `Update`, unrolled. -/
theorem Update_unrolled (w : Nat → EniWorld) (resource : ENI) :
    Update w resource =
      if retryable (w 0) (handleENIUpdate (w 0) resource) = true then
        match (w 1).clientGet resource.Name with
        | .error e =>
          { events := [UpdateEvent.attempt 0 resource (handleENIUpdate (w 0) resource),
              UpdateEvent.refetch 1 resource.Name],
            err := some (SyncError.api e) }
        | .ok r1 =>
          if retryable (w 1) (handleENIUpdate (w 1) r1) = true then
            match (w 2).clientGet r1.Name with
            | .error e =>
              { events := [UpdateEvent.attempt 0 resource (handleENIUpdate (w 0) resource),
                  UpdateEvent.refetch 1 resource.Name,
                  UpdateEvent.attempt 1 r1 (handleENIUpdate (w 1) r1),
                  UpdateEvent.refetch 2 r1.Name],
                err := some (SyncError.api e) }
            | .ok r2 =>
              { events := [UpdateEvent.attempt 0 resource (handleENIUpdate (w 0) resource),
                  UpdateEvent.refetch 1 resource.Name,
                  UpdateEvent.attempt 1 r1 (handleENIUpdate (w 1) r1),
                  UpdateEvent.refetch 2 r1.Name,
                  UpdateEvent.attempt 2 r2 (handleENIUpdate (w 2) r2)],
                err := if retryable (w 2) (handleENIUpdate (w 2) r2) = true then none
                  else (handleENIUpdate (w 2) r2).err }
          else
            { events := [UpdateEvent.attempt 0 resource (handleENIUpdate (w 0) resource),
                UpdateEvent.refetch 1 resource.Name,
                UpdateEvent.attempt 1 r1 (handleENIUpdate (w 1) r1)],
              err := (handleENIUpdate (w 1) r1).err }
      else
        { events := [UpdateEvent.attempt 0 resource (handleENIUpdate (w 0) resource)],
          err := (handleENIUpdate (w 0) resource).err } := by
  unfold Update
  simp only [updateLoop, retryable]
  by_cases h0 : isConflict (w 0) (handleENIUpdate (w 0) resource).err = true ∨
      isResourceExpired (w 0) (handleENIUpdate (w 0) resource).err = true
  · cases hg1 : (w 1).clientGet resource.Name with
    | error e => simp [h0, hg1]
    | ok r1 =>
      by_cases h1 : isConflict (w 1) (handleENIUpdate (w 1) r1).err = true ∨
          isResourceExpired (w 1) (handleENIUpdate (w 1) r1).err = true
      · cases hg2 : (w 2).clientGet r1.Name with
        | error e => simp [h0, hg1, h1, hg2]
        | ok r2 =>
          by_cases h2 : isConflict (w 2) (handleENIUpdate (w 2) r2).err = true ∨
              isResourceExpired (w 2) (handleENIUpdate (w 2) r2).err = true
          · simp [h0, hg1, h1, hg2, h2]
          · simp [h0, hg1, h1, hg2, h2]
      · simp [h0, hg1, h1]
  · simp [h0]

theorem retryable_err_ne_none (w : EniWorld) (r : HandleResult) (h : retryable w r = true) :
    r.err ≠ none := by
  intro hnone
  unfold retryable isConflict isResourceExpired at h
  rw [hnone] at h
  simp at h

/-- C19 as amended: `Update` calls `handleENIUpdate` at most 3 times; every
attempt after the first follows an attempt that ended in a conflict or
resource-expired error and a successful re-fetch of the resource, on which it
runs.  The result of an attempt that is neither a conflict nor a
resource-expired error is returned as it is.  `Update` returns nil only if an
attempt returned nil or if all three attempts ended in a conflict or
resource-expired error, which is then dropped. -/
theorem Update_bounded_retry (w : Nat → EniWorld) (resource : ENI) :
    ((Update w resource).events.filter isAttempt).length ≤ 3 ∧
    (∀ k r h, UpdateEvent.attempt k r h ∈ (Update w resource).events →
      k < 3 ∧ h = handleENIUpdate (w k) r) ∧
    (∀ k r h, UpdateEvent.attempt (k + 1) r h ∈ (Update w resource).events →
      ∃ r0, UpdateEvent.attempt k r0 (handleENIUpdate (w k) r0) ∈ (Update w resource).events ∧
        retryable (w k) (handleENIUpdate (w k) r0) = true ∧
        UpdateEvent.refetch (k + 1) r0.Name ∈ (Update w resource).events ∧
        (w (k + 1)).clientGet r0.Name = Except.ok r) ∧
    (∀ k r h, UpdateEvent.attempt k r h ∈ (Update w resource).events →
      retryable (w k) h = false → (Update w resource).err = h.err) ∧
    ((Update w resource).err = none →
      (∃ k r h, UpdateEvent.attempt k r h ∈ (Update w resource).events ∧ h.err = none) ∨
      (∃ r0 r1 r2,
        UpdateEvent.attempt 0 r0 (handleENIUpdate (w 0) r0) ∈ (Update w resource).events ∧
        UpdateEvent.attempt 1 r1 (handleENIUpdate (w 1) r1) ∈ (Update w resource).events ∧
        UpdateEvent.attempt 2 r2 (handleENIUpdate (w 2) r2) ∈ (Update w resource).events ∧
        retryable (w 0) (handleENIUpdate (w 0) r0) = true ∧
        retryable (w 1) (handleENIUpdate (w 1) r1) = true ∧
        retryable (w 2) (handleENIUpdate (w 2) r2) = true)) := by
  rw [Update_unrolled]
  by_cases h0 : retryable (w 0) (handleENIUpdate (w 0) resource) = true
  · simp only [h0, if_true]
    cases hg1 : (w 1).clientGet resource.Name with
    | error e =>
      simp only
      refine ⟨by simp [isAttempt, List.filter], ?_, ?_, ?_, ?_⟩
      · intro k r h hm
        simp at hm
        obtain ⟨rfl, rfl, rfl⟩ := hm
        exact ⟨by omega, rfl⟩
      · intro k r h hm
        simp at hm
      · intro k r h hm hr
        simp at hm
        obtain ⟨rfl, rfl, rfl⟩ := hm
        rw [h0] at hr
        simp at hr
      · intro h
        simp at h
    | ok r1 =>
      simp only
      by_cases h1 : retryable (w 1) (handleENIUpdate (w 1) r1) = true
      · simp only [h1, if_true]
        cases hg2 : (w 2).clientGet r1.Name with
        | error e =>
          simp only
          refine ⟨by simp [isAttempt, List.filter], ?_, ?_, ?_, ?_⟩
          · intro k r h hm
            simp at hm
            rcases hm with ⟨rfl, rfl, rfl⟩ | ⟨rfl, rfl, rfl⟩
            · exact ⟨by omega, rfl⟩
            · exact ⟨by omega, rfl⟩
          · intro k r h hm
            simp at hm
            obtain ⟨rfl, rfl, rfl⟩ := hm
            exact ⟨resource, by simp, h0, by simp, hg1⟩
          · intro k r h hm hr
            simp at hm
            rcases hm with ⟨rfl, rfl, rfl⟩ | ⟨rfl, rfl, rfl⟩
            · rw [h0] at hr
              simp at hr
            · rw [h1] at hr
              simp at hr
          · intro h
            simp at h
        | ok r2 =>
          simp only
          refine ⟨by simp [isAttempt, List.filter], ?_, ?_, ?_, ?_⟩
          · intro k r h hm
            simp at hm
            rcases hm with ⟨rfl, rfl, rfl⟩ | ⟨rfl, rfl, rfl⟩ | ⟨rfl, rfl, rfl⟩
            · exact ⟨by omega, rfl⟩
            · exact ⟨by omega, rfl⟩
            · exact ⟨by omega, rfl⟩
          · intro k r h hm
            simp at hm
            rcases hm with ⟨rfl, rfl, rfl⟩ | ⟨rfl, rfl, rfl⟩
            · exact ⟨resource, by simp, h0, by simp, hg1⟩
            · exact ⟨r1, by simp, h1, by simp, hg2⟩
          · intro k r h hm hr
            simp at hm
            rcases hm with ⟨rfl, rfl, rfl⟩ | ⟨rfl, rfl, rfl⟩ | ⟨rfl, rfl, rfl⟩
            · rw [h0] at hr
              simp at hr
            · rw [h1] at hr
              simp at hr
            · simp [hr]
          · intro h
            by_cases h2 : retryable (w 2) (handleENIUpdate (w 2) r2) = true
            · right
              exact ⟨resource, r1, r2, by simp, by simp, by simp, h0, h1, h2⟩
            · left
              simp only [h2, if_false] at h
              exact ⟨2, r2, handleENIUpdate (w 2) r2, by simp, h⟩
      · simp only [h1, if_false]
        refine ⟨by simp [isAttempt, List.filter], ?_, ?_, ?_, ?_⟩
        · intro k r h hm
          simp at hm
          rcases hm with ⟨rfl, rfl, rfl⟩ | ⟨rfl, rfl, rfl⟩
          · exact ⟨by omega, rfl⟩
          · exact ⟨by omega, rfl⟩
        · intro k r h hm
          simp at hm
          obtain ⟨rfl, rfl, rfl⟩ := hm
          exact ⟨resource, by simp, h0, by simp, hg1⟩
        · intro k r h hm hr
          simp at hm
          rcases hm with ⟨rfl, rfl, rfl⟩ | ⟨rfl, rfl, rfl⟩
          · rw [h0] at hr
            simp at hr
          · rfl
        · intro h
          left
          exact ⟨1, r1, handleENIUpdate (w 1) r1, by simp, h⟩
  · simp only [h0, if_false]
    refine ⟨by simp [isAttempt, List.filter], ?_, ?_, ?_, ?_⟩
    · intro k r h hm
      simp at hm
      obtain ⟨rfl, rfl, rfl⟩ := hm
      exact ⟨by omega, rfl⟩
    · intro k r h hm
      simp at hm
    · intro k r h hm hr
      simp at hm
      obtain ⟨rfl, rfl, rfl⟩ := hm
      rfl
    · intro h
      left
      exact ⟨0, resource, handleENIUpdate (w 0) resource, by simp, h⟩

/-- Counterexample to C19 as stated: in `conflictWorld` each of the three
attempts on `deletingENI` ends in a conflict (the write that removes the
finalizer is refused), and `Update` returns nil although no attempt did. -/
theorem Update_conflict_counterexample :
    (handleENIUpdate conflictWorld deletingENI).err = some (SyncError.api "Conflict") ∧
    isConflict conflictWorld (handleENIUpdate conflictWorld deletingENI).err = true ∧
    ((Update (fun _ => conflictWorld) deletingENI).events.filter isAttempt).length = 3 ∧
    (∀ k r h, UpdateEvent.attempt k r h ∈ (Update (fun _ => conflictWorld) deletingENI).events →
      h.err = some (SyncError.api "Conflict")) ∧
    (Update (fun _ => conflictWorld) deletingENI).err = none := by
  refine ⟨by decide, by decide, by decide, ?_, by decide⟩
  intro k r h hm
  have hev : (Update (fun _ => conflictWorld) deletingENI).events =
      [UpdateEvent.attempt 0 deletingENI (handleENIUpdate conflictWorld deletingENI),
        UpdateEvent.refetch 1 "eni-1",
        UpdateEvent.attempt 1 deletingENI (handleENIUpdate conflictWorld deletingENI),
        UpdateEvent.refetch 2 "eni-1",
        UpdateEvent.attempt 2 deletingENI (handleENIUpdate conflictWorld deletingENI)] := by
    decide
  rw [hev] at hm
  simp at hm
  rcases hm with ⟨_, _, rfl⟩ | ⟨_, _, rfl⟩ | ⟨_, _, rfl⟩ <;> decide

/-- Witness for C19 as amended: in a world without conflict one attempt is made
and its result, nil, is returned. -/
theorem Update_bounded_retry_witness :
    ((Update (fun _ => exampleWorld) managedENI).events.filter isAttempt).length ≤ 3 ∧
    (Update (fun _ => exampleWorld) managedENI).err
      = (handleENIUpdate exampleWorld managedENI).err :=
  ⟨(Update_bounded_retry (fun _ => exampleWorld) managedENI).1,
    (Update_bounded_retry (fun _ => exampleWorld) managedENI).2.2.2.1 0 managedENI
      (handleENIUpdate exampleWorld managedENI) (by decide) (by decide)⟩

end Bcesync

namespace Ipam

/-! ## Theorems: a release followed by the deficit computation -/

/-- Claim C28 as stated fails: with 5 addresses all in use and a pre-allocation
of 2 nothing is excess and the deficit is 2; and with 25 addresses, none in use,
a pre-allocation of 8 and a minimum of 20, the excess is 17 and after its
release the deficit is 12. -/
theorem release_then_deficit_counterexample :
    calculateExcessIPs 5 5 2 0 0 0 = 0 ∧
    calculateNeededIPs (5 - calculateExcessIPs 5 5 2 0 0 0) 5 2 0 0 0 = 2 ∧
    calculateExcessIPs 25 0 8 20 0 0 = 17 ∧
    calculateNeededIPs (25 - calculateExcessIPs 25 0 8 20 0 0) 0 8 20 0 0 = 12 := by
  decide

/-- Claim C28, amended: in non-burstable mode with no `maxAllocate` cap, when
the computed excess `e` is positive and `minAllocate` is at most
`used + preAllocate + maxAboveWatermark`, the deficit computed on
`available - e` with unchanged usage is 0. -/
theorem release_never_creates_deficit
    (available used preAllocate minAllocate maxAboveWatermark : Int)
    (_havail : 0 ≤ available) (_hused : 0 ≤ used) (_hpre : 0 ≤ preAllocate)
    (_hmin : 0 ≤ minAllocate) (hmaw : 0 ≤ maxAboveWatermark) (_hle : used ≤ available)
    (hrel : 0 < calculateExcessIPs available used preAllocate minAllocate maxAboveWatermark 0)
    (hfloor : minAllocate ≤ used + preAllocate + maxAboveWatermark) :
    calculateNeededIPs
      (available - calculateExcessIPs available used preAllocate minAllocate maxAboveWatermark 0)
      used preAllocate minAllocate 0 0 = 0 := by
  have he : calculateExcessIPs available used preAllocate minAllocate maxAboveWatermark 0
      = available - used - preAllocate - maxAboveWatermark := by
    unfold calculateExcessIPs at hrel ⊢
    simp only [gt_iff_lt, lt_self_iff_false, if_false] at hrel ⊢
    by_cases hc : used ≤ minAllocate + maxAboveWatermark ∧
        available ≤ minAllocate + maxAboveWatermark
    · rw [if_pos hc] at hrel
      exact absurd hrel (lt_irrefl 0)
    · rw [if_neg hc] at hrel ⊢
      by_cases hneg : available - used - preAllocate - maxAboveWatermark < 0
      · simp only [hneg, if_true] at hrel
        exact absurd hrel (lt_irrefl 0)
      · simp only [hneg, if_false]
  rw [he]
  unfold calculateNeededIPs IntMax
  simp only [gt_iff_lt, lt_self_iff_false, and_false, false_and, if_false]
  by_cases hm : 0 < minAllocate
  · simp only [hm, if_true]
    split_ifs <;> omega
  · simp only [hm, if_false]
    split_ifs <;> omega

/-- A release of 6 excess addresses out of 10, with 2 in use and a
pre-allocation of 2, leaves no deficit. -/
theorem release_never_creates_deficit_witness :
    0 < calculateExcessIPs 10 2 2 0 0 0 ∧
    calculateNeededIPs (10 - calculateExcessIPs 10 2 2 0 0 0) 2 2 0 0 0 = 0 :=
  ⟨by decide,
   release_never_creates_deficit 10 2 2 0 0 (by decide) (by decide) (by decide) (by decide)
     (by decide) (by decide) (by decide) (by decide)⟩

end Ipam

namespace Bcesync

open Ipam

/-! ## Theorems: the election of the IPv6 primary address -/

/-- Claim C21 fails on the code: on `staleAnnotationENI`, whose two IPv6
addresses are not marked primary and whose annotation names the second one,
`ElectENIIPv6PrimaryIP` marks both addresses primary and moves the annotation to
the first one. -/
theorem ElectENIIPv6PrimaryIP_two_primaries :
    staleAnnotationENI.Spec.ENI.IPV6PrivateIPSet.length = 2 ∧
    countPrimary staleAnnotationENI.Spec.ENI.IPV6PrivateIPSet = 0 ∧
    countPrimary (ElectENIIPv6PrimaryIP staleAnnotationENI).Spec.ENI.IPV6PrivateIPSet = 2 ∧
    ((ElectENIIPv6PrimaryIP staleAnnotationENI).Annotations.bind
      (fun m => mapGet m AnnotationENIIPv6PrimaryIP)) = some "fd00::1" := by
  decide

end Bcesync

namespace Limit

open Ipam

/-! ## Theorems: node capacity -/

/-- The table of `GetMaxENIPerNode` is the one of the specification. -/
theorem GetMaxENIPerNode_eq_spec (cpuCount : Int) :
    GetMaxENIPerNode cpuCount = maxENIPerNodeSpec cpuCount := by
  unfold GetMaxENIPerNode maxENIPerNodeSpec
  split_ifs <;> omega

/-- The table of `GetMaxIPPerENI` is the one of the specification. -/
theorem GetMaxIPPerENI_eq_spec (memoryGB : Int) :
    GetMaxIPPerENI memoryGB = maxIPPerENISpec memoryGB := by
  unfold GetMaxIPPerENI maxIPPerENISpec
  split_ifs <;> omega

/-- Bounds of the two tables. -/
theorem GetMaxIPPerENI_bounds (memoryGB : Int) :
    0 ≤ GetMaxIPPerENI memoryGB ∧ GetMaxIPPerENI memoryGB ≤ 40 := by
  unfold GetMaxIPPerENI
  split_ifs <;> omega

/-- With memory the per-ENI limit of the table is at least 2. -/
theorem GetMaxIPPerENI_pos (memoryGB : Int) (h : 0 < memoryGB) :
    2 ≤ GetMaxIPPerENI memoryGB := by
  unfold GetMaxIPPerENI
  split_ifs <;> omega

/-- The per-node limit of the table lies between 0 and 8. -/
theorem GetMaxENIPerNode_bounds (cpuCount : Int) :
    0 ≤ GetMaxENIPerNode cpuCount ∧ GetMaxENIPerNode cpuCount ≤ 8 := by
  unfold GetMaxENIPerNode
  split_ifs <;> omega

/-- Claim C22: `bccIPResourceManager.CalaculateCapacity` yields `MaxENINum` =
the override `BCECustomerMaxENI` if it is non-zero, else the CPU table
(`cpuCount` below 8, 8 from 8 on, 0 without CPU); `MaxIPPerENI` = the override
`BCECustomerMaxIP` if non-zero, else the memory table (2, 8, 16, 30, 40 by
range, 0 without memory); `CustomerENIResource = MaxENINum`; and
`CustomerIPResource = (MaxIPPerENI - 1) * MaxENINum`. -/
theorem CalaculateCapacity_bcc (config : OperatorConfig) (manager : bccIPResourceManager) :
    (manager.CalaculateCapacity config).MaxENINum =
      (if config.BCECustomerMaxENI ≠ 0 then config.BCECustomerMaxENI
       else maxENIPerNodeSpec manager.cpuCount) ∧
    (manager.CalaculateCapacity config).MaxIPPerENI =
      (if config.BCECustomerMaxIP ≠ 0 then config.BCECustomerMaxIP
       else maxIPPerENISpec manager.memoryCapacityInGB) ∧
    (manager.CalaculateCapacity config).CustomerENIResource =
      (manager.CalaculateCapacity config).MaxENINum ∧
    (manager.CalaculateCapacity config).CustomerIPResource =
      ((manager.CalaculateCapacity config).MaxIPPerENI - 1) *
        (manager.CalaculateCapacity config).MaxENINum := by
  refine ⟨?_, ?_, rfl, rfl⟩
  · show (if config.BCECustomerMaxENI ≠ 0 then config.BCECustomerMaxENI
        else GetMaxENIPerNode manager.cpuCount) = _
    rw [GetMaxENIPerNode_eq_spec]
  · show (if config.BCECustomerMaxIP ≠ 0 then config.BCECustomerMaxIP
        else GetMaxIPPerENI manager.memoryCapacityInGB) = _
    rw [GetMaxIPPerENI_eq_spec]

/-- When the overrides are between 0 and `2 ^ 31` the 64-bit computation of the
capacity does not wrap around. -/
theorem CalaculateCapacity64_eq (config : OperatorConfig) (manager : bccIPResourceManager)
    (heni : 0 ≤ config.BCECustomerMaxENI ∧ config.BCECustomerMaxENI ≤ 2147483648)
    (hip : 0 ≤ config.BCECustomerMaxIP ∧ config.BCECustomerMaxIP ≤ 2147483648) :
    manager.CalaculateCapacity64 config = manager.CalaculateCapacity config := by
  have hb1 := GetMaxIPPerENI_bounds manager.memoryCapacityInGB
  have hb2 := GetMaxENIPerNode_bounds manager.cpuCount
  unfold bccIPResourceManager.CalaculateCapacity64 bccIPResourceManager.CalaculateCapacity
  simp only
  generalize hx : (if config.BCECustomerMaxIP ≠ 0 then config.BCECustomerMaxIP
    else GetMaxIPPerENI manager.memoryCapacityInGB) = x
  generalize hy : (if config.BCECustomerMaxENI ≠ 0 then config.BCECustomerMaxENI
    else GetMaxENIPerNode manager.cpuCount) = y
  have hxb : 0 ≤ x ∧ x ≤ 2147483648 := by
    rw [← hx]; split_ifs <;> omega
  have hyb : 0 ≤ y ∧ y ≤ 2147483648 := by
    rw [← hy]; split_ifs <;> omega
  have h1 : wrap64 (x - 1) = x - 1 := by
    unfold wrap64; omega
  have hprod1 : (x - 1) * y ≤ 2147483648 * 2147483648 := by
    have hx1 : x - 1 ≤ 2147483648 := by omega
    calc (x - 1) * y ≤ 2147483648 * y := by
          exact mul_le_mul_of_nonneg_right hx1 hyb.1
      _ ≤ 2147483648 * 2147483648 := by
          exact mul_le_mul_of_nonneg_left hyb.2 (by norm_num)
  have hprod2 : -2147483648 ≤ (x - 1) * y := by
    by_cases hx0 : x = 0
    · subst hx0
      have : (0 - 1 : Int) * y = -y := by ring
      rw [this]; omega
    · have hx1 : 0 ≤ x - 1 := by omega
      have := mul_nonneg hx1 hyb.1
      omega
  have h2 : wrap64 ((x - 1) * y) = (x - 1) * y := by
    unfold wrap64
    generalize (x - 1) * y = z at hprod1 hprod2
    omega
  rw [h1, h2]

/-- Claim C29 as stated fails: with 4 CPUs, 0 GB of memory and no override the
published IP capacity is `-4`, and the RDMA capacity of a non-HPC interface with
0 GB of memory and no override is `-1`. -/
theorem CalaculateCapacity_negative_counterexample :
    (noMemoryManager.CalaculateCapacity noOverride).CustomerIPResource = -4 ∧
    (noMemoryRdmaManager.CalaculateCapacity noOverride).CustomerRdmaIPResource = -1 := by
  decide

/-- The sign of the product `(maxIPPerENI - 1) * maxENINum` for two limits that
are not negative. -/
theorem product_nonneg_iff (x y : Int) (hx : 0 ≤ x) (hy : 0 ≤ y) :
    0 ≤ (x - 1) * y ↔ ¬ (x = 0 ∧ 0 < y) := by
  constructor
  · rintro h ⟨hx0, hy0⟩
    subst hx0
    have : (0 - 1 : Int) * y = -y := by ring
    rw [this] at h
    omega
  · intro h
    by_cases hx0 : x = 0
    · have hy0 : y = 0 := by
        by_contra hne
        exact h ⟨hx0, by omega⟩
      rw [hy0]
      simp
    · exact mul_nonneg (by omega) hy

/-- Without override the per-ENI limit is 0 exactly when the memory size is not
positive. -/
theorem GetMaxIPPerENI_eq_zero_iff (memoryGB : Int) :
    GetMaxIPPerENI memoryGB = 0 ↔ memoryGB ≤ 0 := by
  unfold GetMaxIPPerENI
  split_ifs <;> omega

/-- Without override the per-node limit is positive exactly when the CPU count
is. -/
theorem GetMaxENIPerNode_pos_iff (cpuCount : Int) :
    0 < GetMaxENIPerNode cpuCount ↔ 0 < cpuCount := by
  unfold GetMaxENIPerNode
  split_ifs <;> omega

/-- Claim C29, amended: for every CPU count, every memory size (0 included)
and every non-negative override, `CustomerENIResource ≥ 0`;
`CustomerIPResource ≥ 0` except exactly when the memory size is not positive,
`BCECustomerMaxIP` is not set and the ENI limit is positive (a positive CPU
count or a positive `BCECustomerMaxENI`); and `CustomerRdmaIPResource ≥ 0`
except exactly when the interface type is not HPC, the memory size is not
positive and `BCECustomerMaxIP` is not set. -/
theorem CalaculateCapacity_nonneg (config : OperatorConfig) (manager : bccIPResourceManager)
    (rdma : rdmaIPResourceManager)
    (heni : 0 ≤ config.BCECustomerMaxENI) (hip : 0 ≤ config.BCECustomerMaxIP)
    (hrdma : 0 ≤ config.BCECustomerMaxRdmaIP) :
    0 ≤ (manager.CalaculateCapacity config).CustomerENIResource ∧
    (0 ≤ (manager.CalaculateCapacity config).CustomerIPResource ↔
      ¬ (manager.memoryCapacityInGB ≤ 0 ∧ config.BCECustomerMaxIP = 0 ∧
          (0 < manager.cpuCount ∨ 0 < config.BCECustomerMaxENI))) ∧
    (0 ≤ (rdma.CalaculateCapacity config).CustomerRdmaIPResource ↔
      ¬ (rdma.vifFeatures ≠ Bcesync.ENIForHPC ∧ rdma.memoryCapacityInGB ≤ 0 ∧
          config.BCECustomerMaxIP = 0)) := by
  have hb2 := GetMaxENIPerNode_bounds manager.cpuCount
  have hb1 := GetMaxIPPerENI_bounds manager.memoryCapacityInGB
  have hb3 := GetMaxIPPerENI_bounds rdma.memoryCapacityInGB
  have hz1 := GetMaxIPPerENI_eq_zero_iff manager.memoryCapacityInGB
  have hz3 := GetMaxIPPerENI_eq_zero_iff rdma.memoryCapacityInGB
  have hp2 := GetMaxENIPerNode_pos_iff manager.cpuCount
  have hy : 0 ≤ (if config.BCECustomerMaxENI ≠ 0 then config.BCECustomerMaxENI
      else GetMaxENIPerNode manager.cpuCount) := by
    split_ifs <;> omega
  have hx : 0 ≤ (if config.BCECustomerMaxIP ≠ 0 then config.BCECustomerMaxIP
      else GetMaxIPPerENI manager.memoryCapacityInGB) := by
    split_ifs <;> omega
  have hx0 : (if config.BCECustomerMaxIP ≠ 0 then config.BCECustomerMaxIP
      else GetMaxIPPerENI manager.memoryCapacityInGB) = 0 ↔
      (manager.memoryCapacityInGB ≤ 0 ∧ config.BCECustomerMaxIP = 0) := by
    by_cases h0 : config.BCECustomerMaxIP = 0
    · simp only [h0, ne_eq, not_true_eq_false, if_false, and_true]
      exact hz1
    · simp only [ne_eq, h0, not_false_eq_true, if_true, and_false]
  have hy0 : 0 < (if config.BCECustomerMaxENI ≠ 0 then config.BCECustomerMaxENI
      else GetMaxENIPerNode manager.cpuCount) ↔
      (0 < manager.cpuCount ∨ 0 < config.BCECustomerMaxENI) := by
    by_cases h0 : config.BCECustomerMaxENI = 0
    · simp only [h0, ne_eq, not_true_eq_false, if_false, lt_self_iff_false, or_false]
      exact hp2
    · simp only [ne_eq, h0, not_false_eq_true, if_true]
      constructor
      · intro h
        exact Or.inr h
      · intro _
        omega
  refine ⟨hy, ?_, ?_⟩
  · show 0 ≤ ((if config.BCECustomerMaxIP ≠ 0 then config.BCECustomerMaxIP
        else GetMaxIPPerENI manager.memoryCapacityInGB) - 1) *
        (if config.BCECustomerMaxENI ≠ 0 then config.BCECustomerMaxENI
          else GetMaxENIPerNode manager.cpuCount) ↔ _
    rw [product_nonneg_iff _ _ hx hy, hx0, hy0, and_assoc]
  · unfold rdmaIPResourceManager.CalaculateCapacity
    by_cases hv : rdma.vifFeatures = Bcesync.ENIForHPC
    · rw [if_pos hv]
      have hpos : 0 ≤ (if config.BCECustomerMaxRdmaIP ≠ 0 then config.BCECustomerMaxRdmaIP
          else 13) := by
        split_ifs <;> omega
      constructor
      · rintro _ ⟨hne, _⟩
        exact hne hv
      · intro _
        exact hpos
    · rw [if_neg hv]
      show 0 ≤ (if config.BCECustomerMaxIP ≠ 0 then config.BCECustomerMaxIP
        else GetMaxIPPerENI rdma.memoryCapacityInGB) - 1 ↔ _
      by_cases h0 : config.BCECustomerMaxIP = 0
      · simp only [h0, ne_eq, not_true_eq_false, if_false, hv, not_false_eq_true, true_and,
          and_true]
        constructor
        · intro h hm
          have := hz3.mpr hm
          omega
        · intro h
          have hm : 0 < rdma.memoryCapacityInGB := by omega
          have := GetMaxIPPerENI_pos _ hm
          omega
      · simp only [ne_eq, h0, not_false_eq_true, if_true, and_false]
        constructor <;> intro _ <;> first | omega | trivial

/-- Without CPU and without memory the ENI and IP capacities are 0, and the
RDMA capacity of an HPC interface without memory is 13: none is negative. -/
theorem CalaculateCapacity_nonneg_witness :
    0 ≤ (emptyManager.CalaculateCapacity noOverride).CustomerENIResource ∧
    0 ≤ (emptyManager.CalaculateCapacity noOverride).CustomerIPResource ∧
    0 ≤ (hpcRdmaManager.CalaculateCapacity noOverride).CustomerRdmaIPResource :=
  ⟨(CalaculateCapacity_nonneg noOverride emptyManager hpcRdmaManager (by decide) (by decide)
      (by decide)).1,
   (CalaculateCapacity_nonneg noOverride emptyManager hpcRdmaManager (by decide) (by decide)
      (by decide)).2.1.mpr (by decide),
   (CalaculateCapacity_nonneg noOverride emptyManager hpcRdmaManager (by decide) (by decide)
      (by decide)).2.2.mpr (by decide)⟩

end Limit

namespace Cloud

open Ipam

/-! ## Theorems: the rate-limited client -/

/-- The three runs of the shared body of the wrapper methods: `Wait` succeeds,
`Wait` fails, rate limiting is disabled. -/
theorem limited_runs (fc : flowControlClient) (name : String) (zero : Ret) (m : Method) :
    (fc.EnableAPIRateLimit = true → fc.Wait name = none →
      (limited fc name zero m).ret = (fc.client m).1 ∧
      (limited fc name zero m).err = (fc.client m).2 ∧
      (limited fc name zero m).events =
        [Event.Wait name, Event.Call m,
          match (fc.client m).2 with
          | some err => Event.Error err
          | none => Event.Done]) ∧
    (fc.EnableAPIRateLimit = true → ∀ err, fc.Wait name = some err →
      (limited fc name zero m).err = some err ∧
      (limited fc name zero m).events = [Event.Wait name]) ∧
    (fc.EnableAPIRateLimit = false →
      (limited fc name zero m).ret = (fc.client m).1 ∧
      (limited fc name zero m).err = (fc.client m).2 ∧
      (limited fc name zero m).events = [Event.Call m]) := by
  refine ⟨?_, ?_, ?_⟩
  · intro hen hwait
    unfold limited
    rw [if_pos hen, hwait]
    rcases hc : fc.client m with ⟨ret, _ | err⟩ <;> simp
  · intro hen err hwait
    unfold limited
    rw [if_pos hen, hwait]
    exact ⟨rfl, rfl⟩
  · intro hdis
    unfold limited
    simp [hdis]

/-- With rate limiting enabled the shared body calls `limiter.Wait` first and
never again. -/
theorem limited_waits_once (fc : flowControlClient) (name : String) (zero : Ret) (m : Method)
    (hen : fc.EnableAPIRateLimit = true) :
    ∃ rest, (limited fc name zero m).events = Event.Wait name :: rest ∧ waitNames rest = [] := by
  unfold limited
  rw [if_pos hen]
  rcases hw : fc.Wait name with _ | err
  · rcases hc : fc.client m with ⟨ret, _ | err⟩
    · exact ⟨_, rfl, rfl⟩
    · exact ⟨_, rfl, rfl⟩
  · exact ⟨_, rfl, rfl⟩

/-- Claim C23: for every rate-limited wrapper method (every method but
`HPASWrapper`) there is an operation name such that: with rate limiting enabled
and a successful `Wait` the trace is `Wait`, the underlying call, then exactly
one of `Done()` and `Error(err)`, `Error` exactly when the underlying call
returned an error, and the underlying result is returned unchanged; when `Wait`
fails the trace is `Wait` alone and the error of `Wait` is returned; with rate
limiting disabled the trace is the underlying call alone and its result is
returned unchanged. -/
theorem limiter_handle_discipline (fc : flowControlClient) (m : Method)
    (hm : m ≠ Method.HPASWrapper) :
    ∃ name,
      (fc.EnableAPIRateLimit = true → fc.Wait name = none →
        (fc.invoke m).ret = (fc.client m).1 ∧
        (fc.invoke m).err = (fc.client m).2 ∧
        (fc.invoke m).events =
          [Event.Wait name, Event.Call m,
            match (fc.client m).2 with
            | some err => Event.Error err
            | none => Event.Done]) ∧
      (fc.EnableAPIRateLimit = true → ∀ err, fc.Wait name = some err →
        (fc.invoke m).err = some err ∧
        (fc.invoke m).events = [Event.Wait name]) ∧
      (fc.EnableAPIRateLimit = false →
        (fc.invoke m).ret = (fc.client m).1 ∧
        (fc.invoke m).err = (fc.client m).2 ∧
        (fc.invoke m).events = [Event.Call m]) := by
  cases m <;> first
    | exact absurd rfl hm
    | exact ⟨_, limited_runs fc _ _ _⟩

/-- On `failingCloudClient` the wrapper `DeleteENI` waits, forwards the call,
reports the error on the handle and returns it. -/
theorem limiter_handle_discipline_witness :
    ∃ name,
      (failingCloudClient.EnableAPIRateLimit = true → failingCloudClient.Wait name = none →
        (failingCloudClient.invoke Method.DeleteENI).ret =
          (failingCloudClient.client Method.DeleteENI).1 ∧
        (failingCloudClient.invoke Method.DeleteENI).err =
          (failingCloudClient.client Method.DeleteENI).2 ∧
        (failingCloudClient.invoke Method.DeleteENI).events =
          [Event.Wait name, Event.Call Method.DeleteENI,
            match (failingCloudClient.client Method.DeleteENI).2 with
            | some err => Event.Error err
            | none => Event.Done]) ∧
      (failingCloudClient.EnableAPIRateLimit = true → ∀ err,
        failingCloudClient.Wait name = some err →
        (failingCloudClient.invoke Method.DeleteENI).err = some err ∧
        (failingCloudClient.invoke Method.DeleteENI).events = [Event.Wait name]) ∧
      (failingCloudClient.EnableAPIRateLimit = false →
        (failingCloudClient.invoke Method.DeleteENI).ret =
          (failingCloudClient.client Method.DeleteENI).1 ∧
        (failingCloudClient.invoke Method.DeleteENI).err =
          (failingCloudClient.client Method.DeleteENI).2 ∧
        (failingCloudClient.invoke Method.DeleteENI).events = [Event.Call Method.DeleteENI]) :=
  limiter_handle_discipline failingCloudClient Method.DeleteENI (by decide)

/-- C24, the code at the failing input.  With rate limiting enabled
`BindENIPublicIP` waits on the name of `UnBindENIPublicIP`, which is another
name than its own constant `BindENIPublicIP`; besides, `GetENIQuota` waits on
the name of `StatENI`, and `HPASWrapper` forwards without calling
`limiter.Wait`. -/
theorem wait_name_divergence :
    ownName Method.BindENIPublicIP = some BindENIPublicIP ∧
    (limitedClient.invoke Method.BindENIPublicIP).events =
      [Event.Wait UnBindENIPublicIP, Event.Call Method.BindENIPublicIP, Event.Done] ∧
    UnBindENIPublicIP ≠ BindENIPublicIP ∧
    (limitedClient.invoke Method.GetENIQuota).events =
      [Event.Wait StatENI, Event.Call Method.GetENIQuota, Event.Done] ∧
    (limitedClient.invoke Method.HPASWrapper).events = [Event.Call Method.HPASWrapper] := by
  decide

/-- What the wrappers do with rate limiting enabled: every method but
`HPASWrapper` calls `limiter.Wait` first, before forwarding, and never again;
every method other than `BindENIPublicIP`, `GetENIQuota` and `HPASWrapper` waits
on the constant of the operation itself; `GetENIQuota` waits on the name of
`StatENI`; `HPASWrapper` makes the forwarded call alone. -/
theorem wait_own_name (fc : flowControlClient) (m : Method)
    (hen : fc.EnableAPIRateLimit = true) :
    (m ≠ Method.HPASWrapper →
      ∃ name rest, (fc.invoke m).events = Event.Wait name :: rest ∧ waitNames rest = [] ∧
        (m ≠ Method.BindENIPublicIP → m ≠ Method.GetENIQuota → ownName m = some name) ∧
        (m = Method.GetENIQuota → name = StatENI)) ∧
    (m = Method.HPASWrapper → (fc.invoke m).events = [Event.Call Method.HPASWrapper]) := by
  constructor
  · intro hm
    cases m <;> first
      | exact absurd rfl hm
      | (obtain ⟨rest, h1, h2⟩ := limited_waits_once fc _ _ _ hen
         exact ⟨_, rest, h1, h2, fun _ _ => rfl, fun h => by cases h⟩)
      | (obtain ⟨rest, h1, h2⟩ := limited_waits_once fc _ _ _ hen
         exact ⟨_, rest, h1, h2, fun h _ => absurd rfl h, fun h => by cases h⟩)
      | (obtain ⟨rest, h1, h2⟩ := limited_waits_once fc _ _ _ hen
         exact ⟨_, rest, h1, h2, fun _ h => absurd rfl h, fun _ => rfl⟩)
  · intro hm
    subst hm
    rfl

/-- On `limitedClient` the wrapper `DeleteENI` waits once, on the name of
`DeleteENI`. -/
theorem wait_own_name_witness :
    (Method.DeleteENI ≠ Method.HPASWrapper →
      ∃ name rest, (limitedClient.invoke Method.DeleteENI).events = Event.Wait name :: rest ∧
        waitNames rest = [] ∧
        (Method.DeleteENI ≠ Method.BindENIPublicIP → Method.DeleteENI ≠ Method.GetENIQuota →
          ownName Method.DeleteENI = some name) ∧
        (Method.DeleteENI = Method.GetENIQuota → name = StatENI)) ∧
    (Method.DeleteENI = Method.HPASWrapper →
      (limitedClient.invoke Method.DeleteENI).events = [Event.Call Method.HPASWrapper]) :=
  wait_own_name limitedClient Method.DeleteENI rfl

end Cloud

namespace Vpceni

open Ipam

/-! ## Theorems: `__prepareIPAllocation` -/

/-- Claim C26: for every interface, with `v4` IPv4 addresses, `v6` IPv6
addresses and the per-interface limit `L`, the spare capacities computed by
lines 222-241 of `__prepareIPAllocation` are: in dual-stack mode with
`v4 ≠ v6`, 0 for the family that is ahead and, for the one that is behind, a
spare with count + spare = `min L (count of the other)`; with `v4 = v6`,
`max (L - count) 0` for each family; with one family enabled,
`max (L - count) 0` for it and 0 for the other. -/
theorem availableOnENI_balance (enableIPv4 enableIPv6 : Bool) (limit : Int) (e : eniResource) :
    (enableIPv4 = true → enableIPv6 = true →
      (e.ENI.PrivateIPSet.length : Int) < (e.ENI.IPV6PrivateIPSet.length : Int) →
      (availableOnENI enableIPv4 enableIPv6 limit e).2 = 0 ∧
      (e.ENI.PrivateIPSet.length : Int) + (availableOnENI enableIPv4 enableIPv6 limit e).1 =
        min limit (e.ENI.IPV6PrivateIPSet.length : Int)) ∧
    (enableIPv4 = true → enableIPv6 = true →
      (e.ENI.IPV6PrivateIPSet.length : Int) < (e.ENI.PrivateIPSet.length : Int) →
      (availableOnENI enableIPv4 enableIPv6 limit e).1 = 0 ∧
      (e.ENI.IPV6PrivateIPSet.length : Int) + (availableOnENI enableIPv4 enableIPv6 limit e).2 =
        min limit (e.ENI.PrivateIPSet.length : Int)) ∧
    (enableIPv4 = true → enableIPv6 = true →
      (e.ENI.PrivateIPSet.length : Int) = (e.ENI.IPV6PrivateIPSet.length : Int) →
      (availableOnENI enableIPv4 enableIPv6 limit e).1 =
        max (limit - (e.ENI.PrivateIPSet.length : Int)) 0 ∧
      (availableOnENI enableIPv4 enableIPv6 limit e).2 =
        max (limit - (e.ENI.IPV6PrivateIPSet.length : Int)) 0) ∧
    (enableIPv4 = true → enableIPv6 = false →
      (availableOnENI enableIPv4 enableIPv6 limit e).1 =
        max (limit - (e.ENI.PrivateIPSet.length : Int)) 0 ∧
      (availableOnENI enableIPv4 enableIPv6 limit e).2 = 0) ∧
    (enableIPv4 = false → enableIPv6 = true →
      (availableOnENI enableIPv4 enableIPv6 limit e).1 = 0 ∧
      (availableOnENI enableIPv4 enableIPv6 limit e).2 =
        max (limit - (e.ENI.IPV6PrivateIPSet.length : Int)) 0) := by
  unfold availableOnENI
  dsimp only
  generalize (e.ENI.PrivateIPSet.length : Int) = v4
  generalize (e.ENI.IPV6PrivateIPSet.length : Int) = v6
  refine ⟨?_, ?_, ?_, ?_, ?_⟩
  · intro h4 h6 hlt
    subst h4; subst h6
    have h1 : v6 - v4 > 0 := by omega
    simp only [Bool.and_self, if_true, h1, IntMin]
    constructor
    · trivial
    · split_ifs <;> omega
  · intro h4 h6 hlt
    subst h4; subst h6
    have h1 : ¬ (v6 - v4 > 0) := by omega
    have h2 : v6 - v4 < 0 := by omega
    simp only [Bool.and_self, if_true, h1, h2, if_false, IntMin]
    constructor
    · trivial
    · split_ifs <;> omega
  · intro h4 h6 heq
    subst h4; subst h6
    have h1 : ¬ (v6 - v4 > 0) := by omega
    have h2 : ¬ (v6 - v4 < 0) := by omega
    simp only [Bool.and_self, if_true, h1, h2, if_false, IntMax]
    constructor <;> split_ifs <;> omega
  · intro h4 h6
    subst h4; subst h6
    simp only [Bool.and_false, Bool.false_eq_true, if_false, if_true, IntMax]
    constructor
    · split_ifs <;> omega
    · trivial
  · intro h4 h6
    subst h4; subst h6
    simp only [Bool.and_true, Bool.false_eq_true, if_false, if_true, IntMax]
    constructor
    · trivial
    · split_ifs <;> omega

/-- The rule on five interfaces under the limit 8: 3 and 5 addresses, 5 and 3,
4 and 4 in dual-stack mode, then 3 and 5 with IPv4 alone and with IPv6 alone. -/
theorem availableOnENI_balance_witness :
    ((availableOnENI true true 8 (inuseENI 3 5)).2 = 0 ∧
      ((inuseENI 3 5).ENI.PrivateIPSet.length : Int) +
          (availableOnENI true true 8 (inuseENI 3 5)).1 =
        min 8 ((inuseENI 3 5).ENI.IPV6PrivateIPSet.length : Int)) ∧
    ((availableOnENI true true 8 (inuseENI 5 3)).1 = 0 ∧
      ((inuseENI 5 3).ENI.IPV6PrivateIPSet.length : Int) +
          (availableOnENI true true 8 (inuseENI 5 3)).2 =
        min 8 ((inuseENI 5 3).ENI.PrivateIPSet.length : Int)) ∧
    ((availableOnENI true true 8 (inuseENI 4 4)).1 =
        max (8 - ((inuseENI 4 4).ENI.PrivateIPSet.length : Int)) 0 ∧
      (availableOnENI true true 8 (inuseENI 4 4)).2 =
        max (8 - ((inuseENI 4 4).ENI.IPV6PrivateIPSet.length : Int)) 0) ∧
    ((availableOnENI true false 8 (inuseENI 3 5)).1 =
        max (8 - ((inuseENI 3 5).ENI.PrivateIPSet.length : Int)) 0 ∧
      (availableOnENI true false 8 (inuseENI 3 5)).2 = 0) ∧
    ((availableOnENI false true 8 (inuseENI 3 5)).1 = 0 ∧
      (availableOnENI false true 8 (inuseENI 3 5)).2 =
        max (8 - ((inuseENI 3 5).ENI.IPV6PrivateIPSet.length : Int)) 0) :=
  ⟨(availableOnENI_balance true true 8 (inuseENI 3 5)).1 rfl rfl (by decide),
   (availableOnENI_balance true true 8 (inuseENI 5 3)).2.1 rfl rfl (by decide),
   (availableOnENI_balance true true 8 (inuseENI 4 4)).2.2.1 rfl rfl (by decide),
   (availableOnENI_balance true false 8 (inuseENI 3 5)).2.2.2.1 rfl rfl,
   (availableOnENI_balance false true 8 (inuseENI 3 5)).2.2.2.2 rfl rfl⟩

/-- Where the spare capacities of an interface go: when the visit reaches an
in-use interface that is not in primary-IP mode with an action that is not yet
filled, and the two spares are not both 0, then without subnet check the action
takes both spares; with subnet check and a known subnet it takes the IPv6 spare
and, for IPv4, the smaller of the spare and the count of the subnet (the count
borrowed for this interface if positive, else the count left to borrow). -/
theorem visitInterface_spare (n : Node) (eniQuota : ENIQuota) (a : AllocationAction)
    (interfaceID : String) (e : eniResource)
    (hopen : ¬ ((a.AvailableForAllocationIPv4 > 0 ∨ a.AvailableForAllocationIPv6 > 0) ∧
      a.PoolID ≠ "" ∧ a.InterfaceID ≠ ""))
    (hmode : e.UseMode ≠ ENIUseModePrimaryIP) (hinuse : e.VPCStatus = Bcesync.VPCENIStatusInuse)
    (hspare : ¬ ((availableOnENI n.EnableIPv4 n.EnableIPv6 eniQuota.MaxIP e).1 = 0 ∧
      (availableOnENI n.EnableIPv4 n.EnableIPv6 eniQuota.MaxIP e).2 = 0)) :
    visitInterface n eniQuota false a interfaceID (some e) =
      ({ a with
         InterfaceID := interfaceID, PoolID := e.ENI.SubnetID,
         AvailableForAllocationIPv4 :=
           (availableOnENI n.EnableIPv4 n.EnableIPv6 eniQuota.MaxIP e).1,
         AvailableForAllocationIPv6 :=
           (availableOnENI n.EnableIPv4 n.EnableIPv6 eniQuota.MaxIP e).2 }, none) ∧
    (∀ subnet, n.GetSubnet e.ENI.SubnetID = Except.ok subnet →
      (visitInterface n eniQuota true a interfaceID (some e)).2 = none ∧
      (visitInterface n eniQuota true a interfaceID (some e)).1.AvailableForAllocationIPv6 =
        (availableOnENI n.EnableIPv4 n.EnableIPv6 eniQuota.MaxIP e).2 ∧
      (visitInterface n eniQuota true a interfaceID (some e)).1.AvailableForAllocationIPv4 =
        IntMin
          (if subnet.GetBorrowedIPNum interfaceID > 0 then subnet.GetBorrowedIPNum interfaceID
           else subnet.BorrowedAvailableIPsCount)
          (availableOnENI n.EnableIPv4 n.EnableIPv6 eniQuota.MaxIP e).1) := by
  constructor
  · unfold visitInterface
    rw [if_neg hopen]
    simp only [hmode, if_false, hinuse, ne_eq, not_true_eq_false, hspare, Bool.not_false,
      if_true]
  · intro subnet hsub
    unfold visitInterface
    rw [if_neg hopen]
    simp only [hmode, if_false, hinuse, ne_eq, not_true_eq_false, hspare, Bool.not_true,
      Bool.false_eq_true, hsub]
    refine ⟨trivial, trivial, ?_⟩
    split_ifs <;> rfl

/-- On a node whose only interface is in use and not in primary-IP mode,
`__prepareIPAllocation` without subnet check returns an action that carries the
pair computed by lines 222-241 for that interface. -/
theorem prepareIPAllocation_single (n : Node) (q : ENIQuota) (interfaceID : String)
    (e : eniResource) (hq : n.eniQuota = some q) (hifs : n.interfaces = [(interfaceID, some e)])
    (hmode : e.UseMode ≠ ENIUseModePrimaryIP) (hinuse : e.VPCStatus = Bcesync.VPCENIStatusInuse) :
    ∃ a, __prepareIPAllocation n false = (some a, none) ∧
      a.AvailableForAllocationIPv4 = (availableOnENI n.EnableIPv4 n.EnableIPv6 q.MaxIP e).1 ∧
      a.AvailableForAllocationIPv6 = (availableOnENI n.EnableIPv4 n.EnableIPv6 q.MaxIP e).2 := by
  have hv : visitInterface n q false emptyAction interfaceID (some e) =
      (if (availableOnENI n.EnableIPv4 n.EnableIPv6 q.MaxIP e).1 = 0 ∧
          (availableOnENI n.EnableIPv4 n.EnableIPv6 q.MaxIP e).2 = 0 then (emptyAction, none)
       else ({ emptyAction with
                InterfaceID := interfaceID, PoolID := e.ENI.SubnetID,
                AvailableForAllocationIPv4 :=
                  (availableOnENI n.EnableIPv4 n.EnableIPv6 q.MaxIP e).1,
                AvailableForAllocationIPv6 :=
                  (availableOnENI n.EnableIPv4 n.EnableIPv6 q.MaxIP e).2 }, none)) := by
    unfold visitInterface
    have h0 : ¬ ((emptyAction.AvailableForAllocationIPv4 > 0 ∨
        emptyAction.AvailableForAllocationIPv6 > 0) ∧
        emptyAction.PoolID ≠ "" ∧ emptyAction.InterfaceID ≠ "") := by
      intro h
      exact h.2.1 rfl
    rw [if_neg h0]
    simp only [hmode, if_false, hinuse, ne_eq, not_true_eq_false, Bool.not_false, if_true]
  unfold __prepareIPAllocation
  rw [hq, hifs]
  simp only [foreachInterface]
  rw [hv]
  by_cases hz : (availableOnENI n.EnableIPv4 n.EnableIPv6 q.MaxIP e).1 = 0 ∧
      (availableOnENI n.EnableIPv4 n.EnableIPv6 q.MaxIP e).2 = 0
  · rw [if_pos hz]
    exact ⟨_, rfl, hz.1.symm, hz.2.symm⟩
  · rw [if_neg hz]
    exact ⟨_, rfl, rfl, rfl⟩

/-- Without error `foreachInterface` counts every interface it is given. -/
theorem foreachInterface_count (n : Node) (q : ENIQuota) (checkSubnet : Bool)
    (interfaces : List (String × Option eniResource)) (a : AllocationAction) (eniCount : Int)
    (h : (foreachInterface n q checkSubnet interfaces a eniCount).2.2 = none) :
    (foreachInterface n q checkSubnet interfaces a eniCount).2.1 =
      eniCount + (interfaces.length : Int) := by
  induction interfaces generalizing a eniCount with
  | nil => simp [foreachInterface]
  | cons head rest ih =>
    obtain ⟨interfaceID, iface⟩ := head
    unfold foreachInterface at h ⊢
    rcases hv : visitInterface n q checkSubnet a interfaceID iface with ⟨a1, _ | err⟩
    · rw [hv] at h
      simp only at h ⊢
      rw [ih a1 (eniCount + 1) h]
      simp only [List.length_cons, Nat.cast_add, Nat.cast_one]
      omega
    · rw [hv] at h
      simp at h

/-- When `__prepareIPAllocation` returns without error, `AvailableInterfaces`
is `max (maxENI - number of attached interfaces) 0`, which is not negative. -/
theorem prepareIPAllocation_interfaces (n : Node) (checkSubnet : Bool) (a : AllocationAction)
    (h : __prepareIPAllocation n checkSubnet = (some a, none)) :
    ∃ q, n.eniQuota = some q ∧
      a.AvailableInterfaces = max (q.MaxENI - (n.interfaces.length : Int)) 0 ∧
      0 ≤ a.AvailableInterfaces := by
  unfold __prepareIPAllocation at h
  rcases hq : n.eniQuota with _ | q
  · rw [hq] at h
    simp at h
  · rw [hq] at h
    simp only at h
    rcases hf : foreachInterface n q checkSubnet n.interfaces emptyAction 0 with ⟨a1, c, err⟩
    have hc := foreachInterface_count n q checkSubnet n.interfaces emptyAction 0
    rw [hf] at h hc
    simp only [Prod.mk.injEq, Option.some.injEq] at h
    obtain ⟨ha, herr⟩ := h
    have hc2 := hc herr
    simp only at hc2
    refine ⟨q, rfl, ?_⟩
    rw [← ha]
    simp only [IntMax, hc2]
    constructor <;> split_ifs <;> omega

/-- Claim C30 fails on the code: on a dual-stack node with a limit of 2
addresses per interface whose only interface has 3 IPv4 and 4 IPv6 addresses,
`__prepareIPAllocation` returns without error an action whose
`AvailableForAllocationIPv4` is `-1`, without and with the subnet check. -/
theorem prepareIPAllocation_negative :
    (__prepareIPAllocation (dualStackNode 2 3 4) false).2 = none ∧
    (__prepareIPAllocation (dualStackNode 2 3 4) false).1.map
      (fun a => a.AvailableForAllocationIPv4) = some (-1) ∧
    (__prepareIPAllocation (dualStackNode 2 3 4) true).2 = none ∧
    (__prepareIPAllocation (dualStackNode 2 3 4) true).1.map
      (fun a => a.AvailableForAllocationIPv4) = some (-1) := by
  decide

end Vpceni

namespace Vpceni

open Ipam

/-! ## Theorems: `reuseIPs` -/

/-- Claim C27 fails on the code: when the request has an IPv4 and an IPv6
address and the IPv4 add fails, the rollback releases the IPv6 address, which
this call never added, from the target interface; and when the IPv4 add
succeeds and the IPv6 add fails, the rollback releases both addresses, the IPv6
one included. -/
theorem reuseIPs_rollback_releases_unadded :
    (reuseIPs failingAddWorld migratedIPs "default/pod-1").calls =
      [CloudCall.BatchDeletePrivateIP ["10.0.0.5"] "eni-old" false,
       CloudCall.BatchAddPrivateIpCrossSubnet "eni-1" "sbn-2" ["10.0.0.5"] 1 false,
       CloudCall.BatchDeletePrivateIP ["fd00::5"] "eni-1" true] ∧
    (reuseIPs failingIPv6AddWorld migratedIPs "default/pod-1").calls =
      [CloudCall.BatchDeletePrivateIP ["10.0.0.5"] "eni-old" false,
       CloudCall.BatchAddPrivateIpCrossSubnet "eni-1" "sbn-2" ["10.0.0.5"] 1 false,
       CloudCall.BatchAddPrivateIpCrossSubnet "eni-1" "sbn-2" ["fd00::5"] 1 true,
       CloudCall.BatchDeletePrivateIP ["10.0.0.5", "fd00::5"] "eni-1" true] ∧
    (reuseIPs reuseWorld migratedIPs "default/pod-1").calls =
      [CloudCall.BatchDeletePrivateIP ["10.0.0.5"] "eni-old" false,
       CloudCall.BatchAddPrivateIpCrossSubnet "eni-1" "sbn-2" ["10.0.0.5"] 1 false,
       CloudCall.BatchAddPrivateIpCrossSubnet "eni-1" "sbn-2" ["fd00::5"] 1 true] := by
  decide

end Vpceni

namespace Bcesync

open Ipam

/-- When no address of the set is the value `old` of the annotation, the loop
of `ElectENIIPv6PrimaryIP` leaves the set as it is and its flag tells whether an
address is marked primary. -/
theorem electLoop_no_match (old : String) (ipset : List PrivateIP)
    (hfresh : ∀ ip ∈ ipset, ip.PrivateIPAddress ≠ old) :
    (electLoop old ipset).1 = ipset ∧
    ((electLoop old ipset).2 = true ↔ 0 < countPrimary ipset) := by
  induction ipset with
  | nil => simp [electLoop, countPrimary]
  | cons ip rest ih =>
    have hip : (ip.PrivateIPAddress == old) = false := by
      simpa using hfresh ip (List.mem_cons_self _ _)
    have hrest := ih (fun x hx => hfresh x (List.mem_cons_of_mem _ hx))
    unfold electLoop
    simp only [hip, Bool.false_eq_true, if_false]
    by_cases hp : ip.Primary = true
    · simp [hp, countPrimary, List.filter_cons]
    · have hp2 : ip.Primary = false := by simpa using hp
      simp only [hp2, Bool.false_eq_true, if_false]
      refine ⟨by rw [hrest.1], ?_⟩
      rw [hrest.2]
      simp [countPrimary, List.filter_cons, hp2]

/-- What claim C21 asks holds when the annotation names no address of the set:
for a non-empty IPv6 set with at most one address marked primary, exactly one
address is marked primary after `ElectENIIPv6PrimaryIP`. -/
theorem ElectENIIPv6PrimaryIP_exactly_one (newObj : ENI)
    (hne : newObj.Spec.ENI.IPV6PrivateIPSet ≠ [])
    (hmost : countPrimary newObj.Spec.ENI.IPV6PrivateIPSet ≤ 1)
    (hfresh : ∀ ip ∈ newObj.Spec.ENI.IPV6PrivateIPSet, ip.PrivateIPAddress ≠
      (mapGet (newObj.Annotations.getD []) AnnotationENIIPv6PrimaryIP).getD "") :
    countPrimary (ElectENIIPv6PrimaryIP newObj).Spec.ENI.IPV6PrivateIPSet = 1 := by
  obtain ⟨h1, h2⟩ := electLoop_no_match _ _ hfresh
  have hlen : newObj.Spec.ENI.IPV6PrivateIPSet.length > 0 := by
    cases hl : newObj.Spec.ENI.IPV6PrivateIPSet with
    | nil => exact absurd hl hne
    | cons a l => simp
  unfold ElectENIIPv6PrimaryIP
  rw [if_pos hlen]
  dsimp only
  by_cases hflag : (electLoop ((mapGet (newObj.Annotations.getD []) AnnotationENIIPv6PrimaryIP).getD "")
      newObj.Spec.ENI.IPV6PrivateIPSet).2 = true
  · have hpos := h2.mp hflag
    simp only [hflag, Bool.not_true, Bool.false_eq_true, if_false]
    rw [h1]
    omega
  · have hzero : countPrimary newObj.Spec.ENI.IPV6PrivateIPSet = 0 := by
      have := mt h2.mpr hflag
      omega
    simp only [hflag, Bool.not_false, if_true]
    rw [h1]
    cases hl : newObj.Spec.ENI.IPV6PrivateIPSet with
    | nil => exact absurd hl hne
    | cons first rest =>
      rw [hl] at hzero
      by_cases hp : first.Primary = true
      · simp [countPrimary, List.filter_cons, hp] at hzero
      · have hp2 : first.Primary = false := by simpa using hp
        simpa [countPrimary, List.filter_cons, hp2] using hzero

end Bcesync

namespace Vpceni

open Ipam

/-- Unless both address counts are above the limit, the pair of lines 222-241
is not negative. -/
theorem availableOnENI_nonneg (enableIPv4 enableIPv6 : Bool) (limit : Int) (e : eniResource)
    (h : (e.ENI.PrivateIPSet.length : Int) ≤ limit ∨
      (e.ENI.IPV6PrivateIPSet.length : Int) ≤ limit) :
    0 ≤ (availableOnENI enableIPv4 enableIPv6 limit e).1 ∧
    0 ≤ (availableOnENI enableIPv4 enableIPv6 limit e).2 := by
  unfold availableOnENI IntMin IntMax
  dsimp only
  revert h
  generalize (e.ENI.PrivateIPSet.length : Int) = v4
  generalize (e.ENI.IPV6PrivateIPSet.length : Int) = v6
  intro h
  cases enableIPv4 <;> cases enableIPv6 <;>
    simp only [Bool.and_self, Bool.and_true, Bool.and_false, Bool.false_eq_true, if_true,
      if_false] <;>
    constructor <;> (try split_ifs) <;> (try simp only []) <;> omega

/-- The rollback of `reuseIPs` after a failed IPv4 add: whatever the request
and the world, the deferred function releases from the target interface the IPv6
address of the request if there is one, and nothing otherwise. -/
theorem reuseAllocate_ipv4_failure (w : ReuseWorld) (eniID : String) (before : List CloudCall)
    (v4 : Bcesync.PrivateIP) (ipv6Result : Option Bcesync.PrivateIP) (ipstr : List String)
    (err : Error)
    (hadd : w.BatchAddPrivateIpCrossSubnet eniID v4.SubnetID [v4.PrivateIPAddress] 1 false =
      (ipstr, some err)) :
    (reuseAllocate w eniID before (some v4) ipv6Result).calls =
      before ++
        [CloudCall.BatchAddPrivateIpCrossSubnet eniID v4.SubnetID [v4.PrivateIPAddress] 1 false] ++
        (match ipv6Result with
          | some v6 => [CloudCall.BatchDeletePrivateIP [v6.PrivateIPAddress] eniID true]
          | none => []) := by
  unfold reuseAllocate
  simp only [hadd]
  cases ipv6Result <;> simp [rollback]

end Vpceni
